import Mathlib

/-!
# C0 virtual machine

A shallow embedding of the interpreter of `c0vm.c` (function `execute`) and of the value
layer of `lib/c0vm.h`, followed by theorems about single dispatch iterations.

Conventions of the embedding.

* C `int` / `int32_t` values are mathematical integers; every place where the C code
  converts between `int` and `unsigned int`, or where a 32-bit result is produced by a
  bit operation, goes through `to_unsigned` / `to_int` (reduction modulo `2^32`).
  Signed overflow of `<<` and of `*` is the two's-complement wrap-around the target
  machine performs.
* Pointers are 64-bit addresses, a natural number below `2^64`; `NULL` is `0`.
* `size_t` arithmetic on the program counter that can leave the range is reduced
  modulo `2^64` (`size_t_wrap`).  The increments `pc++` happen after a successful read of
  `P[pc]`, so `pc` is below the length of a C array and the increment cannot wrap.
* A call of one of the abort functions of `lib/c0vm_abort.h`, of `abort()`, a failed
  `assert`, and C undefined behaviour all end the run: the step returns `Except.error`.
* The instructions that dereference a pointer taken from the operand stack (`IMLOAD` ..
  `CMSTORE`, and the reads of an array descriptor in `ARRAYLENGTH` and `AADDS`) access
  the bytes of the blocks the allocator handed out (`Heap.accessible`); an access through
  a pointer to anywhere else is undefined behaviour.
* The dispatch loop `while (true) switch (P[pc])` is the iteration of `step`.
-/

namespace C0VM

/-! ## Bytes and machine integers -/

/-- The type `ubyte` of `lib/c0vm.h` (`typedef uint8_t ubyte`). -/
abbrev ubyte := Fin 256

/-- The conversion `(unsigned int) x` of an `int`: the residue modulo `2^32`. -/
def to_unsigned (x : Int) : Nat := (x % 2 ^ 32).toNat

/-- The conversion `(int) u` of an `unsigned int`: the two's-complement reading of the
low 32 bits. -/
def to_int (u : Nat) : Int :=
  if u % 2 ^ 32 < 2 ^ 31 then ((u % 2 ^ 32 : Nat) : Int) else ((u % 2 ^ 32 : Nat) : Int) - 2 ^ 32

/-- The conversion `(int16_t) z`: the two's-complement reading of the low 16 bits. -/
def to_int16 (z : Int) : Int :=
  if z % 2 ^ 16 < 2 ^ 15 then z % 2 ^ 16 else z % 2 ^ 16 - 2 ^ 16

/-- The conversion `(byte) b` of a `ubyte` (`typedef int8_t byte`), then widened to a
signed type: `(int)(byte) b` and `(int16_t)(byte) b`. -/
def byte_of_ubyte (b : ubyte) : Int :=
  if b.val < 128 then (b.val : Int) else (b.val : Int) - 256

/-- The C expression `x << k` on `int`. -/
def int_shl (x : Int) (k : Nat) : Int := to_int (to_unsigned x <<< k)

/-- The C expression `x >> k` on `int` (arithmetic shift). -/
def int_shr (x : Int) (k : Nat) : Int := x >>> k

/-- The C expression `x | y` on `int`. -/
def int_or (x y : Int) : Int := to_int (to_unsigned x ||| to_unsigned y)

/-- The C expression `x & y` on `int`. -/
def int_and (x y : Int) : Int := to_int (to_unsigned x &&& to_unsigned y)

/-- The C expression `x ^ y` on `int`. -/
def int_xor (x y : Int) : Int := to_int (to_unsigned x ^^^ to_unsigned y)

/-- The C expression `x * y` on `int`. -/
def int_mul (x y : Int) : Int := to_int (to_unsigned x * to_unsigned y)

/-- Reduction of an integer to `size_t` (64 bits). -/
def size_t_wrap (z : Int) : Nat := (z % 2 ^ 64).toNat

/-- The constant `-2147483648` compared against in `IDIV` and `IREM`. -/
def INT_MIN : Int := -2147483648

/-! ## Abnormal termination -/

/-- The ways a run ends abnormally.  The first five are the abort functions declared in
`lib/c0vm_abort.h`; messages are kept as the `char*` that was passed. -/
inductive Abort where
  | user_error (err : Nat)
  | assertion_failure (err : Nat)
  | memory_error
  | value_error
  | arith_error
  | invalid_opcode (op : ubyte)
  | assert_failed
  | alloc_failed
  | undefined
  deriving DecidableEq, Repr

/-- Modelled from the spec: the body of `c0_user_error` (declared in `lib/c0vm_abort.h`)
is not among the sources; an abort category "fires with a diagnostic message and
terminates the VM". -/
def c0_user_error {α : Type} (err : Nat) : Except Abort α := .error (.user_error err)

/-- Modelled from the spec: the body of `c0_assertion_failure` is not among the sources;
it terminates the VM. -/
def c0_assertion_failure {α : Type} (err : Nat) : Except Abort α :=
  .error (.assertion_failure err)

/-- Modelled from the spec: the body of `c0_memory_error` is not among the sources; it
terminates the VM. -/
def c0_memory_error {α : Type} : Except Abort α := .error .memory_error

/-- Modelled from the spec: the body of `c0_value_error` is not among the sources; it
terminates the VM. -/
def c0_value_error {α : Type} : Except Abort α := .error .value_error

/-- Modelled from the spec: the body of `c0_arith_error` is not among the sources; it
terminates the VM. -/
def c0_arith_error {α : Type} : Except Abort α := .error .arith_error

/-! ## Values (`lib/c0vm.h`) -/

/-- The enumeration `enum c0_val_kind`. -/
inductive c0_val_kind where
  | C0_INTEGER
  | C0_POINTER
  deriving DecidableEq, Repr

/-- The struct `c0_value_header`: a kind together with the member of the union `payload`
that belongs to it (`payload.i` for an integer, `payload.p` for a pointer). -/
inductive c0_value where
  | int (i : Int)
  | ptr (p : Nat)
  deriving DecidableEq, Repr

/-- The field `kind` of a value. -/
def c0_value.kind : c0_value → c0_val_kind
  | .int _ => .C0_INTEGER
  | .ptr _ => .C0_POINTER

/-- The function `int2val`. -/
def int2val (i : Int) : c0_value := .int i

/-- The function `val2int`. -/
def val2int : c0_value → Except Abort Int
  | .int i => .ok i
  | .ptr _ => c0_value_error

/-- The function `ptr2val`. -/
def ptr2val (p : Nat) : c0_value := .ptr p

/-- The function `val2ptr`. -/
def val2ptr : c0_value → Except Abort Nat
  | .int _ => c0_value_error
  | .ptr p => .ok p

/-- The null pointer. -/
def NULL : Nat := 0

/-- The macro `PTR_TYPE_SHIFT`. -/
def PTR_TYPE_SHIFT : Nat := 62

/-- The macro `TAGGEDPTR_BITS`. -/
def TAGGEDPTR_BITS : Nat := 0x2

/-- The macro `FUNPTR_BITS`. -/
def FUNPTR_BITS : Nat := 0x1

/-- The macro `TAGGEDPTR_MASK`. -/
def TAGGEDPTR_MASK : Nat := TAGGEDPTR_BITS <<< PTR_TYPE_SHIFT

/-- The macro `FUNPTR_MASK`. -/
def FUNPTR_MASK : Nat := FUNPTR_BITS <<< PTR_TYPE_SHIFT

/-- The function `ptr_type`. -/
def ptr_type (p : Nat) : Nat := p >>> PTR_TYPE_SHIFT

/-- The function `is_taggedptr`. -/
def is_taggedptr (p : Nat) : Bool := ptr_type p == TAGGEDPTR_BITS

/-- The function `is_funptr`. -/
def is_funptr (p : Nat) : Bool := ptr_type p == FUNPTR_BITS

/-- The function `unmark_tagged_ptr` (its `REQUIRES` lines are established by the one
caller embedded here, `val_equal`). -/
def unmark_tagged_ptr (p : Nat) : Nat := p ^^^ TAGGEDPTR_MASK

/-! ## The C heap -/

/-- The byte-addressed memory the pointers of the VM refer to.  `mem` lists the bytes
that were written, latest first, an address that is not listed holds `0`; `next` is the
first address the allocator has not handed out; `blocks` lists the allocated blocks, each
by its first address and its size in bytes. -/
structure Heap where
  mem : List (Nat × Nat)
  next : Nat
  blocks : List (Nat × Nat)
  deriving DecidableEq, Repr

/-- The `n` bytes from address `a` lie within one allocated block: the condition under
which C defines a load or a store of `n` bytes through a pointer to `a`. -/
def Heap.accessible (H : Heap) (a n : Nat) : Bool :=
  H.blocks.any (fun b => decide (b.1 ≤ a) && decide (a + n ≤ b.1 + b.2))

/-- The byte at address `a`. -/
def Heap.read8 (H : Heap) (a : Nat) : Nat :=
  match H.mem.find? (fun e => e.1 == a) with
  | some e => e.2 % 256
  | none => 0

/-- Store of one byte at address `a`. -/
def Heap.write8 (H : Heap) (a : Nat) (b : Nat) : Heap :=
  { H with mem := (a, b % 256) :: H.mem }

/-- The little-endian number held in the `n` bytes from address `a`. -/
def Heap.readLE (H : Heap) (a : Nat) : Nat → Nat
  | 0 => 0
  | n + 1 => H.read8 a + 256 * H.readLE (a + 1) n

/-- Store of the `n` low bytes of `x` from address `a`, little-endian. -/
def Heap.writeLE (H : Heap) (a : Nat) (x : Nat) : Nat → Heap
  | 0 => H
  | n + 1 => (H.write8 a (x % 256)).writeLE (a + 1) (x / 256) n

/-- The load `*(int*) a`. -/
def Heap.read_int (H : Heap) (a : Nat) : Int := to_int (H.readLE a 4)

/-- The store `*(int*) a = x`. -/
def Heap.write_int (H : Heap) (a : Nat) (x : Int) : Heap := H.writeLE a (to_unsigned x) 4

/-- The load `*(void**) a`. -/
def Heap.read_ptr (H : Heap) (a : Nat) : Nat := H.readLE a 8

/-- The store `*(void**) a = p`. -/
def Heap.write_ptr (H : Heap) (a : Nat) (p : Nat) : Heap := H.writeLE a (p % 2 ^ 64) 8

/-- The field `p` of the `c0_tagged_ptr` at address `t` (offset 0). -/
def tagged_ptr_p (H : Heap) (t : Nat) : Nat := H.read_ptr t

/-- Modelled from the spec: `xmalloc` of `lib/xalloc.h` is not among the sources.  It
hands out a fresh non-null block of `size` bytes below `2^62`, so that the address is a
regular pointer, and ends the run when there is none. -/
def xmalloc (H : Heap) (size : Nat) : Except Abort (Nat × Heap) :=
  if H.next = 0 ∨ 2 ^ 62 ≤ H.next + size then .error .alloc_failed
  else .ok (H.next,
    { H with next := H.next + max 1 size, blocks := (H.next, size) :: H.blocks })

/-- Modelled from the spec: `xcalloc` of `lib/xalloc.h` is not among the sources.  It
"allocates a zero-filled block": a fresh non-null block of `nobj * size` bytes below
`2^62`, all of whose bytes read `0`; it ends the run when there is none. -/
def xcalloc (H : Heap) (nobj size : Nat) : Except Abort (Nat × Heap) :=
  if H.next = 0 ∨ 2 ^ 62 ≤ H.next + nobj * size then .error .alloc_failed
  else .ok (H.next,
    { mem := H.mem.filter (fun e => !(decide (H.next ≤ e.1) && decide (e.1 < H.next + nobj * size))),
      next := H.next + max 1 (nobj * size),
      blocks := (H.next, nobj * size) :: H.blocks })

/-! ## Tagged pointers and function pointers -/

/-- The function `mark_tagged_ptr` (its `REQUIRES` lines are contracts on the caller). -/
def mark_tagged_ptr (p : Nat) : Nat := p ||| TAGGEDPTR_MASK

/-- The size `sizeof(c0_tagged_ptr)`: a pointer and a `uint16_t`, padded. -/
def sizeof_c0_tagged_ptr : Nat := 16

/-- The function `tagged_ptr2val`: the null pointer is returned untagged; otherwise a box
`{p, tag}` is allocated (fields at offsets 0 and 8) and its marked address returned. -/
def tagged_ptr2val (H : Heap) (p : Nat) (tag : Nat) : Except Abort (c0_value × Heap) :=
  if p = NULL then .ok (ptr2val NULL, H)
  else do
    let (tagged_ptr, H1) ← xmalloc H sizeof_c0_tagged_ptr
    let H2 := (H1.write_ptr tagged_ptr p).writeLE (tagged_ptr + 8) (tag % 2 ^ 16) 2
    pure (ptr2val (mark_tagged_ptr tagged_ptr), H2)

/-- The function `val2tagged_ptr`. -/
def val2tagged_ptr : c0_value → Except Abort Nat
  | .int _ => c0_value_error
  | .ptr p =>
      if p = NULL then .ok NULL
      else if !is_taggedptr p then c0_value_error
      else .ok (unmark_tagged_ptr p)

/-- The macro `FUNPTR_TYPE_SHIFT`. -/
def FUNPTR_TYPE_SHIFT : Nat := 31

/-- The function `create_funptr`; `index` is a `uint16_t`. -/
def create_funptr (is_native : Bool) (index : Nat) : Nat :=
  (FUNPTR_MASK ||| ((if is_native then 1 else 0) <<< FUNPTR_TYPE_SHIFT)) ||| (index % 2 ^ 16)

/-- The function `is_native_funptr`. -/
def is_native_funptr (p : Nat) : Except Abort Bool :=
  if !is_funptr p then c0_value_error
  else .ok (((p >>> FUNPTR_TYPE_SHIFT) &&& 0x1) != 0)

/-- The function `funptr2index`. -/
def funptr2index (p : Nat) : Except Abort Nat :=
  if !is_funptr p then c0_value_error
  else .ok ((p &&& 0xFFFF) % 2 ^ 16)

/-! ## Equality of values -/

/-- The function `val_equal` of `lib/c0vm.h`.  `DEBUG` tells whether the contract macros
of `lib/contracts.h` (`ASSERT`) are compiled in. -/
def val_equal (DEBUG : Bool) (H : Heap) (v1 v2 : c0_value) : Except Abort Bool :=
  if v1.kind ≠ v2.kind then c0_value_error
  else match v1, v2 with
    | .int _, _ => do
        let i1 ← val2int v1
        let i2 ← val2int v2
        pure (i1 == i2)
    | .ptr p1, .ptr p2 =>
        if (p1 == NULL) != (p2 == NULL) then pure false
        else if p1 == NULL && p2 == NULL then pure true
        else if is_taggedptr p1 && is_taggedptr p2 then
          let t1 := unmark_tagged_ptr p1
          let t2 := unmark_tagged_ptr p2
          if DEBUG && is_taggedptr t1 then .error .assert_failed
          else if DEBUG && is_taggedptr t2 then .error .assert_failed
          else if DEBUG && !(tagged_ptr_p H t1 != NULL && tagged_ptr_p H t2 != NULL) then
            .error .assert_failed
          else pure (tagged_ptr_p H t1 == tagged_ptr_p H t2)
        else if !is_taggedptr p1 && !is_taggedptr p2 then
          if ptr_type p1 != ptr_type p2 then c0_value_error
          else pure (p1 == p2)
        else c0_value_error
    | .ptr _, .int _ => c0_value_error

/-! ## The program file (`struct bc0_file`) -/

/-- The struct `function_info`. -/
structure function_info where
  num_args : Nat
  num_vars : Nat
  code_length : Nat
  code : List ubyte
  deriving DecidableEq, Repr

/-- The struct `native_info`. -/
structure native_info where
  num_args : Nat
  function_table_index : Nat
  deriving DecidableEq, Repr

/-- The struct `bc0_file`, with the fields `execute` reads.  `string_pool` is the address
of the first byte of the string pool. -/
structure bc0_file where
  int_pool : List Int
  string_pool : Nat
  function_pool : List function_info
  native_pool : List native_info
  deriving DecidableEq, Repr

/-- The type `native_fn` of the entries of `native_function_table`: a native receives the
argument array and may read and change the heap. -/
abbrev native_fn := List c0_value → Heap → Except Abort (c0_value × Heap)

/-! ## Instruction opcodes (`enum instructions`) -/

def IADD : ubyte := 0x60
def IAND : ubyte := 0x7E
def IDIV : ubyte := 0x6C
def IMUL : ubyte := 0x68
def IOR : ubyte := 0x80
def IREM : ubyte := 0x70
def ISHL : ubyte := 0x78
def ISHR : ubyte := 0x7A
def ISUB : ubyte := 0x64
def IXOR : ubyte := 0x82
def DUP : ubyte := 0x59
def POP : ubyte := 0x57
def SWAP : ubyte := 0x5F
def NEWARRAY : ubyte := 0xBC
def ARRAYLENGTH : ubyte := 0xBE
def NEW : ubyte := 0xBB
def AADDF : ubyte := 0x62
def AADDS : ubyte := 0x63
def IMLOAD : ubyte := 0x2E
def AMLOAD : ubyte := 0x2F
def IMSTORE : ubyte := 0x4E
def AMSTORE : ubyte := 0x4F
def CMLOAD : ubyte := 0x34
def CMSTORE : ubyte := 0x55
def VLOAD : ubyte := 0x15
def VSTORE : ubyte := 0x36
def ACONST_NULL : ubyte := 0x01
def BIPUSH : ubyte := 0x10
def ILDC : ubyte := 0x13
def ALDC : ubyte := 0x14
def NOP : ubyte := 0x00
def IF_CMPEQ : ubyte := 0x9F
def IF_CMPNE : ubyte := 0xA0
def IF_ICMPLT : ubyte := 0xA1
def IF_ICMPGE : ubyte := 0xA2
def IF_ICMPGT : ubyte := 0xA3
def IF_ICMPLE : ubyte := 0xA4
def GOTO : ubyte := 0xA7
def ATHROW : ubyte := 0xBF
def ASSERT : ubyte := 0xCF
def INVOKESTATIC : ubyte := 0xB8
def INVOKENATIVE : ubyte := 0xB7
def RETURN : ubyte := 0xB0
def ADDROF_STATIC : ubyte := 0x16
def ADDROF_NATIVE : ubyte := 0x17
def INVOKEDYNAMIC : ubyte := 0xB6
def CHECKTAG : ubyte := 0xC0
def HASTAG : ubyte := 0xC1
def ADDTAG : ubyte := 0xC2

/-! ## Machine state -/

/-- The struct `frame_info` of `c0vm.c`. -/
structure frame where
  S : List c0_value
  P : List ubyte
  pc : Nat
  V : List c0_value
  deriving DecidableEq, Repr

/-- The variables of `execute` that live across iterations of the dispatch loop (`S`, `P`,
`pc`, `V`, `callStack`), and the heap.  The head of `S` is the top of the operand stack,
the head of `callStack` the most recent frame. -/
structure State where
  S : List c0_value
  P : List ubyte
  pc : Nat
  V : List c0_value
  callStack : List frame
  H : Heap
  deriving DecidableEq, Repr

/-- What one iteration of the dispatch loop leaves: the loop goes on in a new state, or
`execute` returns a result. -/
inductive Outcome where
  | running (s : State)
  | returned (result : Int)
  deriving DecidableEq, Repr

/-- Modelled from the spec: `c0v_pop` of `lib/c0v_stack.h` is not among the sources.  The
operand stack is "a LIFO of values"; popping the empty stack breaks the contract of the
library. -/
def c0v_pop : List c0_value → Except Abort (c0_value × List c0_value)
  | [] => .error .undefined
  | v :: S => .ok (v, S)

/-- Modelled from the spec: `c0v_push` of `lib/c0v_stack.h` is not among the sources; it
puts a value on top of the LIFO. -/
def c0v_push (S : List c0_value) (v : c0_value) : List c0_value := v :: S

/-- The pair of lines `assert(!c0v_stack_empty(S)); ... c0v_pop(S)`. -/
def assert_pop : List c0_value → Except Abort (c0_value × List c0_value)
  | [] => .error .assert_failed
  | v :: S => .ok (v, S)

/-- The read `P[pc]` of a code byte; reading past the end of the array is undefined. -/
def fetch (P : List ubyte) (pc : Nat) : Except Abort ubyte :=
  match P[pc]? with
  | some b => .ok b
  | none => .error .undefined

/-- An array of `n` values obtained from `xcalloc`: all bytes zero, which is the integer
value `0` (`C0_INTEGER` is the first enumerator). -/
def calloc_values (n : Nat) : List c0_value := List.replicate n (c0_value.int 0)

/-- The assignment `A[i] = v` on an array of values; an index past the end is
undefined. -/
def array_set (A : List c0_value) (i : Nat) (v : c0_value) : Except Abort (List c0_value) :=
  if i < A.length then .ok (A.set i v) else .error .undefined

/-- The loop `for (size_t i = 0; i < num_args; i++) temp[num_args-i-1] = c0v_pop(S);` of
`INVOKESTATIC` and `INVOKENATIVE`, from the iteration `i` on; `todo` is the number of
iterations left, `num_args - i`. -/
def pop_args (num_args : Nat) : Nat → Nat → List c0_value → List c0_value →
    Except Abort (List c0_value × List c0_value)
  | 0, _, temp, S => .ok (temp, S)
  | todo + 1, i, temp, S => do
      let (v, S1) ← c0v_pop S
      let temp1 ← array_set temp (num_args - i - 1) v
      pop_args num_args todo (i + 1) temp1 S1

/-- The branch offset of the six conditional branches:
`offset1 = (int16_t)(byte) o1; offset2 = (int16_t)(byte) o2;` and then
`(offset1<<8|offset2)`. -/
def cond_offset (o1 o2 : ubyte) : Int :=
  int_or (int_shl (byte_of_ubyte o1) 8) (byte_of_ubyte o2)

/-- The branch offset of `GOTO`:
`newo1 = (int16_t) o1; newo2 = (int16_t) o2; offset = (int16_t)(newo1<<8|newo2)`. -/
def goto_offset (o1 o2 : ubyte) : Int :=
  to_int16 (int_or (int_shl (o1.val : Int) 8) (o2.val : Int))

/-- The arithmetic `pc + off - 3` on the `size_t` variable `pc`. -/
def branch_pc (pc : Nat) (off : Int) : Nat := size_t_wrap ((pc : Int) + off - 3)

/-! ## The cases of the `switch` in `execute` -/

/-- The C expression `(c1<<8)|c2` on the `uint32_t` operands of a pool index. -/
def pool_index (c1 c2 : ubyte) : Nat := (c1.val <<< 8) ||| c2.val

/-- Case `POP`. -/
def exec_POP (s : State) : Except Abort Outcome := do
  let (_, S1) ← assert_pop s.S
  pure (.running { s with pc := s.pc + 1, S := S1 })

/-- Case `DUP`. -/
def exec_DUP (s : State) : Except Abort Outcome := do
  let (v, S1) ← assert_pop s.S
  pure (.running { s with pc := s.pc + 1, S := c0v_push (c0v_push S1 v) v })

/-- Case `SWAP`. -/
def exec_SWAP (s : State) : Except Abort Outcome := do
  let (v2, S1) ← assert_pop s.S
  let (v1, S2) ← assert_pop S1
  pure (.running { s with pc := s.pc + 1, S := c0v_push (c0v_push S2 v2) v1 })

/-- Case `RETURN`. -/
def exec_RETURN (s : State) : Except Abort Outcome := do
  let (retval, _) ← c0v_pop s.S
  match s.callStack with
  | [] => do
      let r ← val2int retval
      pure (.returned r)
  | caller :: rest =>
      pure (.running { s with S := c0v_push caller.S retval, P := caller.P, V := caller.V,
                              pc := caller.pc, callStack := rest })

/-- The common shape of the binary integer cases: `pc++`, pop `y`, pop `x` (each pop
guarded by `assert(!c0v_stack_empty(S))`), compute, push the result. -/
def exec_binop (f : Int → Int → Except Abort Int) (s : State) : Except Abort Outcome := do
  let (vy, S1) ← assert_pop s.S
  let y ← val2int vy
  let (vx, S2) ← assert_pop S1
  let x ← val2int vx
  let res ← f x y
  pure (.running { s with pc := s.pc + 1, S := c0v_push S2 (int2val res) })

/-- Case `IADD`: `res = (int)((unsigned int)x + (unsigned int)y)`. -/
def exec_IADD : State → Except Abort Outcome :=
  exec_binop (fun x y => pure (to_int (to_unsigned x + to_unsigned y)))

/-- Case `ISUB`: `res = (int)((unsigned int)x - (unsigned int)y)`; the unsigned
subtraction is taken modulo `2^32`. -/
def exec_ISUB : State → Except Abort Outcome :=
  exec_binop (fun x y => pure (to_int (to_unsigned x + 2 ^ 32 - to_unsigned y)))

/-- Case `IMUL`: `res = (int)((unsigned int)x * (unsigned int)y)`. -/
def exec_IMUL : State → Except Abort Outcome :=
  exec_binop (fun x y => pure (to_int (to_unsigned x * to_unsigned y)))

/-- Case `IDIV`: the guard, then `res = x/y` (C division truncates toward zero). -/
def exec_IDIV : State → Except Abort Outcome :=
  exec_binop (fun x y =>
    if y = 0 ∨ (x = INT_MIN ∧ y = -1) then c0_arith_error else pure (Int.tdiv x y))

/-- Case `IREM`: the guard, then `res = x%y` (the C remainder of truncating division). -/
def exec_IREM : State → Except Abort Outcome :=
  exec_binop (fun x y =>
    if y = 0 ∨ (x = INT_MIN ∧ y = -1) then c0_arith_error else pure (Int.tmod x y))

/-- Case `IAND`. -/
def exec_IAND : State → Except Abort Outcome :=
  exec_binop (fun x y => pure (int_and x y))

/-- Case `IOR`. -/
def exec_IOR : State → Except Abort Outcome :=
  exec_binop (fun x y => pure (int_or x y))

/-- Case `IXOR`. -/
def exec_IXOR : State → Except Abort Outcome :=
  exec_binop (fun x y => pure (int_xor x y))

/-- Case `ISHR`: `if(!(0 <= y && y <= 31)) c0_arith_error(...); res = x>>y`. -/
def exec_ISHR : State → Except Abort Outcome :=
  exec_binop (fun x y =>
    if ¬ (0 ≤ y ∧ y ≤ 31) then c0_arith_error else pure (int_shr x y.toNat))

/-- Case `ISHL`: `if(!(0 <= y && y <= 31)) c0_arith_error(...); res = x<<y`. -/
def exec_ISHL : State → Except Abort Outcome :=
  exec_binop (fun x y =>
    if ¬ (0 ≤ y ∧ y ≤ 31) then c0_arith_error else pure (int_shl x y.toNat))

/-- Case `BIPUSH`. -/
def exec_BIPUSH (s : State) : Except Abort Outcome := do
  let b ← fetch s.P (s.pc + 1)
  pure (.running { s with pc := s.pc + 2, S := c0v_push s.S (int2val (byte_of_ubyte b)) })

/-- Case `ILDC`. -/
def exec_ILDC (bc0 : bc0_file) (s : State) : Except Abort Outcome := do
  let c1 ← fetch s.P (s.pc + 1)
  let c2 ← fetch s.P (s.pc + 2)
  match bc0.int_pool[pool_index c1 c2]? with
  | none => .error .undefined
  | some res => pure (.running { s with pc := s.pc + 3, S := c0v_push s.S (int2val res) })

/-- Case `ALDC`. -/
def exec_ALDC (bc0 : bc0_file) (s : State) : Except Abort Outcome := do
  let c1 ← fetch s.P (s.pc + 1)
  let c2 ← fetch s.P (s.pc + 2)
  pure (.running { s with pc := s.pc + 3,
                          S := c0v_push s.S (ptr2val (bc0.string_pool + pool_index c1 c2)) })

/-- Case `ACONST_NULL`. -/
def exec_ACONST_NULL (s : State) : Except Abort Outcome :=
  pure (.running { s with pc := s.pc + 1, S := c0v_push s.S (ptr2val NULL) })

/-- Case `VLOAD`. -/
def exec_VLOAD (s : State) : Except Abort Outcome := do
  let ind ← fetch s.P (s.pc + 1)
  match s.V[ind.val]? with
  | none => .error .undefined
  | some v => pure (.running { s with pc := s.pc + 2, S := c0v_push s.S v })

/-- Case `VSTORE`. -/
def exec_VSTORE (s : State) : Except Abort Outcome := do
  let ind ← fetch s.P (s.pc + 1)
  let (v, S1) ← c0v_pop s.S
  let V1 ← array_set s.V ind.val v
  pure (.running { s with pc := s.pc + 2, S := S1, V := V1 })

/-- Case `ATHROW`. -/
def exec_ATHROW (s : State) : Except Abort Outcome := do
  let (v, _) ← c0v_pop s.S
  let a ← val2ptr v
  c0_user_error a

/-- Case `ASSERT`. -/
def exec_ASSERT (s : State) : Except Abort Outcome := do
  let (va, S1) ← c0v_pop s.S
  let a ← val2ptr va
  let (vx, S2) ← c0v_pop S1
  let x ← val2int vx
  if x = 0 then c0_assertion_failure a
  else pure (.running { s with pc := s.pc + 1, S := S2 })

/-- Case `NOP`. -/
def exec_NOP (s : State) : Except Abort Outcome :=
  pure (.running { s with pc := s.pc + 1 })

/-- Cases `IF_CMPEQ` (`negate = false`) and `IF_CMPNE` (`negate = true`): pop `v1`, pop
`v2`, read `o1` and `o2`, then `if(val_equal(v1, v2)) pc = pc+(offset1<<8|offset2) - 3`,
with `!val_equal(v1, v2)` for `IF_CMPNE`. -/
def exec_IF_CMP (DEBUG : Bool) (negate : Bool) (s : State) : Except Abort Outcome := do
  let (v1, S1) ← c0v_pop s.S
  let (v2, S2) ← c0v_pop S1
  let o1 ← fetch s.P (s.pc + 1)
  let o2 ← fetch s.P (s.pc + 2)
  let eq ← val_equal DEBUG s.H v1 v2
  if eq != negate then
    pure (.running { s with S := S2, pc := branch_pc (s.pc + 3) (cond_offset o1 o2) })
  else
    pure (.running { s with S := S2, pc := s.pc + 3 })

/-- Cases `IF_ICMPLT`, `IF_ICMPGE`, `IF_ICMPGT`, `IF_ICMPLE`: pop `y`, pop `x`, read `o1`
and `o2`, then `if(x ? y) pc = pc+(offset1<<8|offset2) - 3` for the comparison `cmp`. -/
def exec_IF_ICMP (cmp : Int → Int → Bool) (s : State) : Except Abort Outcome := do
  let (vy, S1) ← c0v_pop s.S
  let y ← val2int vy
  let (vx, S2) ← c0v_pop S1
  let x ← val2int vx
  let o1 ← fetch s.P (s.pc + 1)
  let o2 ← fetch s.P (s.pc + 2)
  if cmp x y then
    pure (.running { s with S := S2, pc := branch_pc (s.pc + 3) (cond_offset o1 o2) })
  else
    pure (.running { s with S := S2, pc := s.pc + 3 })

/-- Case `GOTO`. -/
def exec_GOTO (s : State) : Except Abort Outcome := do
  let o1 ← fetch s.P (s.pc + 1)
  let o2 ← fetch s.P (s.pc + 2)
  pure (.running { s with pc := branch_pc (s.pc + 3) (goto_offset o1 o2) })

/-- Case `INVOKESTATIC`. -/
def exec_INVOKESTATIC (bc0 : bc0_file) (s : State) : Except Abort Outcome := do
  let c1 ← fetch s.P (s.pc + 1)
  let c2 ← fetch s.P (s.pc + 2)
  match bc0.function_pool[pool_index c1 c2]? with
  | none => .error .undefined
  | some fi => do
      let (temp, S1) ← pop_args fi.num_args fi.num_args 0 (calloc_values fi.num_vars) s.S
      let callerframe : frame := { S := S1, P := s.P, pc := s.pc + 3, V := s.V }
      pure (.running { s with S := [], P := fi.code, pc := 0, V := temp,
                              callStack := callerframe :: s.callStack })

/-- Case `INVOKENATIVE`. -/
def exec_INVOKENATIVE (bc0 : bc0_file) (native_function_table : List native_fn) (s : State) :
    Except Abort Outcome := do
  let c1 ← fetch s.P (s.pc + 1)
  let c2 ← fetch s.P (s.pc + 2)
  match bc0.native_pool[pool_index c1 c2]? with
  | none => .error .undefined
  | some ni => do
      let (temp, S1) ← pop_args ni.num_args ni.num_args 0 (calloc_values ni.num_args) s.S
      match native_function_table[ni.function_table_index]? with
      | none => .error .undefined
      | some fn => do
          let (result, H1) ← fn temp s.H
          pure (.running { s with pc := s.pc + 3, S := c0v_push S1 result, H := H1 })

/-- Case `NEW`. -/
def exec_NEW (s : State) : Except Abort Outcome := do
  let size ← fetch s.P (s.pc + 1)
  let (ptr, H1) ← xcalloc s.H 1 size.val
  pure (.running { s with pc := s.pc + 2, S := c0v_push s.S (ptr2val ptr), H := H1 })

/-- Case `IMLOAD`: `x = *(int*) ptr`, undefined when the four bytes at `ptr` are not
within an allocated block. -/
def exec_IMLOAD (s : State) : Except Abort Outcome := do
  let (v, S1) ← c0v_pop s.S
  let ptr ← val2ptr v
  if ptr = NULL then c0_memory_error
  else if !s.H.accessible ptr 4 then .error .undefined
  else pure (.running { s with pc := s.pc + 1, S := c0v_push S1 (int2val (s.H.read_int ptr)) })

/-- Case `IMSTORE`: `*(int*)ptr = x`, undefined when the four bytes at `ptr` are not
within an allocated block. -/
def exec_IMSTORE (s : State) : Except Abort Outcome := do
  let (vx, S1) ← c0v_pop s.S
  let x ← val2int vx
  let (v, S2) ← c0v_pop S1
  let ptr ← val2ptr v
  if ptr = NULL then c0_memory_error
  else if !s.H.accessible ptr 4 then .error .undefined
  else pure (.running { s with pc := s.pc + 1, S := S2, H := s.H.write_int ptr x })

/-- Case `AMLOAD`: `B = *A`, undefined when the eight bytes at `A` are not within an
allocated block. -/
def exec_AMLOAD (s : State) : Except Abort Outcome := do
  let (v, S1) ← c0v_pop s.S
  let A ← val2ptr v
  if A = NULL then c0_memory_error
  else if !s.H.accessible A 8 then .error .undefined
  else pure (.running { s with pc := s.pc + 1, S := c0v_push S1 (ptr2val (s.H.read_ptr A)) })

/-- Case `AMSTORE`: `*A = B`, undefined when the eight bytes at `A` are not within an
allocated block. -/
def exec_AMSTORE (s : State) : Except Abort Outcome := do
  let (vB, S1) ← c0v_pop s.S
  let B ← val2ptr vB
  let (vA, S2) ← c0v_pop S1
  let A ← val2ptr vA
  if A = NULL then c0_memory_error
  else if !s.H.accessible A 8 then .error .undefined
  else pure (.running { s with pc := s.pc + 1, S := S2, H := s.H.write_ptr A B })

/-- Case `CMLOAD`: `x = (int)(*(byte*)A)`, undefined when the byte at `A` is not within
an allocated block. -/
def exec_CMLOAD (s : State) : Except Abort Outcome := do
  let (v, S1) ← c0v_pop s.S
  let A ← val2ptr v
  if A = NULL then c0_memory_error
  else if !s.H.accessible A 1 then .error .undefined
  else
    let b : ubyte := Fin.ofNat (s.H.read8 A)
    pure (.running { s with pc := s.pc + 1, S := c0v_push S1 (int2val (byte_of_ubyte b)) })

/-- Case `CMSTORE`: `*(byte*)A = x & 0x7f`, undefined when the byte at `A` is not within
an allocated block. -/
def exec_CMSTORE (s : State) : Except Abort Outcome := do
  let (vx, S1) ← c0v_pop s.S
  let x ← val2int vx
  let (v, S2) ← c0v_pop S1
  let A ← val2ptr v
  if A = NULL then c0_memory_error
  else if !s.H.accessible A 1 then .error .undefined
  else pure (.running { s with pc := s.pc + 1, S := S2,
                               H := s.H.write8 A (to_unsigned (int_and x 0x7f)) })

/-- Case `AADDF`: `new_ptr = (char*)A + f`. -/
def exec_AADDF (s : State) : Except Abort Outcome := do
  let f ← fetch s.P (s.pc + 1)
  let (v, S1) ← c0v_pop s.S
  let A ← val2ptr v
  pure (.running { s with pc := s.pc + 2, S := c0v_push S1 (ptr2val ((A + f.val) % 2 ^ 64)) })

/-- The size `sizeof(c0_array)`: two `int` fields and one pointer. -/
def sizeof_c0_array : Nat := 16

/-- Case `NEWARRAY`: `s = (int)(byte)P[pc]`, `n = val2int(c0v_pop(S))`, and for `n > 0`
the block `xcalloc((size_t)s, (size_t)n)` and the descriptor with the fields `count` (offset
0), `elt_size` (offset 4) and `elems` (offset 8). -/
def exec_NEWARRAY (s : State) : Except Abort Outcome := do
  let b ← fetch s.P (s.pc + 1)
  let sz : Int := byte_of_ubyte b
  let (vn, S1) ← c0v_pop s.S
  let n ← val2int vn
  if n = 0 then
    pure (.running { s with pc := s.pc + 2, S := c0v_push S1 (ptr2val NULL) })
  else if n < 0 then c0_memory_error
  else do
    let (arr, H1) ← xcalloc s.H (size_t_wrap sz) (size_t_wrap n)
    let (c0arr, H2) ← xmalloc H1 sizeof_c0_array
    let H3 := ((H2.write_int c0arr n).write_int (c0arr + 4) sz).write_ptr (c0arr + 8) arr
    pure (.running { s with pc := s.pc + 2, S := c0v_push S1 (ptr2val c0arr), H := H3 })

/-- Case `ARRAYLENGTH`; the read `c0arr->count` of a non-null pointer is undefined when
the descriptor is not within an allocated block. -/
def exec_ARRAYLENGTH (s : State) : Except Abort Outcome := do
  let (v, S1) ← c0v_pop s.S
  let A ← val2ptr v
  if A ≠ NULL ∧ s.H.accessible A sizeof_c0_array = false then .error .undefined
  else
    let n : Int := if A = NULL then 0 else s.H.read_int A
    pure (.running { s with pc := s.pc + 1, S := c0v_push S1 (int2val n) })

/-- Case `AADDS`: `pointer = ((char*)A->elems) + s*i`; the reads `A->count`,
`A->elt_size` and `A->elems` are undefined when the descriptor is not within an allocated
block. -/
def exec_AADDS (s : State) : Except Abort Outcome := do
  let (vi, S1) ← c0v_pop s.S
  let i ← val2int vi
  let (vA, S2) ← c0v_pop S1
  let A ← val2ptr vA
  if A = NULL then c0_memory_error
  else if !s.H.accessible A sizeof_c0_array then .error .undefined
  else if ¬ (0 ≤ i ∧ i < s.H.read_int A) then c0_memory_error
  else
    let sz : Int := s.H.read_int (A + 4)
    let pointer : Nat := size_t_wrap ((s.H.read_ptr (A + 8) : Int) + int_mul sz i)
    pure (.running { s with pc := s.pc + 1, S := c0v_push S2 (ptr2val pointer) })

/-- One iteration of the loop of `execute`: `switch (P[pc])` with its cases in the order of
the source; the cases of the C1 opcodes fall through to `default`. -/
def step (DEBUG : Bool) (bc0 : bc0_file) (native_function_table : List native_fn)
    (s : State) : Except Abort Outcome := do
  let op ← fetch s.P s.pc
  if op = POP then exec_POP s
  else if op = DUP then exec_DUP s
  else if op = SWAP then exec_SWAP s
  else if op = RETURN then exec_RETURN s
  else if op = IADD then exec_IADD s
  else if op = ISUB then exec_ISUB s
  else if op = IMUL then exec_IMUL s
  else if op = IDIV then exec_IDIV s
  else if op = IREM then exec_IREM s
  else if op = IAND then exec_IAND s
  else if op = IOR then exec_IOR s
  else if op = IXOR then exec_IXOR s
  else if op = ISHR then exec_ISHR s
  else if op = ISHL then exec_ISHL s
  else if op = BIPUSH then exec_BIPUSH s
  else if op = ILDC then exec_ILDC bc0 s
  else if op = ALDC then exec_ALDC bc0 s
  else if op = ACONST_NULL then exec_ACONST_NULL s
  else if op = VLOAD then exec_VLOAD s
  else if op = VSTORE then exec_VSTORE s
  else if op = ATHROW then exec_ATHROW s
  else if op = ASSERT then exec_ASSERT s
  else if op = NOP then exec_NOP s
  else if op = IF_CMPEQ then exec_IF_CMP DEBUG false s
  else if op = IF_CMPNE then exec_IF_CMP DEBUG true s
  else if op = IF_ICMPLT then exec_IF_ICMP (fun x y => decide (x < y)) s
  else if op = IF_ICMPGE then exec_IF_ICMP (fun x y => decide (x ≥ y)) s
  else if op = IF_ICMPGT then exec_IF_ICMP (fun x y => decide (x > y)) s
  else if op = IF_ICMPLE then exec_IF_ICMP (fun x y => decide (x ≤ y)) s
  else if op = GOTO then exec_GOTO s
  else if op = INVOKESTATIC then exec_INVOKESTATIC bc0 s
  else if op = INVOKENATIVE then exec_INVOKENATIVE bc0 native_function_table s
  else if op = NEW then exec_NEW s
  else if op = IMLOAD then exec_IMLOAD s
  else if op = IMSTORE then exec_IMSTORE s
  else if op = AMLOAD then exec_AMLOAD s
  else if op = AMSTORE then exec_AMSTORE s
  else if op = CMLOAD then exec_CMLOAD s
  else if op = CMSTORE then exec_CMSTORE s
  else if op = AADDF then exec_AADDF s
  else if op = NEWARRAY then exec_NEWARRAY s
  else if op = ARRAYLENGTH then exec_ARRAYLENGTH s
  else if op = AADDS then exec_AADDS s
  else .error (.invalid_opcode op)

/-- The loop `while (true)` of `execute`, cut off after `fuel` iterations: `some r` when
`execute` returned `r` within them, `none` when the loop is still running. -/
def iterate (DEBUG : Bool) (bc0 : bc0_file) (native_function_table : List native_fn) :
    Nat → State → Except Abort (Option Int)
  | 0, _ => .ok none
  | fuel + 1, s =>
      match step DEBUG bc0 native_function_table s with
      | .error e => .error e
      | .ok (.returned r) => .ok (some r)
      | .ok (.running s1) => iterate DEBUG bc0 native_function_table fuel s1

/-- The state `execute` starts the loop in: empty operand stack, the code of
`function_pool[0]`, `pc = 0`, zeroed locals, empty call stack. -/
def initial_state (bc0 : bc0_file) (H : Heap) : Except Abort State :=
  match bc0.function_pool with
  | [] => .error .undefined
  | f :: _ => .ok { S := [], P := f.code, pc := 0, V := calloc_values f.num_vars,
                    callStack := [], H := H }

/-- The function `execute`, with the loop cut off after `fuel` iterations. -/
def execute (DEBUG : Bool) (bc0 : bc0_file) (native_function_table : List native_fn)
    (H : Heap) (fuel : Nat) : Except Abort (Option Int) := do
  let s ← initial_state bc0 H
  iterate DEBUG bc0 native_function_table fuel s

/-! ## Notions of the specification -/

/-- The reading `signed16((o1<<8)|o2)` of the specification: the 16-bit word with high
byte `o1` and low byte `o2`, in two's complement. -/
def signed16 (o1 o2 : ubyte) : Int :=
  if o1.val * 256 + o2.val < 2 ^ 15 then ((o1.val * 256 + o2.val : Nat) : Int)
  else ((o1.val * 256 + o2.val : Nat) : Int) - 2 ^ 16

/-- The reduction of an integer "modulo `2^32` into the signed 32-bit range". -/
def signed32 (z : Int) : Int := (z + 2 ^ 31) % 2 ^ 32 - 2 ^ 31

/-- The labels of the `switch` of `execute` that have a body of their own, in the order
of the source; every other byte reaches `default`. -/
def handled_opcodes : List ubyte :=
  [POP, DUP, SWAP, RETURN, IADD, ISUB, IMUL, IDIV, IREM, IAND, IOR, IXOR, ISHR, ISHL,
   BIPUSH, ILDC, ALDC, ACONST_NULL, VLOAD, VSTORE, ATHROW, ASSERT, NOP, IF_CMPEQ, IF_CMPNE,
   IF_ICMPLT, IF_ICMPGE, IF_ICMPGT, IF_ICMPLE, GOTO, INVOKESTATIC, INVOKENATIVE, NEW,
   IMLOAD, IMSTORE, AMLOAD, AMSTORE, CMLOAD, CMSTORE, AADDF, NEWARRAY, ARRAYLENGTH, AADDS]

/-- The number of inline operand bytes that follow an opcode in the code: one for
`BIPUSH`, `VLOAD`, `VSTORE`, `NEW`, `NEWARRAY` and `AADDF`, two for `ILDC`, `ALDC`, the
calls and the branches, none for the others. -/
def operand_width (op : ubyte) : Nat :=
  if op ∈ [BIPUSH, VLOAD, VSTORE, NEW, NEWARRAY, AADDF] then 1
  else if op ∈ [ILDC, ALDC, INVOKENATIVE, INVOKESTATIC, GOTO, IF_CMPEQ, IF_CMPNE, IF_ICMPLT,
      IF_ICMPGE, IF_ICMPGT, IF_ICMPLE] then 2
  else 0

/-- Whether the instruction at `pc` is a conditional branch whose condition holds on the
two values on top of the operand stack (`v1` the top): the test of the `if` in the cases
`IF_CMPEQ` .. `IF_ICMPLE`. -/
def taken_branch (DEBUG : Bool) (s : State) : Bool :=
  match s.P[s.pc]?, s.S with
  | some op, v1 :: v2 :: _ =>
      if op = IF_CMPEQ then
        (match val_equal DEBUG s.H v1 v2 with
          | .ok b => b
          | .error _ => false)
      else if op = IF_CMPNE then
        (match val_equal DEBUG s.H v1 v2 with
          | .ok b => !b
          | .error _ => false)
      else
        match v1, v2 with
        | .int y, .int x =>
            if op = IF_ICMPLT then decide (x < y)
            else if op = IF_ICMPGE then decide (x ≥ y)
            else if op = IF_ICMPGT then decide (x > y)
            else if op = IF_ICMPLE then decide (x ≤ y)
            else false
        | _, _ => false
  | _, _ => false

/-- An iteration that goes on from `s` does so at the address `s.pc + k`. -/
def advances (k : Nat) (s : State) (e : Except Abort Outcome) : Prop :=
  ∀ s1, e = .ok (.running s1) → s1.pc = s.pc + k

/-! ## Concrete machines -/

/-- A heap on which nothing was written and nothing is allocated. -/
def ex_heap : Heap := { mem := [], next := 4096, blocks := [] }

/-- A program file with empty pools. -/
def ex_bc0 : bc0_file :=
  { int_pool := [], string_pool := 1024, function_pool := [], native_pool := [] }

/-- A machine about to run the opcode `op` at address 130, with the operand bytes
`0x00 0x80`, on the operand stack `S`. -/
def ex_branch_state (op : ubyte) (S : List c0_value) : State :=
  { S := S, P := List.replicate 130 NOP ++ [op, 0x00, 0x80], pc := 130, V := [],
    callStack := [], H := ex_heap }

/-- A machine at `GOTO 0x00 0x03`, followed at address 3 by `GOTO 0xFF 0xFD`. -/
def ex_goto_state : State :=
  { S := [.int 7], P := [GOTO, 0x00, 0x03, GOTO, 0xFF, 0xFD], pc := 0, V := [.int 5],
    callStack := [], H := ex_heap }

/-- A machine at the opcode `op` with the operand bytes `0x00 0x05`, on the operand
stack `S`. -/
def ex_cmp_state (op : ubyte) (S : List c0_value) : State :=
  { S := S, P := [op, 0x00, 0x05], pc := 0, V := [], callStack := [], H := ex_heap }

/-- A heap with two tagged-pointer boxes, at 4096 and at 4112, whose field `p` holds the
same address 8192 (`0x2000`, little-endian). -/
def ex_box_heap : Heap :=
  { mem := [(4097, 0x20), (4113, 0x20)], next := 16384, blocks := [(4096, 16), (4112, 16)] }

/-- A function of two arguments and three locals. -/
def ex_callee : function_info :=
  { num_args := 2, num_vars := 3, code_length := 1, code := [RETURN] }

/-- A program file whose function 1 is `ex_callee`. -/
def ex_call_bc0 : bc0_file :=
  { int_pool := [], string_pool := 1024,
    function_pool :=
      [{ num_args := 0, num_vars := 1, code_length := 4,
         code := [INVOKESTATIC, 0x00, 0x01, RETURN] }, ex_callee],
    native_pool := [] }

/-- A caller at `INVOKESTATIC 0x00 0x01`, with 99 on its stack and the arguments 10
and 20 pushed on it in that order. -/
def ex_call_state : State :=
  { S := [.int 20, .int 10, .int 99], P := [INVOKESTATIC, 0x00, 0x01, RETURN], pc := 0,
    V := [.int 5], callStack := [], H := ex_heap }

/-- The callee of `ex_call_state` at its `RETURN`, with 30 on its stack. -/
def ex_callee_state : State :=
  { S := [.int 30], P := [RETURN], pc := 0, V := [.int 10, .int 20, .int 0],
    callStack := [{ S := [.int 99], P := [INVOKESTATIC, 0x00, 0x01, RETURN], pc := 3,
                    V := [.int 5] }],
    H := ex_heap }

/-- A machine at the one-byte opcode `op`, on the operand stack `S`, with an empty call
stack. -/
def ex_op_state (op : ubyte) (S : List c0_value) : State :=
  { S := S, P := [op], pc := 0, V := [], callStack := [], H := ex_heap }

/-- The state of the loop after `k` further iterations from `s`, when none of them
ends the run. -/
def run (DEBUG : Bool) (bc0 : bc0_file) (native_function_table : List native_fn) :
    Nat → State → Option State
  | 0, s => some s
  | k + 1, s =>
      match step DEBUG bc0 native_function_table s with
      | .ok (.running s1) => run DEBUG bc0 native_function_table k s1
      | _ => none

/-- The outcome of an iteration is not a return from `execute`. -/
def not_returned (e : Except Abort Outcome) : Prop := ∀ r, e ≠ .ok (.returned r)

/-- A program file whose function 0 has the code `code` and 3 locals, with the integer
pool `int_pool`. -/
def ex_program (int_pool : List Int) (code : List ubyte) : bc0_file :=
  { int_pool := int_pool, string_pool := 1024,
    function_pool :=
      [{ num_args := 0, num_vars := 3, code_length := code.length, code := code }],
    native_pool := [] }

/-- The state in which `execute` starts `ex_program int_pool code` on the heap
`ex_heap`. -/
def ex_start (code : List ubyte) : State :=
  { S := [], P := code, pc := 0, V := calloc_values 3, callStack := [], H := ex_heap }

/-- A machine at address `pc` of the code `P`, on the operand stack `S` and the heap
`ex_heap`, with an empty call stack. -/
def ex_at (P : List ubyte) (pc : Nat) (S : List c0_value) : State :=
  { S := S, P := P, pc := pc, V := calloc_values 3, callStack := [], H := ex_heap }

/-- The code `BIPUSH 3, NEWARRAY s, BIPUSH 1, AADDS`: an array of 3 elements of size `s`,
then the address of its element 1. -/
def ex_newarray_aadds (s : ubyte) : List ubyte := [BIPUSH, 3, NEWARRAY, s, BIPUSH, 1, AADDS]

/-- The code `BIPUSH 1, NEWARRAY s`: an array of 1 element of size `s`. -/
def ex_newarray (s : ubyte) : List ubyte := [BIPUSH, 1, NEWARRAY, s]

/-- The code `BIPUSH 3, NEWARRAY s, ARRAYLENGTH`: the length of a new array of 3 elements
of size `s`. -/
def ex_newarray_length (s : ubyte) : List ubyte := [BIPUSH, 3, NEWARRAY, s, ARRAYLENGTH]

/-- The code `ILDC 0 1, NEWARRAY 8, ILDC 0 0, AADDS`, run with the integer pool
`[268435456, 268435457]`: an array of `2^28 + 1` elements of size 8, then the address of
its element `2^28`. -/
def ex_big_index : List ubyte := [ILDC, 0, 1, NEWARRAY, 8, ILDC, 0, 0, AADDS]

/-- The code `ACONST_NULL, AADDF 8, IMLOAD`: a load from the field at offset 8 of the
null pointer. -/
def ex_null_field_load : List ubyte := [ACONST_NULL, AADDF, 8, IMLOAD]

/-- The code `ACONST_NULL, AADDF 8, BIPUSH 1, IMSTORE`: a store to the field at offset 8
of the null pointer. -/
def ex_null_field_store : List ubyte := [ACONST_NULL, AADDF, 8, BIPUSH, 1, IMSTORE]

/-- The code `ACONST_NULL, BIPUSH 1, IMSTORE`: a store through the null pointer. -/
def ex_null_store : List ubyte := [ACONST_NULL, BIPUSH, 1, IMSTORE]

/-- The code `BIPUSH 1, BIPUSH 2, RETURN`: a return with two values on the stack. -/
def ex_two_values : List ubyte := [BIPUSH, 1, BIPUSH, 2, RETURN]

/-- The code `BIPUSH 7, RETURN`. -/
def ex_return_seven : List ubyte := [BIPUSH, 7, RETURN]

/-- A native function of two integer arguments that returns `args[0] - args[1]` and
leaves the heap alone. -/
def ex_native_sub : native_fn := fun args H =>
  match args with
  | [.int a, .int b] => .ok (.int (a - b), H)
  | _ => .error .undefined

/-- A program file whose native 0 takes two arguments and is entry 0 of the native
function table. -/
def ex_native_bc0 : bc0_file :=
  { int_pool := [], string_pool := 1024, function_pool := [],
    native_pool := [{ num_args := 2, function_table_index := 0 }] }

/-- The code `NEW 1, DUP, BIPUSH 0xC8, CMSTORE, CMLOAD`: a store of the character `-56`
in a new block of one byte, then a load from it. -/
def ex_char_store : List ubyte := [NEW, 1, DUP, BIPUSH, 0xC8, CMSTORE, CMLOAD]

/-- The machine that `ex_char_store` leaves at its `CMSTORE`, started on `ex_heap`: the
block of one byte at 4096, and `-56` above two copies of its address. -/
def ex_char_store_state : State :=
  { ex_at ex_char_store 5 [.int (-56), .ptr 4096, .ptr 4096] with
    H := { mem := [], next := 4097, blocks := [(4096, 1)] } }

/-! ## Auxiliary lemmas -/

set_option maxRecDepth 8000

theorem fetch_of_get {P : List ubyte} {pc : Nat} {b : ubyte} (h : P[pc]? = some b) :
    fetch P pc = .ok b := by
  simp [fetch, h]

theorem to_unsigned_lt (x : Int) : to_unsigned x < 2 ^ 32 := by
  unfold to_unsigned
  have := Int.emod_lt_of_pos x (show (0 : Int) < 2 ^ 32 by norm_num)
  have := Int.emod_nonneg x (show (2 ^ 32 : Int) ≠ 0 by norm_num)
  omega

theorem to_unsigned_natCast {n : Nat} (h : n < 2 ^ 32) : to_unsigned (n : Int) = n := by
  unfold to_unsigned
  rw [Int.emod_eq_of_lt (by omega) (by omega)]
  simp

theorem to_int_of_lt {u : Nat} (h : u < 2 ^ 31) : to_int u = (u : Int) := by
  unfold to_int
  have : u % 2 ^ 32 = u := Nat.mod_eq_of_lt (by omega)
  rw [this, if_pos h]

theorem to_unsigned_to_int (u : Nat) : to_unsigned (to_int u) = u % 2 ^ 32 := by
  unfold to_unsigned to_int
  have := Nat.mod_lt u (show 0 < 2 ^ 32 by norm_num)
  split_ifs <;> omega

theorem to_unsigned_byte (o : ubyte) :
    to_unsigned (byte_of_ubyte o) = if o.val < 128 then o.val else 2 ^ 32 - 256 + o.val := by
  have := o.isLt
  unfold to_unsigned byte_of_ubyte
  split_ifs <;> omega

theorem shl8_or (a b : Nat) (hb : b < 256) : (a <<< 8) ||| b = a * 256 + b := by
  rw [Nat.shiftLeft_eq, Nat.mul_comm a, ← Nat.mul_add_lt_is_or (by simpa using hb)]

/-- The offset `GOTO` computes is the signed 16-bit word of its operand bytes. -/
theorem goto_offset_eq (o1 o2 : ubyte) : goto_offset o1 o2 = signed16 o1 o2 := by
  have h1 := o1.isLt
  have h2 := o2.isLt
  have hs : int_shl (o1.val : Int) 8 = ((o1.val * 256 : Nat) : Int) := by
    unfold int_shl
    rw [to_unsigned_natCast (by omega), Nat.shiftLeft_eq, to_int_of_lt (by omega)]
  have ho : int_or ((o1.val * 256 : Nat) : Int) (o2.val : Int)
      = ((o1.val * 256 + o2.val : Nat) : Int) := by
    unfold int_or
    rw [to_unsigned_natCast (by omega), to_unsigned_natCast (by omega)]
    have := shl8_or o1.val o2.val h2
    rw [Nat.shiftLeft_eq] at this
    norm_num at this
    rw [this, to_int_of_lt (by omega)]
  unfold goto_offset
  rw [hs, ho]
  unfold to_int16 signed16
  have h3 : (((o1.val * 256 + o2.val : Nat) : Int)) % 2 ^ 16
      = ((o1.val * 256 + o2.val : Nat) : Int) :=
    Int.emod_eq_of_lt (by omega) (by omega)
  rw [h3]
  split_ifs <;> omega

theorem or_high_ones (x b : Nat) (hx : x < 2 ^ 32) (hx8 : x % 256 = 0) (hb : b < 256) :
    x ||| (2 ^ 32 - 256 + b) = 2 ^ 32 - 256 + b := by
  apply Nat.eq_of_testBit_eq
  intro j
  rw [Nat.testBit_or]
  have hy : 2 ^ 32 - 256 + b = 2 ^ 32 - ((255 - b) + 1) := by omega
  by_cases hj8 : j < 8
  · have hx0 : x.testBit j = false := by
      obtain ⟨k, hk⟩ : ∃ k, x = 2 ^ 8 * k := ⟨x / 256, by omega⟩
      rw [hk, Nat.testBit_mul_pow_two]
      simp [Nat.not_le.mpr hj8]
    rw [hx0, Bool.false_or]
  · by_cases hj32 : j < 32
    · have hy1 : (2 ^ 32 - 256 + b).testBit j = true := by
        rw [hy, Nat.testBit_two_pow_sub_succ (by omega)]
        have : (255 - b).testBit j = false :=
          Nat.testBit_lt_two_pow (lt_of_lt_of_le (show 255 - b < 2 ^ 8 by omega)
            (Nat.pow_le_pow_right (by norm_num) (by omega)))
        simp [hj32, this]
      rw [hy1, Bool.or_true]
    · have hx0 : x.testBit j = false :=
        Nat.testBit_lt_two_pow (lt_of_lt_of_le hx (Nat.pow_le_pow_right (by norm_num) (by omega)))
      rw [hx0, Bool.false_or]

/-- The offset the conditional branches compute: the signed 16-bit word of the operand
bytes when the low byte is below `0x80`; otherwise the sign extension of the low byte
alone, whatever the high byte. -/
theorem cond_offset_eq (o1 o2 : ubyte) :
    cond_offset o1 o2 = if o2.val < 128 then signed16 o1 o2 else (o2.val : Int) - 256 := by
  have h1 := o1.isLt
  have h2 := o2.isLt
  unfold cond_offset int_or int_shl
  rw [to_unsigned_to_int, Nat.shiftLeft_eq, to_unsigned_byte o1, to_unsigned_byte o2]
  by_cases hb : o2.val < 128
  · rw [if_pos hb, if_pos hb]
    have key : ∀ X : Nat, X % 256 = 0 → X ||| o2.val = X + o2.val := by
      intro X hX
      obtain ⟨k, hk⟩ : ∃ k, X = 2 ^ 8 * k := ⟨X / 256, by omega⟩
      rw [hk, ← Nat.mul_add_lt_is_or (by omega)]
    unfold signed16 to_int
    by_cases ha : o1.val < 128
    · rw [if_pos ha]
      have hX : (o1.val * 2 ^ 8) % 2 ^ 32 = o1.val * 256 := by omega
      rw [hX, key _ (by omega)]
      split_ifs <;> omega
    · rw [if_neg ha]
      have hX : ((2 ^ 32 - 256 + o1.val) * 2 ^ 8) % 2 ^ 32 = 2 ^ 32 - 65536 + o1.val * 256 := by
        omega
      rw [hX, key _ (by omega)]
      split_ifs <;> omega
  · rw [if_neg hb, if_neg hb]
    rw [or_high_ones _ _ (Nat.mod_lt _ (by norm_num)) (by split_ifs <;> omega) h2]
    unfold to_int
    split_ifs <;> omega

/-! ### Dispatch: the case of the `switch` an opcode selects -/

theorem step_GOTO (DEBUG : Bool) (bc0 : bc0_file) (nt : List native_fn) (s : State)
    (h : s.P[s.pc]? = some GOTO) : step DEBUG bc0 nt s = exec_GOTO s := by
  simp only [step, fetch_of_get h]
  rfl

theorem exec_GOTO_eq (s : State) (o1 o2 : ubyte)
    (h1 : s.P[s.pc + 1]? = some o1) (h2 : s.P[s.pc + 2]? = some o2) :
    exec_GOTO s
      = .ok (.running { s with pc := (((s.pc : Int) + signed16 o1 o2) % 2 ^ 64).toNat }) := by
  simp only [exec_GOTO, fetch_of_get h1, fetch_of_get h2, goto_offset_eq, branch_pc,
    size_t_wrap, bind, Except.bind, pure, Except.pure]
  congr 4
  push_cast
  congr 1
  ring

/-! ### Pointer kinds and value equality -/

theorem ptr_type_eq (p : Nat) : ptr_type p = p / 2 ^ 62 := by
  unfold ptr_type PTR_TYPE_SHIFT
  exact Nat.shiftRight_eq_div_pow p 62

theorem step_IF_CMPEQ (DEBUG : Bool) (bc0 : bc0_file) (nt : List native_fn) (s : State)
    (h : s.P[s.pc]? = some IF_CMPEQ) : step DEBUG bc0 nt s = exec_IF_CMP DEBUG false s := by
  simp only [step, fetch_of_get h]
  rfl

theorem step_IF_CMPNE (DEBUG : Bool) (bc0 : bc0_file) (nt : List native_fn) (s : State)
    (h : s.P[s.pc]? = some IF_CMPNE) : step DEBUG bc0 nt s = exec_IF_CMP DEBUG true s := by
  simp only [step, fetch_of_get h]
  rfl

theorem exec_IF_CMP_eq (DEBUG negate : Bool) (s : State) (v1 v2 : c0_value)
    (rest : List c0_value) (o1 o2 : ubyte) (hS : s.S = v1 :: v2 :: rest)
    (h1 : s.P[s.pc + 1]? = some o1) (h2 : s.P[s.pc + 2]? = some o2) :
    exec_IF_CMP DEBUG negate s
      = match val_equal DEBUG s.H v1 v2 with
        | .error e => .error e
        | .ok b =>
            .ok (.running { s with
              S := rest,
              pc := if (b != negate) = true then branch_pc (s.pc + 3) (cond_offset o1 o2)
                    else s.pc + 3 }) := by
  simp only [exec_IF_CMP, hS, c0v_pop, fetch_of_get h1, fetch_of_get h2, bind, Except.bind,
    pure, Except.pure]
  cases val_equal DEBUG s.H v1 v2 with
  | error e => rfl
  | ok b => cases b <;> cases negate <;> rfl

/-! ### Calls and returns -/

theorem pop_args_ok (n : Nat) (rest : List c0_value) :
    ∀ (todo i : Nat) (temp xs : List c0_value), xs.length = todo → i + todo = n →
      n ≤ temp.length →
      pop_args n todo i temp (xs.reverse ++ rest) = .ok (xs ++ temp.drop todo, rest) := by
  intro todo
  induction todo with
  | zero =>
    intro i temp xs hx _ _
    have : xs = [] := List.length_eq_zero.mp hx
    subst this
    simp [pop_args]
  | succ k ih =>
    intro i temp xs hx hi hn
    obtain ⟨ys, a, rfl⟩ : ∃ ys a, xs = ys ++ [a] := by
      rcases List.eq_nil_or_concat xs with h | ⟨ys, a, h⟩
      · subst h; simp at hx
      · exact ⟨ys, a, by simpa using h⟩
    have hy : ys.length = k := by simpa using hx
    have hidx : n - i - 1 = k := by omega
    have hlt : k < temp.length := by omega
    simp only [List.reverse_append, List.reverse_cons, List.reverse_nil, List.nil_append,
      List.singleton_append, List.cons_append, pop_args, c0v_pop, array_set, hidx, hlt,
      if_true, bind, Except.bind]
    rw [ih (i + 1) (temp.set k a) ys hy (by omega) (by simpa using hn)]
    congr 2
    rw [List.drop_set, if_neg (by omega), Nat.sub_self, List.append_assoc]
    congr 1
    rw [List.drop_eq_getElem_cons hlt]
    rfl

theorem step_INVOKESTATIC (DEBUG : Bool) (bc0 : bc0_file) (nt : List native_fn) (s : State)
    (h : s.P[s.pc]? = some INVOKESTATIC) : step DEBUG bc0 nt s = exec_INVOKESTATIC bc0 s := by
  simp only [step, fetch_of_get h]
  rfl

theorem step_RETURN (DEBUG : Bool) (bc0 : bc0_file) (nt : List native_fn) (s : State)
    (h : s.P[s.pc]? = some RETURN) : step DEBUG bc0 nt s = exec_RETURN s := by
  simp only [step, fetch_of_get h]
  rfl

theorem exec_INVOKESTATIC_eq (bc0 : bc0_file) (s : State) (c1 c2 : ubyte) (f : function_info)
    (args rest : List c0_value)
    (h1 : s.P[s.pc + 1]? = some c1) (h2 : s.P[s.pc + 2]? = some c2)
    (hf : bc0.function_pool[(c1.val <<< 8) ||| c2.val]? = some f)
    (hk : args.length = f.num_args) (hle : f.num_args ≤ f.num_vars)
    (hS : s.S = args.reverse ++ rest) :
    exec_INVOKESTATIC bc0 s
      = .ok (.running { s with
          S := [], P := f.code, pc := 0,
          V := args ++ List.replicate (f.num_vars - f.num_args) (c0_value.int 0),
          callStack := { S := rest, P := s.P, pc := s.pc + 3, V := s.V } :: s.callStack }) := by
  have hpop := pop_args_ok f.num_args rest f.num_args 0 (calloc_values f.num_vars) args hk
    (by omega) (by simpa [calloc_values] using hle)
  simp only [calloc_values, List.drop_replicate] at hpop
  simp only [exec_INVOKESTATIC, fetch_of_get h1, fetch_of_get h2, pool_index, hf, hS,
    bind, Except.bind, pure, Except.pure, calloc_values, hpop]

theorem exec_RETURN_caller (s : State) (r : c0_value) (junk : List c0_value) (fr : frame)
    (C : List frame) (hS : s.S = r :: junk) (hC : s.callStack = fr :: C) :
    exec_RETURN s
      = .ok (.running { s with S := r :: fr.S, P := fr.P, V := fr.V, pc := fr.pc,
                               callStack := C }) := by
  simp only [exec_RETURN, hS, hC, c0v_pop, c0v_push, bind, Except.bind, pure, Except.pure]

theorem exec_RETURN_top (s : State) (v : c0_value) (rest : List c0_value)
    (hS : s.S = v :: rest) (hC : s.callStack = []) :
    exec_RETURN s = (val2int v).map Outcome.returned := by
  simp only [exec_RETURN, hS, hC, c0v_pop, bind, Except.bind, pure, Except.pure]
  cases v <;> rfl

/-! ### Integer arithmetic -/

theorem to_int_eq_signed32 (u : Nat) : to_int u = signed32 (u : Int) := by
  unfold to_int signed32
  split_ifs <;> omega

theorem to_unsigned_cast (x : Int) : ((to_unsigned x : Nat) : Int) = x % 2 ^ 32 := by
  unfold to_unsigned
  exact Int.toNat_of_nonneg (Int.emod_nonneg x (by norm_num))

theorem signed32_congr {a b : Int} (h : a % 2 ^ 32 = b % 2 ^ 32) : signed32 a = signed32 b := by
  unfold signed32
  omega

theorem add_wrap (x y : Int) : to_int (to_unsigned x + to_unsigned y) = signed32 (x + y) := by
  rw [to_int_eq_signed32]
  apply signed32_congr
  push_cast
  rw [to_unsigned_cast, to_unsigned_cast]
  omega

theorem sub_wrap (x y : Int) :
    to_int (to_unsigned x + 2 ^ 32 - to_unsigned y) = signed32 (x - y) := by
  rw [to_int_eq_signed32]
  apply signed32_congr
  have hy := to_unsigned_lt y
  rw [Nat.cast_sub (by omega)]
  push_cast
  rw [to_unsigned_cast, to_unsigned_cast]
  omega

theorem mul_wrap (x y : Int) : to_int (to_unsigned x * to_unsigned y) = signed32 (x * y) := by
  rw [to_int_eq_signed32]
  apply signed32_congr
  push_cast
  rw [to_unsigned_cast, to_unsigned_cast]
  exact (Int.mul_emod x y (2 ^ 32)).symm

theorem shl_wrap (x : Int) (k : Nat) : int_shl x k = signed32 (x * 2 ^ k) := by
  have key : ((x % 2 ^ 32) * 2 ^ k) % 2 ^ 32 = (x * 2 ^ k) % 2 ^ 32 := by
    rw [Int.mul_emod, Int.emod_emod, ← Int.mul_emod]
  unfold int_shl
  rw [to_int_eq_signed32, Nat.shiftLeft_eq]
  apply signed32_congr
  rw [Nat.cast_mul, to_unsigned_cast, Nat.cast_pow]
  exact key

theorem shr_floor (x : Int) (k : Nat) :
    int_shr x k * 2 ^ k ≤ x ∧ x < (int_shr x k + 1) * 2 ^ k := by
  unfold int_shr
  rw [Int.shiftRight_eq_div_pow, Nat.cast_pow]
  have hpos : (0 : Int) < 2 ^ k := by positivity
  exact ⟨Int.ediv_mul_le x (ne_of_gt hpos), Int.lt_ediv_add_one_mul_self x hpos⟩

theorem tmod_props (x y : Int) (hy : y ≠ 0) :
    (Int.tmod x y).natAbs < y.natAbs ∧ (0 ≤ x → 0 ≤ Int.tmod x y)
      ∧ (x ≤ 0 → Int.tmod x y ≤ 0) := by
  have hy0 : 0 < y.natAbs := Int.natAbs_pos.mpr hy
  rcases x with m | m <;> rcases y with n | n
  · change (Int.ofNat (m % n)).natAbs < (Int.ofNat n).natAbs
      ∧ (0 ≤ Int.ofNat m → 0 ≤ Int.ofNat (m % n))
      ∧ (Int.ofNat m ≤ 0 → Int.ofNat (m % n) ≤ 0)
    have hr := Nat.mod_lt m (show 0 < n from hy0)
    have hz : m = 0 → m % n = 0 := fun h => by simp [h]
    generalize m % n = r at *
    simp only [Int.ofNat_eq_coe, Int.natAbs_ofNat]
    omega
  · change (Int.ofNat (m % (n + 1))).natAbs < (Int.negSucc n).natAbs
      ∧ (0 ≤ Int.ofNat m → 0 ≤ Int.ofNat (m % (n + 1)))
      ∧ (Int.ofNat m ≤ 0 → Int.ofNat (m % (n + 1)) ≤ 0)
    have hr := Nat.mod_lt m (Nat.succ_pos n)
    have hz : m = 0 → m % (n + 1) = 0 := fun h => by simp [h]
    generalize m % (n + 1) = r at *
    simp only [Int.ofNat_eq_coe, Int.natAbs_ofNat, Int.natAbs_negSucc]
    omega
  · change (-Int.ofNat ((m + 1) % n)).natAbs < (Int.ofNat n).natAbs
      ∧ (0 ≤ Int.negSucc m → 0 ≤ -Int.ofNat ((m + 1) % n))
      ∧ (Int.negSucc m ≤ 0 → -Int.ofNat ((m + 1) % n) ≤ 0)
    have hr := Nat.mod_lt (m + 1) (show 0 < n from hy0)
    have hneg := Int.negSucc_lt_zero m
    clear hy
    generalize (m + 1) % n = r at *
    simp only [Int.ofNat_eq_coe, Int.natAbs_ofNat, Int.natAbs_neg]
    omega
  · change (-Int.ofNat ((m + 1) % (n + 1))).natAbs < (Int.negSucc n).natAbs
      ∧ (0 ≤ Int.negSucc m → 0 ≤ -Int.ofNat ((m + 1) % (n + 1)))
      ∧ (Int.negSucc m ≤ 0 → -Int.ofNat ((m + 1) % (n + 1)) ≤ 0)
    have hr := Nat.mod_lt (m + 1) (Nat.succ_pos n)
    have hneg := Int.negSucc_lt_zero m
    clear hy
    generalize (m + 1) % (n + 1) = r at *
    simp only [Int.ofNat_eq_coe, Int.natAbs_ofNat, Int.natAbs_neg, Int.natAbs_negSucc]
    omega

theorem tdiv_range (x y : Int) (hx : -2 ^ 31 ≤ x) (hx1 : x < 2 ^ 31) (hy : y ≠ 0)
    (hg : ¬ (x = -2147483648 ∧ y = -1)) :
    -2 ^ 31 ≤ Int.tdiv x y ∧ Int.tdiv x y < 2 ^ 31 := by
  have hq : (Int.tdiv x y).natAbs = x.natAbs / y.natAbs := Int.natAbs_tdiv x y
  by_cases h1 : y = 1
  · subst h1
    rw [Int.tdiv_one]
    exact ⟨hx, hx1⟩
  · by_cases h2 : y = -1
    · subst h2
      have : Int.tdiv x (-1) = -x := by
        rw [Int.tdiv_neg, Int.tdiv_one]
      rw [this]
      constructor <;> omega
    · have h3 : 2 ≤ y.natAbs := by omega
      have h4 : x.natAbs / y.natAbs ≤ x.natAbs / 2 := Nat.div_le_div_left h3 (by norm_num)
      constructor <;> omega

theorem tmod_range (x y : Int) (hy : y ≠ 0) (hy0 : -2 ^ 31 ≤ y) (hy1 : y < 2 ^ 31) :
    -2 ^ 31 ≤ Int.tmod x y ∧ Int.tmod x y < 2 ^ 31 := by
  have := (tmod_props x y hy).1
  constructor <;> omega

theorem exec_binop_eq (f : Int → Int → Except Abort Int) (s : State) (x y : Int)
    (rest : List c0_value) (hS : s.S = .int y :: .int x :: rest) :
    exec_binop f s
      = match f x y with
        | .error e => .error e
        | .ok res => .ok (.running { s with pc := s.pc + 1, S := .int res :: rest }) := by
  simp only [exec_binop, hS, assert_pop, val2int, c0v_push, int2val, bind, Except.bind, pure,
    Except.pure]
  cases f x y <;> rfl

theorem step_IDIV (DEBUG : Bool) (bc0 : bc0_file) (nt : List native_fn) (s : State)
    (h : s.P[s.pc]? = some IDIV) : step DEBUG bc0 nt s = exec_IDIV s := by
  simp only [step, fetch_of_get h]
  rfl

theorem step_IREM (DEBUG : Bool) (bc0 : bc0_file) (nt : List native_fn) (s : State)
    (h : s.P[s.pc]? = some IREM) : step DEBUG bc0 nt s = exec_IREM s := by
  simp only [step, fetch_of_get h]
  rfl

theorem step_ISHL (DEBUG : Bool) (bc0 : bc0_file) (nt : List native_fn) (s : State)
    (h : s.P[s.pc]? = some ISHL) : step DEBUG bc0 nt s = exec_ISHL s := by
  simp only [step, fetch_of_get h]
  rfl

theorem step_ISHR (DEBUG : Bool) (bc0 : bc0_file) (nt : List native_fn) (s : State)
    (h : s.P[s.pc]? = some ISHR) : step DEBUG bc0 nt s = exec_ISHR s := by
  simp only [step, fetch_of_get h]
  rfl

theorem step_IADD (DEBUG : Bool) (bc0 : bc0_file) (nt : List native_fn) (s : State)
    (h : s.P[s.pc]? = some IADD) : step DEBUG bc0 nt s = exec_IADD s := by
  simp only [step, fetch_of_get h]
  rfl

theorem step_ISUB (DEBUG : Bool) (bc0 : bc0_file) (nt : List native_fn) (s : State)
    (h : s.P[s.pc]? = some ISUB) : step DEBUG bc0 nt s = exec_ISUB s := by
  simp only [step, fetch_of_get h]
  rfl

theorem step_IMUL (DEBUG : Bool) (bc0 : bc0_file) (nt : List native_fn) (s : State)
    (h : s.P[s.pc]? = some IMUL) : step DEBUG bc0 nt s = exec_IMUL s := by
  simp only [step, fetch_of_get h]
  rfl

theorem exec_IDIV_eq (s : State) (x y : Int) (rest : List c0_value)
    (hS : s.S = .int y :: .int x :: rest) :
    exec_IDIV s
      = if y = 0 ∨ (x = -2147483648 ∧ y = -1) then .error .arith_error
        else .ok (.running { s with pc := s.pc + 1, S := .int (Int.tdiv x y) :: rest }) := by
  unfold exec_IDIV
  rw [exec_binop_eq _ s x y rest hS]
  simp only [INT_MIN, c0_arith_error, pure, Except.pure]
  split_ifs <;> rfl

theorem exec_IREM_eq (s : State) (x y : Int) (rest : List c0_value)
    (hS : s.S = .int y :: .int x :: rest) :
    exec_IREM s
      = if y = 0 ∨ (x = -2147483648 ∧ y = -1) then .error .arith_error
        else .ok (.running { s with pc := s.pc + 1, S := .int (Int.tmod x y) :: rest }) := by
  unfold exec_IREM
  rw [exec_binop_eq _ s x y rest hS]
  simp only [INT_MIN, c0_arith_error, pure, Except.pure]
  split_ifs <;> rfl

theorem exec_ISHL_eq (s : State) (x y : Int) (rest : List c0_value)
    (hS : s.S = .int y :: .int x :: rest) :
    exec_ISHL s
      = if y < 0 ∨ y > 31 then .error .arith_error
        else .ok (.running { s with
          pc := s.pc + 1, S := .int (signed32 (x * 2 ^ y.toNat)) :: rest }) := by
  unfold exec_ISHL
  rw [exec_binop_eq _ s x y rest hS]
  simp only [c0_arith_error, pure, Except.pure, shl_wrap]
  by_cases h : y < 0 ∨ y > 31
  · have h1 : ¬ (0 ≤ y ∧ y ≤ 31) := by omega
    simp only [h, h1, not_false_eq_true, if_true]
  · have h1 : 0 ≤ y ∧ y ≤ 31 := by omega
    simp [h, h1]

theorem exec_ISHR_eq (s : State) (x y : Int) (rest : List c0_value)
    (hS : s.S = .int y :: .int x :: rest) :
    exec_ISHR s
      = if y < 0 ∨ y > 31 then .error .arith_error
        else .ok (.running { s with
          pc := s.pc + 1, S := .int (int_shr x y.toNat) :: rest }) := by
  unfold exec_ISHR
  rw [exec_binop_eq _ s x y rest hS]
  simp only [c0_arith_error, pure, Except.pure]
  by_cases h : y < 0 ∨ y > 31
  · have h1 : ¬ (0 ≤ y ∧ y ≤ 31) := by omega
    simp only [h, h1, not_false_eq_true, if_true]
  · have h1 : 0 ≤ y ∧ y ≤ 31 := by omega
    simp [h, h1]

/-! ### Integer comparisons -/

theorem step_IF_ICMPLT (DEBUG : Bool) (bc0 : bc0_file) (nt : List native_fn) (s : State)
    (h : s.P[s.pc]? = some IF_ICMPLT) :
    step DEBUG bc0 nt s = exec_IF_ICMP (fun x y => decide (x < y)) s := by
  simp only [step, fetch_of_get h]
  rfl

theorem step_IF_ICMPGE (DEBUG : Bool) (bc0 : bc0_file) (nt : List native_fn) (s : State)
    (h : s.P[s.pc]? = some IF_ICMPGE) :
    step DEBUG bc0 nt s = exec_IF_ICMP (fun x y => decide (x ≥ y)) s := by
  simp only [step, fetch_of_get h]
  rfl

theorem step_IF_ICMPGT (DEBUG : Bool) (bc0 : bc0_file) (nt : List native_fn) (s : State)
    (h : s.P[s.pc]? = some IF_ICMPGT) :
    step DEBUG bc0 nt s = exec_IF_ICMP (fun x y => decide (x > y)) s := by
  simp only [step, fetch_of_get h]
  rfl

theorem step_IF_ICMPLE (DEBUG : Bool) (bc0 : bc0_file) (nt : List native_fn) (s : State)
    (h : s.P[s.pc]? = some IF_ICMPLE) :
    step DEBUG bc0 nt s = exec_IF_ICMP (fun x y => decide (x ≤ y)) s := by
  simp only [step, fetch_of_get h]
  rfl

theorem exec_IF_ICMP_int (cmp : Int → Int → Bool) (s : State) (x y : Int)
    (rest : List c0_value) (o1 o2 : ubyte) (hS : s.S = .int y :: .int x :: rest)
    (h1 : s.P[s.pc + 1]? = some o1) (h2 : s.P[s.pc + 2]? = some o2) :
    exec_IF_ICMP cmp s
      = .ok (.running { s with
          S := rest,
          pc := if cmp x y = true then branch_pc (s.pc + 3) (cond_offset o1 o2)
                else s.pc + 3 }) := by
  simp only [exec_IF_ICMP, hS, c0v_pop, val2int, fetch_of_get h1, fetch_of_get h2, bind,
    Except.bind, pure, Except.pure]
  cases cmp x y <;> rfl

theorem exec_IF_ICMP_ptr_top (cmp : Int → Int → Bool) (s : State) (p : Nat)
    (rest : List c0_value) (hS : s.S = .ptr p :: rest) :
    exec_IF_ICMP cmp s = .error .value_error := by
  simp only [exec_IF_ICMP, hS, c0v_pop, val2int, c0_value_error, bind, Except.bind]

theorem exec_IF_ICMP_ptr_second (cmp : Int → Int → Bool) (s : State) (y : Int) (p : Nat)
    (rest : List c0_value) (hS : s.S = .int y :: .ptr p :: rest) :
    exec_IF_ICMP cmp s = .error .value_error := by
  simp only [exec_IF_ICMP, hS, c0v_pop, val2int, c0_value_error, bind, Except.bind]

/-! ### Dispatch of the memory and array cases -/

theorem step_IMLOAD (DEBUG : Bool) (bc0 : bc0_file) (nt : List native_fn) (s : State)
    (h : s.P[s.pc]? = some IMLOAD) : step DEBUG bc0 nt s = exec_IMLOAD s := by
  simp only [step, fetch_of_get h]
  rfl

theorem step_IMSTORE (DEBUG : Bool) (bc0 : bc0_file) (nt : List native_fn) (s : State)
    (h : s.P[s.pc]? = some IMSTORE) : step DEBUG bc0 nt s = exec_IMSTORE s := by
  simp only [step, fetch_of_get h]
  rfl

theorem step_AMLOAD (DEBUG : Bool) (bc0 : bc0_file) (nt : List native_fn) (s : State)
    (h : s.P[s.pc]? = some AMLOAD) : step DEBUG bc0 nt s = exec_AMLOAD s := by
  simp only [step, fetch_of_get h]
  rfl

theorem step_AMSTORE (DEBUG : Bool) (bc0 : bc0_file) (nt : List native_fn) (s : State)
    (h : s.P[s.pc]? = some AMSTORE) : step DEBUG bc0 nt s = exec_AMSTORE s := by
  simp only [step, fetch_of_get h]
  rfl

theorem step_CMLOAD (DEBUG : Bool) (bc0 : bc0_file) (nt : List native_fn) (s : State)
    (h : s.P[s.pc]? = some CMLOAD) : step DEBUG bc0 nt s = exec_CMLOAD s := by
  simp only [step, fetch_of_get h]
  rfl

theorem step_CMSTORE (DEBUG : Bool) (bc0 : bc0_file) (nt : List native_fn) (s : State)
    (h : s.P[s.pc]? = some CMSTORE) : step DEBUG bc0 nt s = exec_CMSTORE s := by
  simp only [step, fetch_of_get h]
  rfl

theorem step_AADDF (DEBUG : Bool) (bc0 : bc0_file) (nt : List native_fn) (s : State)
    (h : s.P[s.pc]? = some AADDF) : step DEBUG bc0 nt s = exec_AADDF s := by
  simp only [step, fetch_of_get h]
  rfl

theorem step_ASSERT (DEBUG : Bool) (bc0 : bc0_file) (nt : List native_fn) (s : State)
    (h : s.P[s.pc]? = some ASSERT) : step DEBUG bc0 nt s = exec_ASSERT s := by
  simp only [step, fetch_of_get h]
  rfl

theorem step_NEWARRAY (DEBUG : Bool) (bc0 : bc0_file) (nt : List native_fn) (s : State)
    (h : s.P[s.pc]? = some NEWARRAY) : step DEBUG bc0 nt s = exec_NEWARRAY s := by
  simp only [step, fetch_of_get h]
  rfl

theorem step_ARRAYLENGTH (DEBUG : Bool) (bc0 : bc0_file) (nt : List native_fn) (s : State)
    (h : s.P[s.pc]? = some ARRAYLENGTH) : step DEBUG bc0 nt s = exec_ARRAYLENGTH s := by
  simp only [step, fetch_of_get h]
  rfl

theorem step_AADDS (DEBUG : Bool) (bc0 : bc0_file) (nt : List native_fn) (s : State)
    (h : s.P[s.pc]? = some AADDS) : step DEBUG bc0 nt s = exec_AADDS s := by
  simp only [step, fetch_of_get h]
  rfl

/-! ### The byte heap -/

theorem read8_write8 (H : Heap) (a b a1 : Nat) :
    (H.write8 a b).read8 a1 = if a1 = a then b % 256 else H.read8 a1 := by
  unfold Heap.write8 Heap.read8
  by_cases h : a1 = a
  · subst h
    simp
  · have hb : (a == a1) = false := beq_false_of_ne (Ne.symm h)
    simp only [if_neg h, List.find?, hb]

theorem next_writeLE (H : Heap) (a x : Nat) : ∀ n : Nat, (H.writeLE a x n).next = H.next := by
  intro n
  induction n generalizing H a x with
  | zero => rfl
  | succ k ih =>
    show ((H.write8 a (x % 256)).writeLE (a + 1) (x / 256) k).next = H.next
    rw [ih]
    rfl

theorem blocks_writeLE (H : Heap) (a x : Nat) :
    ∀ n : Nat, (H.writeLE a x n).blocks = H.blocks := by
  intro n
  induction n generalizing H a x with
  | zero => rfl
  | succ k ih =>
    show ((H.write8 a (x % 256)).writeLE (a + 1) (x / 256) k).blocks = H.blocks
    rw [ih]
    rfl

theorem accessible_write_int (H : Heap) (a : Nat) (x : Int) (c n : Nat) :
    (H.write_int a x).accessible c n = H.accessible c n := by
  unfold Heap.accessible Heap.write_int
  rw [blocks_writeLE]

theorem accessible_write_ptr (H : Heap) (a p c n : Nat) :
    (H.write_ptr a p).accessible c n = H.accessible c n := by
  unfold Heap.accessible Heap.write_ptr
  rw [blocks_writeLE]

theorem read8_writeLE (c : Nat) :
    ∀ (n a x : Nat) (H : Heap),
      (H.writeLE a x n).read8 c
        = if a ≤ c ∧ c < a + n then x / 256 ^ (c - a) % 256 else H.read8 c := by
  intro n
  induction n with
  | zero =>
    intro a x H
    have : ¬ (a ≤ c ∧ c < a + 0) := by omega
    rw [if_neg this]
    rfl
  | succ k ih =>
    intro a x H
    show ((H.write8 a (x % 256)).writeLE (a + 1) (x / 256) k).read8 c = _
    rw [ih, read8_write8]
    by_cases h1 : a + 1 ≤ c ∧ c < a + 1 + k
    · have h2 : a ≤ c ∧ c < a + (k + 1) := by omega
      rw [if_pos h1, if_pos h2]
      have h3 : c - a = (c - (a + 1)) + 1 := by omega
      rw [h3, pow_succ, Nat.mul_comm, Nat.div_div_eq_div_mul]
    · rw [if_neg h1]
      by_cases h4 : c = a
      · subst h4
        have h2 : c ≤ c ∧ c < c + (k + 1) := by omega
        rw [if_pos rfl, if_pos h2, Nat.sub_self, pow_zero, Nat.div_one, Nat.mod_mod]
      · have h2 : ¬ (a ≤ c ∧ c < a + (k + 1)) := by omega
        rw [if_neg h4, if_neg h2]

theorem readLE_of_bytes (H : Heap) :
    ∀ (n a x : Nat), (∀ k, k < n → H.read8 (a + k) = x / 256 ^ k % 256) →
      H.readLE a n = x % 256 ^ n := by
  intro n
  induction n with
  | zero =>
    intro a x _
    simp [Heap.readLE, Nat.mod_one]
  | succ m ih =>
    intro a x h
    show H.read8 a + 256 * H.readLE (a + 1) m = _
    have h0 := h 0 (Nat.succ_pos m)
    rw [Nat.add_zero, pow_zero, Nat.div_one] at h0
    have ih1 := ih (a + 1) (x / 256) (fun k hk => by
      have := h (k + 1) (Nat.succ_lt_succ hk)
      rw [show a + 1 + k = a + (k + 1) by omega, this, pow_succ, Nat.mul_comm,
        Nat.div_div_eq_div_mul])
    rw [h0, ih1, pow_succ, Nat.mul_comm (256 ^ m) 256, Nat.mod_mul]

theorem readLE_congr (H1 H2 : Heap) :
    ∀ (n a : Nat), (∀ c, a ≤ c → c < a + n → H1.read8 c = H2.read8 c) →
      H1.readLE a n = H2.readLE a n := by
  intro n
  induction n with
  | zero => intro a _; rfl
  | succ m ih =>
    intro a h
    show H1.read8 a + 256 * H1.readLE (a + 1) m = H2.read8 a + 256 * H2.readLE (a + 1) m
    rw [h a (Nat.le_refl a) (by omega), ih (a + 1) (fun c h1 h2 => h c (by omega) (by omega))]

theorem readLE_writeLE_same (H : Heap) (a x n : Nat) :
    (H.writeLE a x n).readLE a n = x % 256 ^ n := by
  apply readLE_of_bytes
  intro k hk
  rw [read8_writeLE, if_pos (by omega), Nat.add_sub_cancel_left]

theorem readLE_writeLE_disjoint (H : Heap) (a x n b m : Nat) (h : b + m ≤ a ∨ a + n ≤ b) :
    (H.writeLE a x n).readLE b m = H.readLE b m := by
  apply readLE_congr
  intro c h1 h2
  rw [read8_writeLE, if_neg (by omega)]

theorem read_int_write_int (H : Heap) (a : Nat) (x : Int) (h0 : -2 ^ 31 ≤ x) (h1 : x < 2 ^ 31) :
    (H.write_int a x).read_int a = x := by
  unfold Heap.read_int Heap.write_int
  rw [readLE_writeLE_same, to_int_eq_signed32]
  have h2 : ((to_unsigned x % 256 ^ 4 : Nat) : Int) = x % 2 ^ 32 := by
    have := to_unsigned_lt x
    rw [Nat.mod_eq_of_lt (by norm_num; omega), to_unsigned_cast]
  rw [h2]
  unfold signed32
  omega

theorem read_ptr_write_ptr (H : Heap) (a p : Nat) (hp : p < 2 ^ 64) :
    (H.write_ptr a p).read_ptr a = p := by
  unfold Heap.read_ptr Heap.write_ptr
  rw [readLE_writeLE_same, Nat.mod_eq_of_lt hp]
  exact Nat.mod_eq_of_lt (by norm_num; omega)

theorem find?_filter_key (q : Nat → Bool) (a : Nat) :
    ∀ l : List (Nat × Nat),
      (l.filter (fun e => q e.1)).find? (fun e => e.1 == a)
        = if q a = true then l.find? (fun e => e.1 == a) else none := by
  intro l
  induction l with
  | nil => simp
  | cons e l ih =>
    have hfind : (e :: l).find? (fun e => e.1 == a)
        = if e.1 = a then some e else l.find? (fun e => e.1 == a) := by
      by_cases he : e.1 = a
      · simp [List.find?, he]
      · have hb : (e.1 == a) = false := beq_false_of_ne he
        simp [List.find?, hb, he]
    by_cases hq1 : q e.1 = true
    · have hfil : (e :: l).filter (fun e => q e.1) = e :: l.filter (fun e => q e.1) :=
        List.filter_cons_of_pos hq1
      rw [hfil, hfind]
      by_cases he : e.1 = a
      · have hb : (e.1 == a) = true := by simp [he]
        have hq : q a = true := by rw [← he]; exact hq1
        simp [List.find?, hb, he, hq]
      · have hb : (e.1 == a) = false := beq_false_of_ne he
        simp only [List.find?, hb, if_neg he]
        exact ih
    · have hfil : (e :: l).filter (fun e => q e.1) = l.filter (fun e => q e.1) :=
        List.filter_cons_of_neg hq1
      rw [hfil, hfind, ih]
      by_cases he : e.1 = a
      · have hq : ¬ q a = true := by rw [← he]; exact hq1
        rw [if_neg hq, if_neg hq]
      · rw [if_neg he]

theorem xcalloc_ok (H : Heap) (nobj size : Nat) (h0 : H.next ≠ 0)
    (h1 : H.next + nobj * size < 2 ^ 62) :
    ∃ H1 : Heap, xcalloc H nobj size = .ok (H.next, H1)
      ∧ H1.next = H.next + max 1 (nobj * size)
      ∧ (∀ a, H1.read8 a
          = if H.next ≤ a ∧ a < H.next + nobj * size then 0 else H.read8 a)
      ∧ H1.blocks = (H.next, nobj * size) :: H.blocks := by
  refine ⟨Heap.mk (H.mem.filter (fun e =>
      !(decide (H.next ≤ e.1) && decide (e.1 < H.next + nobj * size))))
    (H.next + max 1 (nobj * size)) ((H.next, nobj * size) :: H.blocks), ?_, rfl, ?_, rfl⟩
  · unfold xcalloc
    rw [if_neg (by omega)]
  · intro a
    unfold Heap.read8
    have key := find?_filter_key
      (fun c => !(decide (H.next ≤ c) && decide (c < H.next + nobj * size))) a H.mem
    simp only at key ⊢
    rw [key]
    by_cases hc : H.next ≤ a ∧ a < H.next + nobj * size
    · simp [hc]
    · rw [if_neg hc]
      have : (!(decide (H.next ≤ a) && decide (a < H.next + nobj * size))) = true := by
        by_cases h2 : H.next ≤ a
        · have h3 : ¬ a < H.next + nobj * size := fun h => hc ⟨h2, h⟩
          simp [h2, h3]
        · simp [h2]
      rw [if_pos this]

theorem xmalloc_ok (H : Heap) (size : Nat) (h0 : H.next ≠ 0) (h1 : H.next + size < 2 ^ 62) :
    xmalloc H size = .ok (H.next,
      { H with next := H.next + max 1 size, blocks := (H.next, size) :: H.blocks }) := by
  unfold xmalloc
  rw [if_neg (by omega)]

theorem read_int_write_int_ne (H : Heap) (a b : Nat) (x : Int)
    (h : a + 4 ≤ b ∨ b + 4 ≤ a) : (H.write_int b x).read_int a = H.read_int a := by
  unfold Heap.read_int Heap.write_int
  rw [readLE_writeLE_disjoint _ _ _ _ _ _ h]

theorem read_int_write_ptr_ne (H : Heap) (a b p : Nat)
    (h : a + 4 ≤ b ∨ b + 8 ≤ a) : (H.write_ptr b p).read_int a = H.read_int a := by
  unfold Heap.read_int Heap.write_ptr
  rw [readLE_writeLE_disjoint _ _ _ _ _ _ h]

theorem read8_write_int_ne (H : Heap) (a b : Nat) (x : Int)
    (h : a < b ∨ b + 4 ≤ a) : (H.write_int b x).read8 a = H.read8 a := by
  unfold Heap.write_int
  rw [read8_writeLE, if_neg (by omega)]

theorem read8_write_ptr_ne (H : Heap) (a b p : Nat)
    (h : a < b ∨ b + 8 ≤ a) : (H.write_ptr b p).read8 a = H.read8 a := by
  unfold Heap.write_ptr
  rw [read8_writeLE, if_neg (by omega)]

theorem read8_lt (H : Heap) (a : Nat) : H.read8 a < 256 := by
  unfold Heap.read8
  split
  · exact Nat.mod_lt _ (by norm_num)
  · norm_num

theorem next_write8 (H : Heap) (a b : Nat) : (H.write8 a b).next = H.next := rfl

theorem int_and_7f (x : Int) : int_and x 0x7f = x % 128 := by
  unfold int_and
  have h1 : to_unsigned 0x7f = 2 ^ 7 - 1 := by decide
  rw [h1, Nat.and_pow_two_sub_one_eq_mod]
  have h2 : to_unsigned x % 2 ^ 7 < 2 ^ 31 := by omega
  rw [to_int_of_lt h2]
  push_cast
  rw [to_unsigned_cast]
  omega

theorem to_unsigned_mod128 (x : Int) : to_unsigned (x % 128) = (x % 128).toNat := by
  unfold to_unsigned
  congr 1
  omega

/-! ### Arrays -/

/-- `NEWARRAY` with a negative count aborts with a memory error, whatever the operand. -/
theorem exec_NEWARRAY_neg (s : State) (b : ubyte) (n : Int) (rest : List c0_value)
    (hb : s.P[s.pc + 1]? = some b) (hS : s.S = .int n :: rest) (hn : n < 0) :
    exec_NEWARRAY s = .error .memory_error := by
  have h0 : ¬ n = 0 := by omega
  simp only [exec_NEWARRAY, fetch_of_get hb, hS, c0v_pop, val2int, bind, Except.bind, h0,
    if_false, hn, if_true, c0_memory_error]

/-- `NEWARRAY` with the count 0 pushes the null pointer and leaves the heap as it is,
whatever the operand. -/
theorem exec_NEWARRAY_zero (s : State) (b : ubyte) (rest : List c0_value)
    (hb : s.P[s.pc + 1]? = some b) (hS : s.S = .int 0 :: rest) :
    exec_NEWARRAY s = .ok (.running { s with pc := s.pc + 2, S := .ptr 0 :: rest }) := by
  simp only [exec_NEWARRAY, fetch_of_get hb, hS, c0v_pop, val2int, bind, Except.bind,
    if_true, pure, Except.pure, c0v_push, ptr2val, NULL]

/-- `NEWARRAY` with an operand below `0x80` and a positive count, when the allocator has
room: the descriptor it creates holds the count, the operand as element size, and the
address of a zero-filled block of `count * elt_size` bytes. -/
theorem exec_NEWARRAY_pos (s : State) (b : ubyte) (n : Int) (rest : List c0_value)
    (hb : s.P[s.pc + 1]? = some b) (hS : s.S = .int n :: rest)
    (hb128 : b.val < 128) (hn0 : 0 < n) (hn1 : n < 2 ^ 31)
    (h0 : s.H.next ≠ 0) (hroom : s.H.next + b.val * n.toNat + 17 < 2 ^ 62) :
    ∃ (s1 : State) (c : Nat),
      exec_NEWARRAY s = .ok (.running s1)
      ∧ s1.S = .ptr c :: rest ∧ s1.pc = s.pc + 2 ∧ s1.V = s.V ∧ s1.P = s.P
      ∧ s1.callStack = s.callStack
      ∧ c ≠ 0
      ∧ s1.H.read_int c = n
      ∧ s1.H.read_int (c + 4) = (b.val : Int)
      ∧ s1.H.read_ptr (c + 8) = s.H.next
      ∧ (∀ a, s.H.next ≤ a → a < s.H.next + b.val * n.toNat → s1.H.read8 a = 0)
      ∧ s1.H.accessible c sizeof_c0_array = true
      ∧ (∀ a k, s.H.next ≤ a → a + k ≤ s.H.next + b.val * n.toNat →
          s1.H.accessible a k = true) := by
  have hsz : size_t_wrap (byte_of_ubyte b) = b.val := by
    unfold size_t_wrap byte_of_ubyte
    rw [if_pos hb128]
    omega
  have hn : size_t_wrap n = n.toNat := by
    unfold size_t_wrap
    congr 1
    omega
  have hbz : byte_of_ubyte b = (b.val : Int) := by
    unfold byte_of_ubyte
    rw [if_pos hb128]
  obtain ⟨H1, hx, hnext1, hread1, hblocks1⟩ := xcalloc_ok s.H b.val n.toNat h0 (by omega)
  have hc0 : H1.next ≠ 0 := by omega
  have hm := xmalloc_ok H1 sizeof_c0_array hc0 (by unfold sizeof_c0_array; omega)
  have hne0 : ¬ n = 0 := by omega
  have hnn : ¬ n < 0 := by omega
  refine ⟨{ s with
      pc := s.pc + 2, S := .ptr H1.next :: rest,
      H := (((Heap.mk H1.mem (H1.next + max 1 sizeof_c0_array)
        ((H1.next, sizeof_c0_array) :: H1.blocks)).write_int H1.next n).write_int
        (H1.next + 4) (byte_of_ubyte b)).write_ptr (H1.next + 8) s.H.next },
    H1.next, ?_, rfl, rfl, rfl, rfl, rfl, hc0, ?_, ?_, ?_, ?_, ?_, ?_⟩
  · simp only [exec_NEWARRAY, fetch_of_get hb, hS, c0v_pop, val2int, bind, Except.bind, hne0,
      hnn, if_false, hsz, hn, hx, hm, pure, Except.pure, c0v_push, ptr2val]
  · dsimp only
    rw [read_int_write_ptr_ne _ _ _ _ (Or.inl (by omega)),
      read_int_write_int_ne _ _ _ _ (Or.inl (by omega))]
    exact read_int_write_int _ _ n (by omega) hn1
  · dsimp only
    rw [read_int_write_ptr_ne _ _ _ _ (Or.inl (by omega)), hbz]
    exact read_int_write_int _ _ _ (by omega) (by omega)
  · dsimp only
    exact read_ptr_write_ptr _ _ _ (by omega)
  · intro a ha1 ha2
    dsimp only
    rw [read8_write_ptr_ne _ _ _ _ (Or.inl (by omega)),
      read8_write_int_ne _ _ _ _ (Or.inl (by omega)),
      read8_write_int_ne _ _ _ _ (Or.inl (by omega))]
    show H1.read8 a = 0
    rw [hread1, if_pos ⟨ha1, ha2⟩]
  · dsimp only
    rw [accessible_write_ptr, accessible_write_int, accessible_write_int]
    simp [Heap.accessible]
  · intro a k ha1 ha2
    dsimp only
    rw [accessible_write_ptr, accessible_write_int, accessible_write_int]
    have hb1 : (s.H.next, b.val * n.toNat) ∈ H1.blocks := hblocks1 ▸ List.mem_cons_self _ _
    unfold Heap.accessible
    rw [List.any_eq_true]
    exact ⟨(s.H.next, b.val * n.toNat), List.mem_cons_of_mem _ hb1, by simp [ha1, ha2]⟩

/-! ### Returning from `execute` -/

theorem not_returned_error (e : Abort) : not_returned (.error e) := fun _ h => by cases h

theorem not_returned_running (s : State) : not_returned (.ok (.running s)) :=
  fun _ h => by cases h

theorem not_returned_bind {α : Type} (x : Except Abort α) (f : α → Except Abort Outcome)
    (h : ∀ a, not_returned (f a)) : not_returned (x >>= f) := by
  cases x with
  | error e => exact not_returned_error e
  | ok a => exact h a

theorem not_returned_ite (c : Prop) [Decidable c] (a b : Except Abort Outcome)
    (ha : not_returned a) (hb : not_returned b) : not_returned (if c then a else b) := by
  split <;> assumption

theorem not_returned_ite_neg (c : Prop) [Decidable c] (a b : Except Abort Outcome)
    (hc : ¬ c) (hb : not_returned b) : not_returned (if c then a else b) := by
  rw [if_neg hc]
  exact hb

theorem exec_POP_nr (s : State) : not_returned (exec_POP s) := by
  unfold exec_POP
  repeat (first
    | exact not_returned_running _
    | exact not_returned_error _
    | (apply not_returned_bind; intro _)
    | apply not_returned_ite
    | split)

theorem exec_DUP_nr (s : State) : not_returned (exec_DUP s) := by
  unfold exec_DUP
  repeat (first
    | exact not_returned_running _
    | exact not_returned_error _
    | (apply not_returned_bind; intro _)
    | apply not_returned_ite
    | split)

theorem exec_SWAP_nr (s : State) : not_returned (exec_SWAP s) := by
  unfold exec_SWAP
  repeat (first
    | exact not_returned_running _
    | exact not_returned_error _
    | (apply not_returned_bind; intro _)
    | apply not_returned_ite
    | split)

theorem exec_binop_nr (f : Int → Int → Except Abort Int) (s : State) : not_returned (exec_binop f s) := by
  unfold exec_binop
  repeat (first
    | exact not_returned_running _
    | exact not_returned_error _
    | (apply not_returned_bind; intro _)
    | apply not_returned_ite
    | split)

theorem exec_BIPUSH_nr (s : State) : not_returned (exec_BIPUSH s) := by
  unfold exec_BIPUSH
  repeat (first
    | exact not_returned_running _
    | exact not_returned_error _
    | (apply not_returned_bind; intro _)
    | apply not_returned_ite
    | split)

theorem exec_ILDC_nr (bc0 : bc0_file) (s : State) : not_returned (exec_ILDC bc0 s) := by
  unfold exec_ILDC
  repeat (first
    | exact not_returned_running _
    | exact not_returned_error _
    | (apply not_returned_bind; intro _)
    | apply not_returned_ite
    | split)

theorem exec_ALDC_nr (bc0 : bc0_file) (s : State) : not_returned (exec_ALDC bc0 s) := by
  unfold exec_ALDC
  repeat (first
    | exact not_returned_running _
    | exact not_returned_error _
    | (apply not_returned_bind; intro _)
    | apply not_returned_ite
    | split)

theorem exec_ACONST_NULL_nr (s : State) : not_returned (exec_ACONST_NULL s) := by
  unfold exec_ACONST_NULL
  exact not_returned_running _

theorem exec_VLOAD_nr (s : State) : not_returned (exec_VLOAD s) := by
  unfold exec_VLOAD
  repeat (first
    | exact not_returned_running _
    | exact not_returned_error _
    | (apply not_returned_bind; intro _)
    | apply not_returned_ite
    | split)

theorem exec_VSTORE_nr (s : State) : not_returned (exec_VSTORE s) := by
  unfold exec_VSTORE
  repeat (first
    | exact not_returned_running _
    | exact not_returned_error _
    | (apply not_returned_bind; intro _)
    | apply not_returned_ite
    | split)

theorem exec_ATHROW_nr (s : State) : not_returned (exec_ATHROW s) := by
  unfold exec_ATHROW
  repeat (first
    | exact not_returned_running _
    | exact not_returned_error _
    | (apply not_returned_bind; intro _)
    | apply not_returned_ite
    | split)

theorem exec_ASSERT_nr (s : State) : not_returned (exec_ASSERT s) := by
  unfold exec_ASSERT
  repeat (first
    | exact not_returned_running _
    | exact not_returned_error _
    | (apply not_returned_bind; intro _)
    | apply not_returned_ite
    | split)

theorem exec_NOP_nr (s : State) : not_returned (exec_NOP s) := by
  unfold exec_NOP
  exact not_returned_running _

theorem exec_IF_CMP_nr (DEBUG negate : Bool) (s : State) : not_returned (exec_IF_CMP DEBUG negate s) := by
  unfold exec_IF_CMP
  repeat (first
    | exact not_returned_running _
    | exact not_returned_error _
    | (apply not_returned_bind; intro _)
    | apply not_returned_ite
    | split)

theorem exec_IF_ICMP_nr (cmp : Int → Int → Bool) (s : State) : not_returned (exec_IF_ICMP cmp s) := by
  unfold exec_IF_ICMP
  repeat (first
    | exact not_returned_running _
    | exact not_returned_error _
    | (apply not_returned_bind; intro _)
    | apply not_returned_ite
    | split)

theorem exec_GOTO_nr (s : State) : not_returned (exec_GOTO s) := by
  unfold exec_GOTO
  repeat (first
    | exact not_returned_running _
    | exact not_returned_error _
    | (apply not_returned_bind; intro _)
    | apply not_returned_ite
    | split)

theorem exec_INVOKESTATIC_nr (bc0 : bc0_file) (s : State) : not_returned (exec_INVOKESTATIC bc0 s) := by
  unfold exec_INVOKESTATIC
  repeat (first
    | exact not_returned_running _
    | exact not_returned_error _
    | (apply not_returned_bind; intro _)
    | apply not_returned_ite
    | split)

theorem exec_INVOKENATIVE_nr (bc0 : bc0_file) (nt : List native_fn) (s : State) : not_returned (exec_INVOKENATIVE bc0 nt s) := by
  unfold exec_INVOKENATIVE
  repeat (first
    | exact not_returned_running _
    | exact not_returned_error _
    | (apply not_returned_bind; intro _)
    | apply not_returned_ite
    | split)

theorem exec_NEW_nr (s : State) : not_returned (exec_NEW s) := by
  unfold exec_NEW
  repeat (first
    | exact not_returned_running _
    | exact not_returned_error _
    | (apply not_returned_bind; intro _)
    | apply not_returned_ite
    | split)

theorem exec_IMLOAD_nr (s : State) : not_returned (exec_IMLOAD s) := by
  unfold exec_IMLOAD
  repeat (first
    | exact not_returned_running _
    | exact not_returned_error _
    | (apply not_returned_bind; intro _)
    | apply not_returned_ite
    | split)

theorem exec_IMSTORE_nr (s : State) : not_returned (exec_IMSTORE s) := by
  unfold exec_IMSTORE
  repeat (first
    | exact not_returned_running _
    | exact not_returned_error _
    | (apply not_returned_bind; intro _)
    | apply not_returned_ite
    | split)

theorem exec_AMLOAD_nr (s : State) : not_returned (exec_AMLOAD s) := by
  unfold exec_AMLOAD
  repeat (first
    | exact not_returned_running _
    | exact not_returned_error _
    | (apply not_returned_bind; intro _)
    | apply not_returned_ite
    | split)

theorem exec_AMSTORE_nr (s : State) : not_returned (exec_AMSTORE s) := by
  unfold exec_AMSTORE
  repeat (first
    | exact not_returned_running _
    | exact not_returned_error _
    | (apply not_returned_bind; intro _)
    | apply not_returned_ite
    | split)

theorem exec_CMLOAD_nr (s : State) : not_returned (exec_CMLOAD s) := by
  unfold exec_CMLOAD
  repeat (first
    | exact not_returned_running _
    | exact not_returned_error _
    | (apply not_returned_bind; intro _)
    | apply not_returned_ite
    | split)

theorem exec_CMSTORE_nr (s : State) : not_returned (exec_CMSTORE s) := by
  unfold exec_CMSTORE
  repeat (first
    | exact not_returned_running _
    | exact not_returned_error _
    | (apply not_returned_bind; intro _)
    | apply not_returned_ite
    | split)

theorem exec_AADDF_nr (s : State) : not_returned (exec_AADDF s) := by
  unfold exec_AADDF
  repeat (first
    | exact not_returned_running _
    | exact not_returned_error _
    | (apply not_returned_bind; intro _)
    | apply not_returned_ite
    | split)

theorem exec_NEWARRAY_nr (s : State) : not_returned (exec_NEWARRAY s) := by
  unfold exec_NEWARRAY
  repeat (first
    | exact not_returned_running _
    | exact not_returned_error _
    | (apply not_returned_bind; intro _)
    | apply not_returned_ite
    | split)

theorem exec_ARRAYLENGTH_nr (s : State) : not_returned (exec_ARRAYLENGTH s) := by
  unfold exec_ARRAYLENGTH
  repeat (first
    | exact not_returned_running _
    | exact not_returned_error _
    | (apply not_returned_bind; intro _)
    | apply not_returned_ite
    | split)

theorem exec_AADDS_nr (s : State) : not_returned (exec_AADDS s) := by
  unfold exec_AADDS
  repeat (first
    | exact not_returned_running _
    | exact not_returned_error _
    | (apply not_returned_bind; intro _)
    | apply not_returned_ite
    | split)

theorem fetch_eq_ok {P : List ubyte} {pc : Nat} {b : ubyte} (h : fetch P pc = .ok b) :
    P[pc]? = some b := by
  unfold fetch at h
  split at h
  · rename_i c hc
    cases h
    exact hc
  · cases h

/-- An iteration of the loop either is the case `RETURN` or does not return from
`execute`. -/
theorem step_return_or_not (DEBUG : Bool) (bc0 : bc0_file) (nt : List native_fn) (s : State) :
    (s.P[s.pc]? = some RETURN ∧ step DEBUG bc0 nt s = exec_RETURN s)
      ∨ not_returned (step DEBUG bc0 nt s) := by
  by_cases hR : s.P[s.pc]? = some RETURN
  · exact Or.inl ⟨hR, step_RETURN DEBUG bc0 nt s hR⟩
  · right
    unfold step
    cases hf : fetch s.P s.pc with
    | error e => exact not_returned_error e
    | ok b =>
      have hne : ¬ b = RETURN := fun h => hR (h ▸ fetch_eq_ok hf)
      show not_returned (if b = POP then _ else _)
      refine not_returned_ite _ _ _ (exec_POP_nr s) ?_
      refine not_returned_ite _ _ _ (exec_DUP_nr s) ?_
      refine not_returned_ite _ _ _ (exec_SWAP_nr s) ?_
      refine not_returned_ite_neg _ _ _ hne ?_
      refine not_returned_ite _ _ _ (exec_binop_nr _ s) ?_
      refine not_returned_ite _ _ _ (exec_binop_nr _ s) ?_
      refine not_returned_ite _ _ _ (exec_binop_nr _ s) ?_
      refine not_returned_ite _ _ _ (exec_binop_nr _ s) ?_
      refine not_returned_ite _ _ _ (exec_binop_nr _ s) ?_
      refine not_returned_ite _ _ _ (exec_binop_nr _ s) ?_
      refine not_returned_ite _ _ _ (exec_binop_nr _ s) ?_
      refine not_returned_ite _ _ _ (exec_binop_nr _ s) ?_
      refine not_returned_ite _ _ _ (exec_binop_nr _ s) ?_
      refine not_returned_ite _ _ _ (exec_binop_nr _ s) ?_
      refine not_returned_ite _ _ _ (exec_BIPUSH_nr s) ?_
      refine not_returned_ite _ _ _ (exec_ILDC_nr bc0 s) ?_
      refine not_returned_ite _ _ _ (exec_ALDC_nr bc0 s) ?_
      refine not_returned_ite _ _ _ (exec_ACONST_NULL_nr s) ?_
      refine not_returned_ite _ _ _ (exec_VLOAD_nr s) ?_
      refine not_returned_ite _ _ _ (exec_VSTORE_nr s) ?_
      refine not_returned_ite _ _ _ (exec_ATHROW_nr s) ?_
      refine not_returned_ite _ _ _ (exec_ASSERT_nr s) ?_
      refine not_returned_ite _ _ _ (exec_NOP_nr s) ?_
      refine not_returned_ite _ _ _ (exec_IF_CMP_nr DEBUG false s) ?_
      refine not_returned_ite _ _ _ (exec_IF_CMP_nr DEBUG true s) ?_
      refine not_returned_ite _ _ _ (exec_IF_ICMP_nr _ s) ?_
      refine not_returned_ite _ _ _ (exec_IF_ICMP_nr _ s) ?_
      refine not_returned_ite _ _ _ (exec_IF_ICMP_nr _ s) ?_
      refine not_returned_ite _ _ _ (exec_IF_ICMP_nr _ s) ?_
      refine not_returned_ite _ _ _ (exec_GOTO_nr s) ?_
      refine not_returned_ite _ _ _ (exec_INVOKESTATIC_nr bc0 s) ?_
      refine not_returned_ite _ _ _ (exec_INVOKENATIVE_nr bc0 nt s) ?_
      refine not_returned_ite _ _ _ (exec_NEW_nr s) ?_
      refine not_returned_ite _ _ _ (exec_IMLOAD_nr s) ?_
      refine not_returned_ite _ _ _ (exec_IMSTORE_nr s) ?_
      refine not_returned_ite _ _ _ (exec_AMLOAD_nr s) ?_
      refine not_returned_ite _ _ _ (exec_AMSTORE_nr s) ?_
      refine not_returned_ite _ _ _ (exec_CMLOAD_nr s) ?_
      refine not_returned_ite _ _ _ (exec_CMSTORE_nr s) ?_
      refine not_returned_ite _ _ _ (exec_AADDF_nr s) ?_
      refine not_returned_ite _ _ _ (exec_NEWARRAY_nr s) ?_
      refine not_returned_ite _ _ _ (exec_ARRAYLENGTH_nr s) ?_
      refine not_returned_ite _ _ _ (exec_AADDS_nr s) ?_
      exact not_returned_error _

theorem exec_RETURN_returned (s : State) (r : Int) (h : exec_RETURN s = .ok (.returned r)) :
    s.callStack = [] ∧ ∃ rest, s.S = .int r :: rest := by
  unfold exec_RETURN at h
  cases hS : s.S with
  | nil => simp [hS, c0v_pop, bind, Except.bind] at h
  | cons v rest =>
    cases hC : s.callStack with
    | cons fr C => simp [hS, hC, c0v_pop, bind, Except.bind, pure, Except.pure] at h
    | nil =>
      cases v with
      | ptr p =>
        simp [hS, hC, c0v_pop, val2int, c0_value_error, bind, Except.bind] at h
      | int x =>
        simp [hS, hC, c0v_pop, val2int, bind, Except.bind, pure, Except.pure] at h
        exact ⟨rfl, rest, by rw [h]⟩

theorem iterate_returned (DEBUG : Bool) (bc0 : bc0_file) (nt : List native_fn) :
    ∀ (fuel : Nat) (s0 : State) (r : Int),
      iterate DEBUG bc0 nt fuel s0 = .ok (some r) →
      ∃ (k : Nat) (s : State), k < fuel ∧ run DEBUG bc0 nt k s0 = some s
        ∧ step DEBUG bc0 nt s = .ok (.returned r) := by
  intro fuel
  induction fuel with
  | zero =>
    intro s0 r h
    simp [iterate] at h
  | succ n ih =>
    intro s0 r h
    unfold iterate at h
    cases hs : step DEBUG bc0 nt s0 with
    | error e => simp [hs] at h
    | ok o =>
      cases o with
      | returned r1 =>
        simp only [hs] at h
        have hr : r1 = r := by
          injection h with h
          injection h
        subst hr
        exact ⟨0, s0, Nat.succ_pos n, rfl, hs⟩
      | running s1 =>
        simp only [hs] at h
        obtain ⟨k, s, hk, hrun, hst⟩ := ih s1 r h
        refine ⟨k + 1, s, Nat.succ_lt_succ hk, ?_, hst⟩
        simp only [run, hs]
        exact hrun

/-! ### Array allocation followed by an access -/

theorem int_mul_exact (x y : Int) (h0 : -2 ^ 31 ≤ x * y) (h1 : x * y < 2 ^ 31) :
    int_mul x y = x * y := by
  unfold int_mul
  rw [mul_wrap]
  unfold signed32
  omega

theorem exec_AADDS_null (s : State) (i : Int) (rest : List c0_value)
    (hS : s.S = .int i :: .ptr 0 :: rest) : exec_AADDS s = .error .memory_error := by
  simp only [exec_AADDS, hS, c0v_pop, val2int, val2ptr, bind, Except.bind, NULL, if_true,
    c0_memory_error]

theorem exec_AADDS_eq (s : State) (i : Int) (A : Nat) (rest : List c0_value)
    (hS : s.S = .int i :: .ptr A :: rest) (hA : A ≠ 0)
    (hacc : s.H.accessible A sizeof_c0_array = true) :
    exec_AADDS s
      = if 0 ≤ i ∧ i < s.H.read_int A then
          .ok (.running { s with
            pc := s.pc + 1,
            S := .ptr (size_t_wrap ((s.H.read_ptr (A + 8) : Int)
                    + int_mul (s.H.read_int (A + 4)) i)) :: rest })
        else .error .memory_error := by
  simp only [exec_AADDS, hS, c0v_pop, val2int, val2ptr, bind, Except.bind, NULL, hA, if_false,
    hacc, Bool.not_true, Bool.false_eq_true, c0_memory_error, pure, Except.pure, c0v_push,
    ptr2val]
  by_cases h : 0 ≤ i ∧ i < s.H.read_int A
  · simp [h]
  · simp [h]

theorem exec_ARRAYLENGTH_eq (s : State) (A : Nat) (rest : List c0_value)
    (hS : s.S = .ptr A :: rest) (hacc : A ≠ 0 → s.H.accessible A sizeof_c0_array = true) :
    exec_ARRAYLENGTH s
      = .ok (.running { s with
          pc := s.pc + 1, S := .int (if A = 0 then 0 else s.H.read_int A) :: rest }) := by
  have hg : ¬ (A ≠ 0 ∧ s.H.accessible A sizeof_c0_array = false) := by
    rintro ⟨h0, hf⟩
    rw [hacc h0] at hf
    cases hf
  simp only [exec_ARRAYLENGTH, hS, c0v_pop, val2ptr, bind, Except.bind, NULL, hg, if_false,
    pure, Except.pure, c0v_push, int2val]

/-- `NEWARRAY` with an operand of `0x80` or more and a positive count cannot allocate:
the element size is the operand minus 256 and the request is for at least `2^63`
bytes. -/
theorem exec_NEWARRAY_high (s : State) (b : ubyte) (n : Int) (rest : List c0_value)
    (hb : s.P[s.pc + 1]? = some b) (hS : s.S = .int n :: rest)
    (hb128 : 128 ≤ b.val) (hn0 : 0 < n) (hn1 : n < 2 ^ 31) :
    byte_of_ubyte b = (b.val : Int) - 256
      ∧ exec_NEWARRAY s = .error .alloc_failed := by
  have hbz : byte_of_ubyte b = (b.val : Int) - 256 := by
    unfold byte_of_ubyte
    rw [if_neg (by omega)]
  have hlt := b.isLt
  have hsz : size_t_wrap (byte_of_ubyte b) = 2 ^ 64 - 256 + b.val := by
    rw [hbz]
    unfold size_t_wrap
    omega
  have hn : size_t_wrap n = n.toNat := by
    unfold size_t_wrap
    congr 1
    omega
  have hne0 : ¬ n = 0 := by omega
  have hnn : ¬ n < 0 := by omega
  have hbig : 2 ^ 62 ≤ s.H.next + (2 ^ 64 - 256 + b.val) * n.toNat := by
    have h1 : 1 ≤ n.toNat := by omega
    have h2 : (2 ^ 64 - 256 + b.val) * 1 ≤ (2 ^ 64 - 256 + b.val) * n.toNat :=
      Nat.mul_le_mul_left _ h1
    omega
  refine ⟨hbz, ?_⟩
  simp only [exec_NEWARRAY, fetch_of_get hb, hS, c0v_pop, val2int, bind, Except.bind, hne0,
    hnn, if_false, hsz, hn, xcalloc, hbig, or_true, if_true]

/-- `NEWARRAY` with an operand below `0x80`, then `AADDS` on the descriptor it pushed:
the access succeeds exactly for the indices `0 <= i < n`, and is a memory error for the
others. -/
theorem newarray_then_aadds (DEBUG : Bool) (bc0 : bc0_file) (nt : List native_fn) (s : State)
    (b : ubyte) (n : Int) (rest : List c0_value)
    (hop : s.P[s.pc]? = some NEWARRAY)
    (hb : s.P[s.pc + 1]? = some b) (hS : s.S = .int n :: rest)
    (hb128 : b.val < 128) (hn0 : 0 < n) (hn1 : n < 2 ^ 31)
    (h0 : s.H.next ≠ 0) (hroom : s.H.next + b.val * n.toNat + 17 < 2 ^ 62) :
    ∃ (s1 : State) (c : Nat),
      step DEBUG bc0 nt s = .ok (.running s1) ∧ s1.S = .ptr c :: rest ∧ c ≠ 0
      ∧ ∀ (t : State) (i : Int) (rest1 : List c0_value),
          t.H = s1.H → t.P[t.pc]? = some AADDS → t.S = .int i :: .ptr c :: rest1 →
          ((0 ≤ i ∧ i < n) →
            ∃ p : Nat, step DEBUG bc0 nt t
              = .ok (.running { t with pc := t.pc + 1, S := .ptr p :: rest1 }))
          ∧ (¬ (0 ≤ i ∧ i < n) → step DEBUG bc0 nt t = .error .memory_error) := by
  obtain ⟨s1, c, hs, hS1, -, -, -, -, hc, hcount, -, -, -, hacc, -⟩ :=
    exec_NEWARRAY_pos s b n rest hb hS hb128 hn0 hn1 h0 hroom
  refine ⟨s1, c, by rw [step_NEWARRAY DEBUG bc0 nt s hop, hs], hS1, hc, ?_⟩
  intro t i rest1 hH hopt hSt
  rw [step_AADDS DEBUG bc0 nt t hopt, exec_AADDS_eq t i c rest1 hSt hc (hH ▸ hacc), hH,
    hcount]
  constructor
  · intro hi
    rw [if_pos hi]
    exact ⟨_, rfl⟩
  · intro hi
    rw [if_neg hi]

/-- `NEWARRAY` with an operand below `0x80`, then `ARRAYLENGTH` on the descriptor it
pushed, leaves the count on top of the stack. -/
theorem newarray_then_arraylength (DEBUG : Bool) (bc0 : bc0_file) (nt : List native_fn)
    (s : State) (b : ubyte) (n : Int) (rest : List c0_value)
    (hop : s.P[s.pc]? = some NEWARRAY)
    (hb : s.P[s.pc + 1]? = some b) (hS : s.S = .int n :: rest)
    (hb128 : b.val < 128) (hn0 : 0 < n) (hn1 : n < 2 ^ 31)
    (h0 : s.H.next ≠ 0) (hroom : s.H.next + b.val * n.toNat + 17 < 2 ^ 62) :
    ∃ s1 : State,
      step DEBUG bc0 nt s = .ok (.running s1)
      ∧ (s1.P[s1.pc]? = some ARRAYLENGTH →
          step DEBUG bc0 nt s1
            = .ok (.running { s1 with pc := s1.pc + 1, S := .int n :: rest })) := by
  obtain ⟨s1, c, hs, hS1, -, -, -, -, hc, hcount, -, -, -, hacc, -⟩ :=
    exec_NEWARRAY_pos s b n rest hb hS hb128 hn0 hn1 h0 hroom
  refine ⟨s1, by rw [step_NEWARRAY DEBUG bc0 nt s hop, hs], ?_⟩
  intro hopt
  rw [step_ARRAYLENGTH DEBUG bc0 nt s1 hopt, exec_ARRAYLENGTH_eq s1 c rest hS1 (fun _ => hacc),
    if_neg hc, hcount]

/-- `AADDS` pushes `elems + elt_size * i` exactly when the product fits in an `int`. -/
theorem aadds_address_exact (DEBUG : Bool) (bc0 : bc0_file) (nt : List native_fn) (s : State)
    (i : Int) (A : Nat) (rest : List c0_value)
    (hop : s.P[s.pc]? = some AADDS) (hS : s.S = .int i :: .ptr A :: rest) (hA : A ≠ 0)
    (hacc : s.H.accessible A sizeof_c0_array = true)
    (hi : 0 ≤ i ∧ i < s.H.read_int A) (hsz : 0 ≤ s.H.read_int (A + 4))
    (hprod : s.H.read_int (A + 4) * i < 2 ^ 31)
    (hfit : (s.H.read_ptr (A + 8) : Int) + s.H.read_int (A + 4) * i < 2 ^ 64) :
    ∃ p : Nat, (p : Int) = (s.H.read_ptr (A + 8) : Int) + s.H.read_int (A + 4) * i
      ∧ step DEBUG bc0 nt s = .ok (.running { s with pc := s.pc + 1, S := .ptr p :: rest }) := by
  have hnn : 0 ≤ s.H.read_int (A + 4) * i := Int.mul_nonneg hsz hi.1
  refine ⟨size_t_wrap ((s.H.read_ptr (A + 8) : Int) + int_mul (s.H.read_int (A + 4)) i), ?_, ?_⟩
  · rw [int_mul_exact _ _ (by omega) hprod]
    unfold size_t_wrap
    rw [Int.toNat_of_nonneg (Int.emod_nonneg _ (by norm_num))]
    exact Int.emod_eq_of_lt (by omega) hfit
  · rw [step_AADDS DEBUG bc0 nt s hop, exec_AADDS_eq s i A rest hS hA hacc, if_pos hi]

/-! ### The default case, natives, function pointers and symmetry of equality -/

/-- A byte that is none of the labels with a body reaches `default`. -/
theorem step_default (DEBUG : Bool) (bc0 : bc0_file) (nt : List native_fn) (s : State)
    (b : ubyte) (hop : s.P[s.pc]? = some b) (hb : b ∉ handled_opcodes) :
    step DEBUG bc0 nt s = .error (.invalid_opcode b) := by
  simp only [handled_opcodes, List.mem_cons, List.mem_singleton, not_or, List.mem_nil_iff,
    or_false] at hb
  obtain ⟨h0, h1, h2, h3, h4, h5, h6, h7, h8, h9, h10, h11, h12, h13, h14, h15, h16, h17, h18, h19, h20, h21, h22, h23, h24, h25, h26, h27, h28, h29, h30, h31, h32, h33, h34, h35, h36, h37, h38, h39, h40, h41, h42⟩ := hb
  unfold step
  rw [fetch_of_get hop]
  show (if b = POP then _ else _) = _
  rw [if_neg h0, if_neg h1, if_neg h2, if_neg h3, if_neg h4, if_neg h5, if_neg h6, if_neg h7, if_neg h8, if_neg h9, if_neg h10, if_neg h11, if_neg h12, if_neg h13, if_neg h14, if_neg h15, if_neg h16, if_neg h17, if_neg h18, if_neg h19, if_neg h20, if_neg h21, if_neg h22, if_neg h23, if_neg h24, if_neg h25, if_neg h26, if_neg h27, if_neg h28, if_neg h29, if_neg h30, if_neg h31, if_neg h32, if_neg h33, if_neg h34, if_neg h35, if_neg h36, if_neg h37, if_neg h38, if_neg h39, if_neg h40, if_neg h41, if_neg h42]

theorem step_INVOKENATIVE (DEBUG : Bool) (bc0 : bc0_file) (nt : List native_fn) (s : State)
    (h : s.P[s.pc]? = some INVOKENATIVE) :
    step DEBUG bc0 nt s = exec_INVOKENATIVE bc0 nt s := by
  simp only [step, fetch_of_get h]
  rfl

/-- The address `create_funptr` builds: bit 62, bit 31 for a native, and the index in the
low 16 bits. -/
theorem create_funptr_eq (n : Bool) (i : Nat) (hi : i < 2 ^ 16) :
    create_funptr n i = 2 ^ 62 + (if n then 2 ^ 31 else 0) + i := by
  unfold create_funptr FUNPTR_MASK FUNPTR_BITS PTR_TYPE_SHIFT FUNPTR_TYPE_SHIFT
  rw [Nat.mod_eq_of_lt hi]
  have h62 : (1 : Nat) <<< 62 = 2 ^ 62 := by rw [Nat.shiftLeft_eq, Nat.one_mul]
  have hb : ((if n then 1 else 0 : Nat) <<< 31) = if n then 2 ^ 31 else 0 := by
    cases n <;> simp [Nat.shiftLeft_eq]
  rw [h62, hb]
  have hlt : (if n then 2 ^ 31 else 0 : Nat) < 2 ^ 62 := by
    cases n <;> simp
  have h1 : 2 ^ 62 ||| (if n then 2 ^ 31 else 0 : Nat) = 2 ^ 62 + (if n then 2 ^ 31 else 0) := by
    have := Nat.mul_add_lt_is_or hlt 1
    rw [Nat.mul_one] at this
    exact this.symm
  rw [h1]
  have h2 : 2 ^ 62 + (if n then 2 ^ 31 else 0 : Nat)
      = 2 ^ 16 * (2 ^ 46 + (if n then 2 ^ 15 else 0)) := by
    cases n <;> simp
  rw [h2, ← Nat.mul_add_lt_is_or hi]

theorem ptr_type_create_funptr (n : Bool) (i : Nat) (hi : i < 2 ^ 16) :
    ptr_type (create_funptr n i) = 1 := by
  rw [ptr_type_eq, create_funptr_eq n i hi]
  cases n <;> simp <;> omega

theorem create_funptr_inj (n1 n2 : Bool) (i1 i2 : Nat) (h1 : i1 < 2 ^ 16) (h2 : i2 < 2 ^ 16) :
    create_funptr n1 i1 = create_funptr n2 i2 ↔ n1 = n2 ∧ i1 = i2 := by
  rw [create_funptr_eq n1 i1 h1, create_funptr_eq n2 i2 h2]
  constructor
  · intro h
    cases n1 <;> cases n2 <;> simp at h ⊢ <;> omega
  · rintro ⟨rfl, rfl⟩
    rfl

theorem advances_error (k : Nat) (s : State) (e : Abort) : advances k s (.error e) :=
  fun _ h => by cases h

theorem advances_running (k : Nat) (s t : State) (h : t.pc = s.pc + k) :
    advances k s (.ok (.running t)) := by
  intro s1 h1
  injection h1 with h1
  injection h1 with h1
  rw [← h1]
  exact h

theorem advances_bind {α : Type} (k : Nat) (s : State) (x : Except Abort α)
    (f : α → Except Abort Outcome) (h : ∀ a, advances k s (f a)) : advances k s (x >>= f) := by
  cases x with
  | error e => exact advances_error k s e
  | ok a => exact h a

theorem advances_ite (k : Nat) (s : State) (c : Prop) [Decidable c]
    (a b : Except Abort Outcome) (ha : advances k s a) (hb : advances k s b) :
    advances k s (if c then a else b) := by
  split <;> assumption

theorem advances_case (s : State) (b X : ubyte) (w : Nat) (a e : Except Abort Outcome)
    (hw : 1 + operand_width X = w) (ha : b = X → advances w s a)
    (he : advances (1 + operand_width b) s e) :
    advances (1 + operand_width b) s (if b = X then a else e) := by
  split
  · next h =>
    rw [h, hw]
    exact ha h
  · exact he

theorem advances_case_neg (s : State) (b X : ubyte) (a e : Except Abort Outcome)
    (hne : b ≠ X) (he : advances (1 + operand_width b) s e) :
    advances (1 + operand_width b) s (if b = X then a else e) := by
  rw [if_neg hne]
  exact he

theorem exec_POP_pc (s : State) :
    advances 1 s (exec_POP s) := by
  unfold exec_POP
  repeat (first
    | exact advances_running _ _ _ rfl
    | exact advances_error _ _ _
    | (apply advances_bind; intro _)
    | apply advances_ite
    | split)

theorem exec_DUP_pc (s : State) :
    advances 1 s (exec_DUP s) := by
  unfold exec_DUP
  repeat (first
    | exact advances_running _ _ _ rfl
    | exact advances_error _ _ _
    | (apply advances_bind; intro _)
    | apply advances_ite
    | split)

theorem exec_SWAP_pc (s : State) :
    advances 1 s (exec_SWAP s) := by
  unfold exec_SWAP
  repeat (first
    | exact advances_running _ _ _ rfl
    | exact advances_error _ _ _
    | (apply advances_bind; intro _)
    | apply advances_ite
    | split)

theorem exec_BIPUSH_pc (s : State) :
    advances 2 s (exec_BIPUSH s) := by
  unfold exec_BIPUSH
  repeat (first
    | exact advances_running _ _ _ rfl
    | exact advances_error _ _ _
    | (apply advances_bind; intro _)
    | apply advances_ite
    | split)

theorem exec_ILDC_pc (bc0 : bc0_file) (s : State) :
    advances 3 s (exec_ILDC bc0 s) := by
  unfold exec_ILDC
  repeat (first
    | exact advances_running _ _ _ rfl
    | exact advances_error _ _ _
    | (apply advances_bind; intro _)
    | apply advances_ite
    | split)

theorem exec_ALDC_pc (bc0 : bc0_file) (s : State) :
    advances 3 s (exec_ALDC bc0 s) := by
  unfold exec_ALDC
  repeat (first
    | exact advances_running _ _ _ rfl
    | exact advances_error _ _ _
    | (apply advances_bind; intro _)
    | apply advances_ite
    | split)

theorem exec_ACONST_NULL_pc (s : State) :
    advances 1 s (exec_ACONST_NULL s) := by
  unfold exec_ACONST_NULL
  exact advances_running _ _ _ rfl

theorem exec_VLOAD_pc (s : State) :
    advances 2 s (exec_VLOAD s) := by
  unfold exec_VLOAD
  repeat (first
    | exact advances_running _ _ _ rfl
    | exact advances_error _ _ _
    | (apply advances_bind; intro _)
    | apply advances_ite
    | split)

theorem exec_VSTORE_pc (s : State) :
    advances 2 s (exec_VSTORE s) := by
  unfold exec_VSTORE
  repeat (first
    | exact advances_running _ _ _ rfl
    | exact advances_error _ _ _
    | (apply advances_bind; intro _)
    | apply advances_ite
    | split)

theorem exec_ATHROW_pc (s : State) :
    advances 1 s (exec_ATHROW s) := by
  unfold exec_ATHROW
  repeat (first
    | exact advances_running _ _ _ rfl
    | exact advances_error _ _ _
    | (apply advances_bind; intro _)
    | apply advances_ite
    | split)

theorem exec_ASSERT_pc (s : State) :
    advances 1 s (exec_ASSERT s) := by
  unfold exec_ASSERT
  repeat (first
    | exact advances_running _ _ _ rfl
    | exact advances_error _ _ _
    | (apply advances_bind; intro _)
    | apply advances_ite
    | split)

theorem exec_NOP_pc (s : State) :
    advances 1 s (exec_NOP s) := by
  unfold exec_NOP
  exact advances_running _ _ _ rfl

theorem exec_INVOKENATIVE_pc (bc0 : bc0_file) (nt : List native_fn) (s : State) :
    advances 3 s (exec_INVOKENATIVE bc0 nt s) := by
  unfold exec_INVOKENATIVE
  repeat (first
    | exact advances_running _ _ _ rfl
    | exact advances_error _ _ _
    | (apply advances_bind; intro _)
    | apply advances_ite
    | split)

theorem exec_NEW_pc (s : State) :
    advances 2 s (exec_NEW s) := by
  unfold exec_NEW
  repeat (first
    | exact advances_running _ _ _ rfl
    | exact advances_error _ _ _
    | (apply advances_bind; intro _)
    | apply advances_ite
    | split)

theorem exec_IMLOAD_pc (s : State) :
    advances 1 s (exec_IMLOAD s) := by
  unfold exec_IMLOAD
  repeat (first
    | exact advances_running _ _ _ rfl
    | exact advances_error _ _ _
    | (apply advances_bind; intro _)
    | apply advances_ite
    | split)

theorem exec_IMSTORE_pc (s : State) :
    advances 1 s (exec_IMSTORE s) := by
  unfold exec_IMSTORE
  repeat (first
    | exact advances_running _ _ _ rfl
    | exact advances_error _ _ _
    | (apply advances_bind; intro _)
    | apply advances_ite
    | split)

theorem exec_AMLOAD_pc (s : State) :
    advances 1 s (exec_AMLOAD s) := by
  unfold exec_AMLOAD
  repeat (first
    | exact advances_running _ _ _ rfl
    | exact advances_error _ _ _
    | (apply advances_bind; intro _)
    | apply advances_ite
    | split)

theorem exec_AMSTORE_pc (s : State) :
    advances 1 s (exec_AMSTORE s) := by
  unfold exec_AMSTORE
  repeat (first
    | exact advances_running _ _ _ rfl
    | exact advances_error _ _ _
    | (apply advances_bind; intro _)
    | apply advances_ite
    | split)

theorem exec_CMLOAD_pc (s : State) :
    advances 1 s (exec_CMLOAD s) := by
  unfold exec_CMLOAD
  repeat (first
    | exact advances_running _ _ _ rfl
    | exact advances_error _ _ _
    | (apply advances_bind; intro _)
    | apply advances_ite
    | split)

theorem exec_CMSTORE_pc (s : State) :
    advances 1 s (exec_CMSTORE s) := by
  unfold exec_CMSTORE
  repeat (first
    | exact advances_running _ _ _ rfl
    | exact advances_error _ _ _
    | (apply advances_bind; intro _)
    | apply advances_ite
    | split)

theorem exec_AADDF_pc (s : State) :
    advances 2 s (exec_AADDF s) := by
  unfold exec_AADDF
  repeat (first
    | exact advances_running _ _ _ rfl
    | exact advances_error _ _ _
    | (apply advances_bind; intro _)
    | apply advances_ite
    | split)

theorem exec_NEWARRAY_pc (s : State) :
    advances 2 s (exec_NEWARRAY s) := by
  unfold exec_NEWARRAY
  repeat (first
    | exact advances_running _ _ _ rfl
    | exact advances_error _ _ _
    | (apply advances_bind; intro _)
    | apply advances_ite
    | split)

theorem exec_ARRAYLENGTH_pc (s : State) :
    advances 1 s (exec_ARRAYLENGTH s) := by
  unfold exec_ARRAYLENGTH
  repeat (first
    | exact advances_running _ _ _ rfl
    | exact advances_error _ _ _
    | (apply advances_bind; intro _)
    | apply advances_ite
    | split)

theorem exec_AADDS_pc (s : State) :
    advances 1 s (exec_AADDS s) := by
  unfold exec_AADDS
  repeat (first
    | exact advances_running _ _ _ rfl
    | exact advances_error _ _ _
    | (apply advances_bind; intro _)
    | apply advances_ite
    | split)

theorem exec_binop_pc (f : Int → Int → Except Abort Int) (s : State) :
    advances 1 s (exec_binop f s) := by
  unfold exec_binop
  repeat (first
    | exact advances_running _ _ _ rfl
    | exact advances_error _ _ _
    | (apply advances_bind; intro _)
    | apply advances_ite
    | split)

theorem exec_IF_CMP_pc (DEBUG negate : Bool) (s : State)
    (hb : ∀ v1 v2 rest b, s.S = v1 :: v2 :: rest → val_equal DEBUG s.H v1 v2 = .ok b →
      (b != negate) = false) :
    advances 3 s (exec_IF_CMP DEBUG negate s) := by
  cases hS : s.S with
  | nil => simp only [exec_IF_CMP, hS, c0v_pop, bind, Except.bind]; exact advances_error _ _ _
  | cons v1 S1 =>
    cases S1 with
    | nil =>
      simp only [exec_IF_CMP, hS, c0v_pop, bind, Except.bind]
      exact advances_error _ _ _
    | cons v2 rest =>
      simp only [exec_IF_CMP, hS, c0v_pop, bind, Except.bind]
      cases fetch s.P (s.pc + 1) with
      | error e => exact advances_error _ _ _
      | ok o1 =>
        cases fetch s.P (s.pc + 2) with
        | error e => exact advances_error _ _ _
        | ok o2 =>
          cases hv : val_equal DEBUG s.H v1 v2 with
          | error e => exact advances_error _ _ _
          | ok b =>
            have := hb v1 v2 rest b hS hv
            simp only [this, Bool.false_eq_true, if_false]
            exact advances_running _ _ _ rfl

theorem exec_IF_ICMP_pc (cmp : Int → Int → Bool) (s : State)
    (hb : ∀ x y rest, s.S = .int y :: .int x :: rest → cmp x y = false) :
    advances 3 s (exec_IF_ICMP cmp s) := by
  cases hS : s.S with
  | nil => simp only [exec_IF_ICMP, hS, c0v_pop, bind, Except.bind]; exact advances_error _ _ _
  | cons v1 S1 =>
    cases v1 with
    | ptr p =>
      simp only [exec_IF_ICMP, hS, c0v_pop, val2int, c0_value_error, bind, Except.bind]
      exact advances_error _ _ _
    | int y =>
      cases S1 with
      | nil =>
        simp only [exec_IF_ICMP, hS, c0v_pop, val2int, bind, Except.bind]
        exact advances_error _ _ _
      | cons v2 rest =>
        cases v2 with
        | ptr p =>
          simp only [exec_IF_ICMP, hS, c0v_pop, val2int, c0_value_error, bind, Except.bind]
          exact advances_error _ _ _
        | int x =>
          simp only [exec_IF_ICMP, hS, c0v_pop, val2int, bind, Except.bind]
          cases fetch s.P (s.pc + 1) with
          | error e => exact advances_error _ _ _
          | ok o1 =>
            cases fetch s.P (s.pc + 2) with
            | error e => exact advances_error _ _ _
            | ok o2 =>
              have := hb x y rest hS
              simp only [this, Bool.false_eq_true, if_false]
              exact advances_running _ _ _ rfl

theorem taken_branch_CMP (DEBUG : Bool) (s : State) (op : ubyte) (negate : Bool)
    (hop : s.P[s.pc]? = some op)
    (hneg : (op = IF_CMPEQ ∧ negate = false) ∨ (op = IF_CMPNE ∧ negate = true))
    (hb : taken_branch DEBUG s = false) :
    ∀ v1 v2 rest b, s.S = v1 :: v2 :: rest → val_equal DEBUG s.H v1 v2 = .ok b →
      (b != negate) = false := by
  intro v1 v2 rest b hS hv
  unfold taken_branch at hb
  rw [hop, hS] at hb
  dsimp only at hb
  rw [hv] at hb
  rcases hneg with ⟨h, hn⟩ | ⟨h, hn⟩
  · subst h hn
    rw [if_pos rfl] at hb
    dsimp only at hb
    rw [hb]
    rfl
  · subst h hn
    rw [if_neg (show ¬ IF_CMPNE = IF_CMPEQ by decide), if_pos rfl] at hb
    dsimp only at hb
    cases b
    · cases hb
    · rfl

theorem taken_branch_ICMP (DEBUG : Bool) (s : State) (op : ubyte) (cmp : Int → Int → Bool)
    (hop : s.P[s.pc]? = some op)
    (hcmp : (op = IF_ICMPLT ∧ cmp = fun x y => decide (x < y))
      ∨ (op = IF_ICMPGE ∧ cmp = fun x y => decide (x ≥ y))
      ∨ (op = IF_ICMPGT ∧ cmp = fun x y => decide (x > y))
      ∨ (op = IF_ICMPLE ∧ cmp = fun x y => decide (x ≤ y)))
    (hb : taken_branch DEBUG s = false) :
    ∀ x y rest, s.S = .int y :: .int x :: rest → cmp x y = false := by
  intro x y rest hS
  unfold taken_branch at hb
  rw [hop, hS] at hb
  dsimp only at hb
  rcases hcmp with ⟨h, hc⟩ | ⟨h, hc⟩ | ⟨h, hc⟩ | ⟨h, hc⟩
  · subst h hc
    rw [if_neg (show ¬ IF_ICMPLT = IF_CMPEQ by decide),
      if_neg (show ¬ IF_ICMPLT = IF_CMPNE by decide), if_pos rfl] at hb
    exact hb
  · subst h hc
    rw [if_neg (show ¬ IF_ICMPGE = IF_CMPEQ by decide),
      if_neg (show ¬ IF_ICMPGE = IF_CMPNE by decide),
      if_neg (show ¬ IF_ICMPGE = IF_ICMPLT by decide), if_pos rfl] at hb
    exact hb
  · subst h hc
    rw [if_neg (show ¬ IF_ICMPGT = IF_CMPEQ by decide),
      if_neg (show ¬ IF_ICMPGT = IF_CMPNE by decide),
      if_neg (show ¬ IF_ICMPGT = IF_ICMPLT by decide),
      if_neg (show ¬ IF_ICMPGT = IF_ICMPGE by decide), if_pos rfl] at hb
    exact hb
  · subst h hc
    rw [if_neg (show ¬ IF_ICMPLE = IF_CMPEQ by decide),
      if_neg (show ¬ IF_ICMPLE = IF_CMPNE by decide),
      if_neg (show ¬ IF_ICMPLE = IF_ICMPLT by decide),
      if_neg (show ¬ IF_ICMPLE = IF_ICMPGE by decide),
      if_neg (show ¬ IF_ICMPLE = IF_ICMPGT by decide), if_pos rfl] at hb
    exact hb

/-- An iteration that is neither `GOTO`, `INVOKESTATIC`, `RETURN` nor a taken branch goes
on at the address after the operand bytes of its opcode. -/
theorem step_advances (DEBUG : Bool) (bc0 : bc0_file) (nt : List native_fn) (s : State)
    (b : ubyte) (hop : s.P[s.pc]? = some b) (hG : b ≠ GOTO) (hI : b ≠ INVOKESTATIC)
    (hR : b ≠ RETURN) (hb : taken_branch DEBUG s = false) :
    advances (1 + operand_width b) s (step DEBUG bc0 nt s) := by
  unfold step
  rw [fetch_of_get hop]
  show advances _ s (if b = POP then _ else _)
  refine advances_case s b POP 1 _ _ rfl (fun _ => exec_POP_pc s) ?_
  refine advances_case s b DUP 1 _ _ rfl (fun _ => exec_DUP_pc s) ?_
  refine advances_case s b SWAP 1 _ _ rfl (fun _ => exec_SWAP_pc s) ?_
  refine advances_case_neg s b RETURN _ _ hR ?_
  refine advances_case s b IADD 1 _ _ rfl (fun _ => exec_binop_pc _ s) ?_
  refine advances_case s b ISUB 1 _ _ rfl (fun _ => exec_binop_pc _ s) ?_
  refine advances_case s b IMUL 1 _ _ rfl (fun _ => exec_binop_pc _ s) ?_
  refine advances_case s b IDIV 1 _ _ rfl (fun _ => exec_binop_pc _ s) ?_
  refine advances_case s b IREM 1 _ _ rfl (fun _ => exec_binop_pc _ s) ?_
  refine advances_case s b IAND 1 _ _ rfl (fun _ => exec_binop_pc _ s) ?_
  refine advances_case s b IOR 1 _ _ rfl (fun _ => exec_binop_pc _ s) ?_
  refine advances_case s b IXOR 1 _ _ rfl (fun _ => exec_binop_pc _ s) ?_
  refine advances_case s b ISHR 1 _ _ rfl (fun _ => exec_binop_pc _ s) ?_
  refine advances_case s b ISHL 1 _ _ rfl (fun _ => exec_binop_pc _ s) ?_
  refine advances_case s b BIPUSH 2 _ _ rfl (fun _ => exec_BIPUSH_pc s) ?_
  refine advances_case s b ILDC 3 _ _ rfl (fun _ => exec_ILDC_pc bc0 s) ?_
  refine advances_case s b ALDC 3 _ _ rfl (fun _ => exec_ALDC_pc bc0 s) ?_
  refine advances_case s b ACONST_NULL 1 _ _ rfl (fun _ => exec_ACONST_NULL_pc s) ?_
  refine advances_case s b VLOAD 2 _ _ rfl (fun _ => exec_VLOAD_pc s) ?_
  refine advances_case s b VSTORE 2 _ _ rfl (fun _ => exec_VSTORE_pc s) ?_
  refine advances_case s b ATHROW 1 _ _ rfl (fun _ => exec_ATHROW_pc s) ?_
  refine advances_case s b ASSERT 1 _ _ rfl (fun _ => exec_ASSERT_pc s) ?_
  refine advances_case s b NOP 1 _ _ rfl (fun _ => exec_NOP_pc s) ?_
  refine advances_case s b IF_CMPEQ 3 _ _ rfl (fun h => exec_IF_CMP_pc DEBUG false s
    (taken_branch_CMP DEBUG s b false hop (Or.inl ⟨h, rfl⟩) hb)) ?_
  refine advances_case s b IF_CMPNE 3 _ _ rfl (fun h => exec_IF_CMP_pc DEBUG true s
    (taken_branch_CMP DEBUG s b true hop (Or.inr ⟨h, rfl⟩) hb)) ?_
  refine advances_case s b IF_ICMPLT 3 _ _ rfl (fun h => exec_IF_ICMP_pc _ s
    (taken_branch_ICMP DEBUG s b _ hop (Or.inl ⟨h, rfl⟩) hb)) ?_
  refine advances_case s b IF_ICMPGE 3 _ _ rfl (fun h => exec_IF_ICMP_pc _ s
    (taken_branch_ICMP DEBUG s b _ hop (Or.inr (Or.inl ⟨h, rfl⟩)) hb)) ?_
  refine advances_case s b IF_ICMPGT 3 _ _ rfl (fun h => exec_IF_ICMP_pc _ s
    (taken_branch_ICMP DEBUG s b _ hop (Or.inr (Or.inr (Or.inl ⟨h, rfl⟩))) hb)) ?_
  refine advances_case s b IF_ICMPLE 3 _ _ rfl (fun h => exec_IF_ICMP_pc _ s
    (taken_branch_ICMP DEBUG s b _ hop (Or.inr (Or.inr (Or.inr ⟨h, rfl⟩))) hb)) ?_
  refine advances_case_neg s b GOTO _ _ hG ?_
  refine advances_case_neg s b INVOKESTATIC _ _ hI ?_
  refine advances_case s b INVOKENATIVE 3 _ _ rfl (fun _ => exec_INVOKENATIVE_pc bc0 nt s) ?_
  refine advances_case s b NEW 2 _ _ rfl (fun _ => exec_NEW_pc s) ?_
  refine advances_case s b IMLOAD 1 _ _ rfl (fun _ => exec_IMLOAD_pc s) ?_
  refine advances_case s b IMSTORE 1 _ _ rfl (fun _ => exec_IMSTORE_pc s) ?_
  refine advances_case s b AMLOAD 1 _ _ rfl (fun _ => exec_AMLOAD_pc s) ?_
  refine advances_case s b AMSTORE 1 _ _ rfl (fun _ => exec_AMSTORE_pc s) ?_
  refine advances_case s b CMLOAD 1 _ _ rfl (fun _ => exec_CMLOAD_pc s) ?_
  refine advances_case s b CMSTORE 1 _ _ rfl (fun _ => exec_CMSTORE_pc s) ?_
  refine advances_case s b AADDF 2 _ _ rfl (fun _ => exec_AADDF_pc s) ?_
  refine advances_case s b NEWARRAY 2 _ _ rfl (fun _ => exec_NEWARRAY_pc s) ?_
  refine advances_case s b ARRAYLENGTH 1 _ _ rfl (fun _ => exec_ARRAYLENGTH_pc s) ?_
  refine advances_case s b AADDS 1 _ _ rfl (fun _ => exec_AADDS_pc s) ?_
  exact advances_error _ _ _

/-! ### Accesses outside the allocated blocks -/

theorem accessible_write8 (H : Heap) (a b c n : Nat) :
    (H.write8 a b).accessible c n = H.accessible c n := rfl

/-- When no allocated block begins below address 256, no byte at an address below 256 is
within an allocated block. -/
theorem accessible_low (H : Heap) (hlow : ∀ b ∈ H.blocks, 256 ≤ b.1) (a n : Nat)
    (ha : a < 256) : H.accessible a n = false := by
  unfold Heap.accessible
  rw [List.any_eq_false]
  intro b hb
  have := hlow b hb
  have h1 : ¬ b.1 ≤ a := by omega
  simp [h1]

theorem exec_AADDF_null (s : State) (f : ubyte) (rest : List c0_value)
    (hf : s.P[s.pc + 1]? = some f) (hS : s.S = .ptr 0 :: rest) :
    exec_AADDF s = .ok (.running { s with pc := s.pc + 2, S := .ptr f.val :: rest }) := by
  have h : (0 + f.val) % 2 ^ 64 = f.val := by
    have := f.isLt
    omega
  simp only [exec_AADDF, fetch_of_get hf, hS, c0v_pop, val2ptr, bind, Except.bind, pure,
    Except.pure, c0v_push, ptr2val, h]

/-- A load through the address `a` below 256: the memory error for the null pointer, an
undefined access for the others. -/
theorem exec_load_low (s : State) (a : Nat) (rest : List c0_value)
    (hlow : ∀ b ∈ s.H.blocks, 256 ≤ b.1) (ha : a < 256) (hS : s.S = .ptr a :: rest) :
    exec_IMLOAD s = .error (if a = 0 then .memory_error else .undefined)
    ∧ exec_AMLOAD s = .error (if a = 0 then .memory_error else .undefined)
    ∧ exec_CMLOAD s = .error (if a = 0 then .memory_error else .undefined) := by
  have h4 := accessible_low s.H hlow a 4 ha
  have h8 := accessible_low s.H hlow a 8 ha
  have h1 := accessible_low s.H hlow a 1 ha
  by_cases h0 : a = 0
  · simp [exec_IMLOAD, exec_AMLOAD, exec_CMLOAD, hS, c0v_pop, val2ptr, NULL, c0_memory_error,
      bind, Except.bind, h0]
  · simp [exec_IMLOAD, exec_AMLOAD, exec_CMLOAD, hS, c0v_pop, val2ptr, NULL, bind,
      Except.bind, h0, h1, h4, h8]

/-- A store through the address `a` below 256: the memory error for the null pointer, an
undefined access for the others. -/
theorem exec_store_low (s : State) (a : Nat) (rest : List c0_value)
    (hlow : ∀ b ∈ s.H.blocks, 256 ≤ b.1) (ha : a < 256) :
    (∀ x : Int, s.S = .int x :: .ptr a :: rest →
      exec_IMSTORE s = .error (if a = 0 then .memory_error else .undefined))
    ∧ (∀ p : Nat, s.S = .ptr p :: .ptr a :: rest →
      exec_AMSTORE s = .error (if a = 0 then .memory_error else .undefined))
    ∧ (∀ x : Int, s.S = .int x :: .ptr a :: rest →
      exec_CMSTORE s = .error (if a = 0 then .memory_error else .undefined)) := by
  have h4 := accessible_low s.H hlow a 4 ha
  have h8 := accessible_low s.H hlow a 8 ha
  have h1 := accessible_low s.H hlow a 1 ha
  by_cases h0 : a = 0
  · refine ⟨fun x hS => ?_, fun p hS => ?_, fun x hS => ?_⟩ <;>
      simp [exec_IMSTORE, exec_AMSTORE, exec_CMSTORE, hS, c0v_pop, val2ptr, val2int, NULL,
        c0_memory_error, bind, Except.bind, h0]
  · refine ⟨fun x hS => ?_, fun p hS => ?_, fun x hS => ?_⟩ <;>
      simp [exec_IMSTORE, exec_AMSTORE, exec_CMSTORE, hS, c0v_pop, val2ptr, val2int, NULL,
        bind, Except.bind, h0, h1, h4, h8]

/-! ## The claims -/

/-- C1 (defect of the code): a conditional branch at address `pc0` with operand bytes
`o1 o2` whose condition holds should continue at `pc0 + signed16((o1<<8)|o2)`.  The code
sign-extends the low operand byte before combining it with the high byte: each of the six
branches, at address 130 with operand bytes `0x00 0x80` and its condition true, continues
at address 2, whereas `130 + signed16 0x00 0x80 = 258`. -/
theorem C1_cond_branch_low_byte_sign_extended :
    step false ex_bc0 [] (ex_branch_state IF_CMPEQ [.int 1, .int 1])
      = .ok (.running { ex_branch_state IF_CMPEQ [.int 1, .int 1] with S := [], pc := 2 })
    ∧ step false ex_bc0 [] (ex_branch_state IF_CMPNE [.int 1, .int 2])
      = .ok (.running { ex_branch_state IF_CMPNE [.int 1, .int 2] with S := [], pc := 2 })
    ∧ step false ex_bc0 [] (ex_branch_state IF_ICMPLT [.int 2, .int 1])
      = .ok (.running { ex_branch_state IF_ICMPLT [.int 2, .int 1] with S := [], pc := 2 })
    ∧ step false ex_bc0 [] (ex_branch_state IF_ICMPGE [.int 1, .int 1])
      = .ok (.running { ex_branch_state IF_ICMPGE [.int 1, .int 1] with S := [], pc := 2 })
    ∧ step false ex_bc0 [] (ex_branch_state IF_ICMPGT [.int 1, .int 2])
      = .ok (.running { ex_branch_state IF_ICMPGT [.int 1, .int 2] with S := [], pc := 2 })
    ∧ step false ex_bc0 [] (ex_branch_state IF_ICMPLE [.int 1, .int 1])
      = .ok (.running { ex_branch_state IF_ICMPLE [.int 1, .int 1] with S := [], pc := 2 })
    ∧ (130 : Int) + signed16 0x00 0x80 = 258 := by
  refine ⟨?_, ?_, ?_, ?_, ?_, ?_, ?_⟩ <;> rfl

/-- C2: a `GOTO` at address `pc0` with operand bytes `o1 o2` continues at
`pc0 + signed16 o1 o2`, computed in the type `size_t` of the program counter (modulo
`2^64`; exactly that integer whenever it is an address), and leaves the operand stack, the
locals and the call stack (and the code and the heap) unchanged.  A second `GOTO` found at
that address, with operand bytes `o3 o4`, then continues at
`pc0 + signed16 o1 o2 + signed16 o3 o4`. -/
theorem C2_goto (DEBUG : Bool) (bc0 : bc0_file) (nt : List native_fn) (s : State)
    (o1 o2 o3 o4 : ubyte)
    (hop : s.P[s.pc]? = some GOTO) (h1 : s.P[s.pc + 1]? = some o1)
    (h2 : s.P[s.pc + 2]? = some o2) :
    ∃ s1 : State,
      step DEBUG bc0 nt s = .ok (.running s1)
      ∧ (s1.pc : Int) = ((s.pc : Int) + signed16 o1 o2) % 2 ^ 64
      ∧ (0 ≤ (s.pc : Int) + signed16 o1 o2 → (s.pc : Int) + signed16 o1 o2 < 2 ^ 64 →
          (s1.pc : Int) = (s.pc : Int) + signed16 o1 o2)
      ∧ s1.S = s.S ∧ s1.V = s.V ∧ s1.callStack = s.callStack ∧ s1.P = s.P ∧ s1.H = s.H
      ∧ (s1.P[s1.pc]? = some GOTO → s1.P[s1.pc + 1]? = some o3 → s1.P[s1.pc + 2]? = some o4 →
          ∃ s2 : State,
            step DEBUG bc0 nt s1 = .ok (.running s2)
            ∧ (s2.pc : Int) = ((s.pc : Int) + signed16 o1 o2 + signed16 o3 o4) % 2 ^ 64
            ∧ (0 ≤ (s.pc : Int) + signed16 o1 o2 + signed16 o3 o4 →
                (s.pc : Int) + signed16 o1 o2 + signed16 o3 o4 < 2 ^ 64 →
                (s2.pc : Int) = (s.pc : Int) + signed16 o1 o2 + signed16 o3 o4)
            ∧ s2.S = s.S ∧ s2.V = s.V ∧ s2.callStack = s.callStack) := by
  have hmod : ∀ z : Int, (((z % 2 ^ 64).toNat : Nat) : Int) = z % 2 ^ 64 := fun z =>
    Int.toNat_of_nonneg (Int.emod_nonneg z (by norm_num))
  refine ⟨{ s with pc := (((s.pc : Int) + signed16 o1 o2) % 2 ^ 64).toNat },
    by rw [step_GOTO DEBUG bc0 nt s hop, exec_GOTO_eq s o1 o2 h1 h2], hmod _, ?_,
    rfl, rfl, rfl, rfl, rfl, ?_⟩
  · intro h0 hlt
    exact (hmod _).trans (Int.emod_eq_of_lt h0 hlt)
  · intro hop1 h3 h4
    have hpc : ((((((s.pc : Int) + signed16 o1 o2) % 2 ^ 64).toNat : Nat) : Int)
        + signed16 o3 o4) % 2 ^ 64
        = ((s.pc : Int) + signed16 o1 o2 + signed16 o3 o4) % 2 ^ 64 := by
      rw [hmod, Int.emod_add_emod]
    refine ⟨{ s with pc := (((s.pc : Int) + signed16 o1 o2 + signed16 o3 o4) % 2 ^ 64).toNat },
      ?_, hmod _, ?_, rfl, rfl, rfl⟩
    · rw [step_GOTO DEBUG bc0 nt _ hop1, exec_GOTO_eq _ o3 o4 h3 h4]
      simp only [hpc]
    · intro h0 hlt
      exact (hmod _).trans (Int.emod_eq_of_lt h0 hlt)

/-- Instance of C2: `GOTO 0x00 0x03` at address 0 continues at address 3, and the
`GOTO 0xFF 0xFD` there continues at address 0. -/
theorem C2_goto_witness :
    ex_goto_state.P[ex_goto_state.pc]? = some GOTO
    ∧ ex_goto_state.P[ex_goto_state.pc + 1]? = some 0x00
    ∧ ex_goto_state.P[ex_goto_state.pc + 2]? = some 0x03
    ∧ ∃ s1 : State,
      step false ex_bc0 [] ex_goto_state = .ok (.running s1)
      ∧ (s1.pc : Int) = 3 ∧ s1.S = [.int 7] ∧ s1.V = [.int 5] ∧ s1.callStack = []
      ∧ ∃ s2 : State, step false ex_bc0 [] s1 = .ok (.running s2)
          ∧ (s2.pc : Int) = 0 ∧ s2.S = [.int 7] ∧ s2.V = [.int 5] ∧ s2.callStack = [] := by
  obtain ⟨s1, hs, hpc, hex, hS, hV, hC, hP, hH, hnext⟩ :=
    C2_goto false ex_bc0 [] ex_goto_state 0x00 0x03 0xFF 0xFD rfl rfl rfl
  have e1 : (s1.pc : Int) = 3 := by rw [hpc]; rfl
  have e1n : s1.pc = 3 := by exact_mod_cast e1
  obtain ⟨s2, hs2, hpc2, -, hS2, hV2, hC2⟩ :=
    hnext (by rw [hP, e1n]; rfl) (by rw [hP, e1n]; rfl) (by rw [hP, e1n]; rfl)
  exact ⟨rfl, rfl, rfl, s1, hs, e1, hS, hV, hC, s2, hs2, by rw [hpc2]; rfl, hS2, hV2, hC2⟩

/-- C3: with `v1` on top of the operand stack and `v2` beneath it, `IF_CMPEQ` continues
at its branch target when `val_equal v1 v2` returns true and at the next instruction when
it returns false, `IF_CMPNE` the other way round; both values are removed from the stack
in either case; and when `val_equal v1 v2` aborts (value error), the step aborts in the same
way and there is no successor state. -/
theorem C3_if_cmpeq_if_cmpne (DEBUG : Bool) (bc0 : bc0_file) (nt : List native_fn) (s : State)
    (v1 v2 : c0_value) (rest : List c0_value) (o1 o2 : ubyte)
    (hS : s.S = v1 :: v2 :: rest)
    (h1 : s.P[s.pc + 1]? = some o1) (h2 : s.P[s.pc + 2]? = some o2) :
    (s.P[s.pc]? = some IF_CMPEQ →
      (∀ b : Bool, val_equal DEBUG s.H v1 v2 = .ok b →
        step DEBUG bc0 nt s = .ok (.running { s with
          S := rest,
          pc := if b = true then branch_pc (s.pc + 3) (cond_offset o1 o2) else s.pc + 3 }))
      ∧ (∀ e : Abort, val_equal DEBUG s.H v1 v2 = .error e →
          step DEBUG bc0 nt s = .error e))
    ∧ (s.P[s.pc]? = some IF_CMPNE →
      (∀ b : Bool, val_equal DEBUG s.H v1 v2 = .ok b →
        step DEBUG bc0 nt s = .ok (.running { s with
          S := rest,
          pc := if b = false then branch_pc (s.pc + 3) (cond_offset o1 o2) else s.pc + 3 }))
      ∧ (∀ e : Abort, val_equal DEBUG s.H v1 v2 = .error e →
          step DEBUG bc0 nt s = .error e)) := by
  refine ⟨fun hop => ⟨?_, ?_⟩, fun hop => ⟨?_, ?_⟩⟩
  · intro b hb
    rw [step_IF_CMPEQ DEBUG bc0 nt s hop, exec_IF_CMP_eq DEBUG false s v1 v2 rest o1 o2 hS h1 h2,
      hb]
    cases b <;> rfl
  · intro e he
    rw [step_IF_CMPEQ DEBUG bc0 nt s hop, exec_IF_CMP_eq DEBUG false s v1 v2 rest o1 o2 hS h1 h2,
      he]
  · intro b hb
    rw [step_IF_CMPNE DEBUG bc0 nt s hop, exec_IF_CMP_eq DEBUG true s v1 v2 rest o1 o2 hS h1 h2,
      hb]
    cases b <;> rfl
  · intro e he
    rw [step_IF_CMPNE DEBUG bc0 nt s hop, exec_IF_CMP_eq DEBUG true s v1 v2 rest o1 o2 hS h1 h2,
      he]

/-- Instance of C3: `IF_CMPEQ 0x00 0x05` at address 0 on two null pointers branches to
address 5 and removes both. -/
theorem C3_if_cmpeq_if_cmpne_witness :
    (ex_cmp_state IF_CMPEQ [.ptr 0, .ptr 0, .int 9]).S = [.ptr 0, .ptr 0, .int 9]
    ∧ val_equal true ex_heap (.ptr 0) (.ptr 0) = .ok true
    ∧ step true ex_bc0 [] (ex_cmp_state IF_CMPEQ [.ptr 0, .ptr 0, .int 9])
        = .ok (.running { ex_cmp_state IF_CMPEQ [.ptr 0, .ptr 0, .int 9] with
            S := [.int 9], pc := 5 }) :=
  ⟨rfl, rfl,
    ((C3_if_cmpeq_if_cmpne true ex_bc0 [] (ex_cmp_state IF_CMPEQ [.ptr 0, .ptr 0, .int 9])
      (.ptr 0) (.ptr 0) [.int 9] 0x00 0x05 rfl rfl rfl).1 rfl).1 true rfl⟩

/-- C5: `INVOKESTATIC c1 c2` at address `pc0`, calling `f = function_pool[(c1<<8)|c2]` with
`f.num_args <= f.num_vars`, on an operand stack on which the `f.num_args` values `args`
were pushed in order (the last one on top) above `rest`: the frame pushed on the call stack
holds the caller's stack without those values, its code, `pc0 + 3` and its locals; the new
locals have length `f.num_vars` and hold `args[j]` at every index `j < f.num_args`; the
operand stack is empty, the code is `f.code` and `pc = 0`. -/
theorem C5_invokestatic (DEBUG : Bool) (bc0 : bc0_file) (nt : List native_fn) (s : State)
    (c1 c2 : ubyte) (f : function_info) (args rest : List c0_value)
    (hop : s.P[s.pc]? = some INVOKESTATIC)
    (h1 : s.P[s.pc + 1]? = some c1) (h2 : s.P[s.pc + 2]? = some c2)
    (hf : bc0.function_pool[(c1.val <<< 8) ||| c2.val]? = some f)
    (hk : args.length = f.num_args) (hle : f.num_args ≤ f.num_vars)
    (hS : s.S = args.reverse ++ rest) :
    ∃ s1 : State,
      step DEBUG bc0 nt s = .ok (.running s1)
      ∧ s1.callStack = { S := rest, P := s.P, pc := s.pc + 3, V := s.V } :: s.callStack
      ∧ s1.V.length = f.num_vars
      ∧ (∀ (j : Nat) (hj : j < args.length), s1.V[j]? = some args[j])
      ∧ s1.S = [] ∧ s1.P = f.code ∧ s1.pc = 0 ∧ s1.H = s.H := by
  refine ⟨{ s with
      S := [], P := f.code, pc := 0,
      V := args ++ List.replicate (f.num_vars - f.num_args) (c0_value.int 0),
      callStack := { S := rest, P := s.P, pc := s.pc + 3, V := s.V } :: s.callStack },
    by rw [step_INVOKESTATIC DEBUG bc0 nt s hop,
      exec_INVOKESTATIC_eq bc0 s c1 c2 f args rest h1 h2 hf hk hle hS], rfl, ?_, ?_,
    rfl, rfl, rfl, rfl⟩
  · simp only [List.length_append, List.length_replicate]
    omega
  · intro j hj
    rw [← List.getElem?_eq_getElem hj]
    exact List.getElem?_append_left hj

/-- Instance of C5: the call of `ex_callee` from `ex_call_state`. -/
theorem C5_invokestatic_witness :
    ex_call_state.P[ex_call_state.pc]? = some INVOKESTATIC
    ∧ ex_call_bc0.function_pool[((0x00 : ubyte).val <<< 8) ||| (0x01 : ubyte).val]?
        = some ex_callee
    ∧ ex_call_state.S = [c0_value.int 10, c0_value.int 20].reverse ++ [c0_value.int 99]
    ∧ ∃ s1 : State,
        step false ex_call_bc0 [] ex_call_state = .ok (.running s1)
        ∧ s1.callStack = [{ S := [.int 99], P := ex_call_state.P, pc := 3, V := [.int 5] }]
        ∧ s1.V.length = 3 ∧ s1.V[0]? = some (.int 10) ∧ s1.V[1]? = some (.int 20)
        ∧ s1.S = [] ∧ s1.P = [RETURN] ∧ s1.pc = 0 := by
  obtain ⟨s1, hs, hC, hlen, hV, hS, hP, hpc, -⟩ :=
    C5_invokestatic false ex_call_bc0 [] ex_call_state 0x00 0x01 ex_callee
      [.int 10, .int 20] [.int 99] rfl rfl rfl rfl rfl (by decide) rfl
  exact ⟨rfl, rfl, rfl, s1, hs, hC, hlen, hV 0 (by decide), hV 1 (by decide), hS, hP, hpc⟩

/-- C6: after an `INVOKESTATIC` at address `pc0` from a caller with operand stack `rest`
(below the arguments), code `P`, locals `V` and call stack `C`, a `RETURN` executed with
`r` on top of the operand stack, in any state whose call stack is again `C` with the pushed
frame on top, continues in the caller: code `P`, `pc = pc0 + 3`, locals `V`, call stack `C`,
and operand stack `rest` with the same value `r` pushed on top. -/
theorem C6_return_to_caller (DEBUG : Bool) (bc0 : bc0_file) (nt : List native_fn) (s : State)
    (c1 c2 : ubyte) (f : function_info) (args rest : List c0_value)
    (hop : s.P[s.pc]? = some INVOKESTATIC)
    (h1 : s.P[s.pc + 1]? = some c1) (h2 : s.P[s.pc + 2]? = some c2)
    (hf : bc0.function_pool[(c1.val <<< 8) ||| c2.val]? = some f)
    (hk : args.length = f.num_args) (hle : f.num_args ≤ f.num_vars)
    (hS : s.S = args.reverse ++ rest) :
    ∃ s1 : State,
      step DEBUG bc0 nt s = .ok (.running s1)
      ∧ ∀ (t : State) (r : c0_value) (junk : List c0_value),
          t.callStack = s1.callStack → t.P[t.pc]? = some RETURN → t.S = r :: junk →
          step DEBUG bc0 nt t
            = .ok (.running { S := r :: rest, P := s.P, pc := s.pc + 3, V := s.V,
                              callStack := s.callStack, H := t.H }) := by
  refine ⟨{ s with
      S := [], P := f.code, pc := 0,
      V := args ++ List.replicate (f.num_vars - f.num_args) (c0_value.int 0),
      callStack := { S := rest, P := s.P, pc := s.pc + 3, V := s.V } :: s.callStack },
    by rw [step_INVOKESTATIC DEBUG bc0 nt s hop,
      exec_INVOKESTATIC_eq bc0 s c1 c2 f args rest h1 h2 hf hk hle hS], ?_⟩
  intro t r junk hC hret hSt
  rw [step_RETURN DEBUG bc0 nt t hret, exec_RETURN_caller t r junk _ _ hSt hC]

/-- Instance of C6: the return of 30 from `ex_callee_state` to `ex_call_state`. -/
theorem C6_return_to_caller_witness :
    ex_call_state.P[ex_call_state.pc]? = some INVOKESTATIC
    ∧ ex_callee_state.P[ex_callee_state.pc]? = some RETURN
    ∧ step false ex_call_bc0 [] ex_callee_state
        = .ok (.running { S := [.int 30, .int 99], P := [INVOKESTATIC, 0x00, 0x01, RETURN],
                          pc := 3, V := [.int 5], callStack := [], H := ex_heap }) := by
  obtain ⟨s1, hs, hret⟩ :=
    C6_return_to_caller false ex_call_bc0 [] ex_call_state 0x00 0x01 ex_callee
      [.int 10, .int 20] [.int 99] rfl rfl rfl rfl rfl (by decide) rfl
  have h1 : step false ex_call_bc0 [] ex_call_state
      = .ok (.running { S := [], P := [RETURN], pc := 0, V := [.int 10, .int 20, .int 0],
                        callStack := ex_callee_state.callStack, H := ex_heap }) := rfl
  rw [h1] at hs
  injection hs with hs
  injection hs with hs
  subst hs
  exact ⟨rfl, rfl, hret ex_callee_state (.int 30) [] rfl rfl rfl⟩

/-- C7: a `RETURN` executed while the call stack is empty ends `execute`: with the integer
`x` on top of the operand stack the loop returns `x`; with a pointer on top (null or not)
it aborts with a value error and there is no result. -/
theorem C7_top_level_return (DEBUG : Bool) (bc0 : bc0_file) (nt : List native_fn) (s : State)
    (rest : List c0_value)
    (hop : s.P[s.pc]? = some RETURN) (hC : s.callStack = []) :
    (∀ x : Int, s.S = .int x :: rest →
      step DEBUG bc0 nt s = .ok (.returned x)
      ∧ ∀ fuel : Nat, iterate DEBUG bc0 nt (fuel + 1) s = .ok (some x))
    ∧ (∀ p : Nat, s.S = .ptr p :: rest →
      step DEBUG bc0 nt s = .error .value_error
      ∧ ∀ fuel : Nat, iterate DEBUG bc0 nt (fuel + 1) s = .error .value_error) := by
  constructor
  · intro x hS
    have h : step DEBUG bc0 nt s = .ok (.returned x) := by
      rw [step_RETURN DEBUG bc0 nt s hop, exec_RETURN_top s _ rest hS hC]; rfl
    exact ⟨h, fun fuel => by simp only [iterate, h]⟩
  · intro p hS
    have h : step DEBUG bc0 nt s = .error .value_error := by
      rw [step_RETURN DEBUG bc0 nt s hop, exec_RETURN_top s _ rest hS hC]; rfl
    exact ⟨h, fun fuel => by simp only [iterate, h]⟩

/-- Instance of C7: the top-level `RETURN` of 42. -/
theorem C7_top_level_return_witness :
    (ex_op_state RETURN [.int 42]).P[(ex_op_state RETURN [.int 42]).pc]? = some RETURN
    ∧ (ex_op_state RETURN [.int 42]).callStack = []
    ∧ step false ex_bc0 [] (ex_op_state RETURN [.int 42]) = .ok (.returned 42)
    ∧ iterate false ex_bc0 [] 1 (ex_op_state RETURN [.int 42]) = .ok (some 42) :=
  ⟨rfl, rfl,
    ((C7_top_level_return false ex_bc0 [] (ex_op_state RETURN [.int 42]) [] rfl rfl).1
      42 rfl).1,
    ((C7_top_level_return false ex_bc0 [] (ex_op_state RETURN [.int 42]) [] rfl rfl).1
      42 rfl).2 0⟩

/-- C8: with `x` second from the top and `y` on top of the operand stack, `IDIV` and `IREM`
abort with an arith error exactly when `y = 0` or (`x = -2147483648` and `y = -1`);
otherwise `IDIV` pushes `q` and `IREM` pushes `r`, the quotient truncated toward zero and
its remainder: `x = q * y + r`, `|r| < |y|`, and `r` is zero or has the sign of `x`; the
program counter advances by 1, and for 32-bit `x` and `y` both results are 32-bit. -/
theorem C8_idiv_irem (DEBUG : Bool) (bc0 : bc0_file) (nt : List native_fn) (s : State)
    (x y : Int) (rest : List c0_value) (hS : s.S = .int y :: .int x :: rest) :
    (s.P[s.pc]? = some IDIV →
      (step DEBUG bc0 nt s = .error .arith_error ↔ (y = 0 ∨ (x = -2147483648 ∧ y = -1)))
      ∧ (¬ (y = 0 ∨ (x = -2147483648 ∧ y = -1)) →
          step DEBUG bc0 nt s
            = .ok (.running { s with pc := s.pc + 1, S := .int (Int.tdiv x y) :: rest })))
    ∧ (s.P[s.pc]? = some IREM →
      (step DEBUG bc0 nt s = .error .arith_error ↔ (y = 0 ∨ (x = -2147483648 ∧ y = -1)))
      ∧ (¬ (y = 0 ∨ (x = -2147483648 ∧ y = -1)) →
          step DEBUG bc0 nt s
            = .ok (.running { s with pc := s.pc + 1, S := .int (Int.tmod x y) :: rest })))
    ∧ (y ≠ 0 →
        x = Int.tdiv x y * y + Int.tmod x y
        ∧ (Int.tmod x y).natAbs < y.natAbs
        ∧ (0 ≤ x → 0 ≤ Int.tmod x y) ∧ (x ≤ 0 → Int.tmod x y ≤ 0))
    ∧ (¬ (y = 0 ∨ (x = -2147483648 ∧ y = -1)) →
        -2 ^ 31 ≤ x → x < 2 ^ 31 → -2 ^ 31 ≤ y → y < 2 ^ 31 →
        (-2 ^ 31 ≤ Int.tdiv x y ∧ Int.tdiv x y < 2 ^ 31)
        ∧ (-2 ^ 31 ≤ Int.tmod x y ∧ Int.tmod x y < 2 ^ 31)) := by
  refine ⟨fun hop => ?_, fun hop => ?_, fun hy => ?_, fun hg hx0 hx1 hy0 hy1 => ?_⟩
  · rw [step_IDIV DEBUG bc0 nt s hop, exec_IDIV_eq s x y rest hS]
    by_cases hg : y = 0 ∨ (x = -2147483648 ∧ y = -1)
    · simp [hg]
    · simp [hg]
  · rw [step_IREM DEBUG bc0 nt s hop, exec_IREM_eq s x y rest hS]
    by_cases hg : y = 0 ∨ (x = -2147483648 ∧ y = -1)
    · simp [hg]
    · simp [hg]
  · obtain ⟨h1, h2, h3⟩ := tmod_props x y hy
    exact ⟨(Int.tdiv_add_tmod' x y).symm, h1, h2, h3⟩
  · have hy : y ≠ 0 := fun h => hg (Or.inl h)
    exact ⟨tdiv_range x y hx0 hx1 hy (fun h => hg (Or.inr h)), tmod_range x y hy hy0 hy1⟩

/-- Instance of C8: `7 / -2` is `-3`, truncated toward zero. -/
theorem C8_idiv_irem_witness :
    (ex_op_state IDIV [.int (-2), .int 7]).S = [.int (-2), .int 7]
    ∧ (ex_op_state IDIV [.int (-2), .int 7]).P[(ex_op_state IDIV [.int (-2), .int 7]).pc]?
        = some IDIV
    ∧ step false ex_bc0 [] (ex_op_state IDIV [.int (-2), .int 7])
        = .ok (.running { ex_op_state IDIV [.int (-2), .int 7] with
            pc := 1, S := [.int (-3)] }) :=
  ⟨rfl, rfl,
    ((C8_idiv_irem false ex_bc0 [] (ex_op_state IDIV [.int (-2), .int 7]) 7 (-2) [] rfl).1
      rfl).2 (by decide)⟩

/-- C9: with `x` second from the top and `y` on top of the operand stack, `ISHL` and `ISHR`
abort with an arith error exactly when `y < 0` or `y > 31`; otherwise `ISHL` pushes
`x * 2^y` reduced to a signed 32-bit word and `ISHR` pushes `floor(x / 2^y)`, the
arithmetic right shift.  (The last part states what `signed32` is: the 32-bit value
congruent modulo `2^32`.) -/
theorem C9_ishl_ishr (DEBUG : Bool) (bc0 : bc0_file) (nt : List native_fn) (s : State)
    (x y : Int) (rest : List c0_value) (hS : s.S = .int y :: .int x :: rest) :
    (s.P[s.pc]? = some ISHL →
      (step DEBUG bc0 nt s = .error .arith_error ↔ (y < 0 ∨ y > 31))
      ∧ (0 ≤ y → y ≤ 31 →
          step DEBUG bc0 nt s
            = .ok (.running { s with
                pc := s.pc + 1, S := .int (signed32 (x * 2 ^ y.toNat)) :: rest })))
    ∧ (s.P[s.pc]? = some ISHR →
      (step DEBUG bc0 nt s = .error .arith_error ↔ (y < 0 ∨ y > 31))
      ∧ (0 ≤ y → y ≤ 31 →
          ∃ q : Int, q = x / 2 ^ y.toNat ∧ q * 2 ^ y.toNat ≤ x ∧ x < (q + 1) * 2 ^ y.toNat
            ∧ step DEBUG bc0 nt s
                = .ok (.running { s with pc := s.pc + 1, S := .int q :: rest })))
    ∧ (∀ z : Int, -2 ^ 31 ≤ signed32 z ∧ signed32 z < 2 ^ 31
        ∧ (signed32 z - z) % 2 ^ 32 = 0) := by
  refine ⟨fun hop => ?_, fun hop => ?_, fun z => ?_⟩
  · rw [step_ISHL DEBUG bc0 nt s hop, exec_ISHL_eq s x y rest hS]
    by_cases hg : y < 0 ∨ y > 31
    · rw [if_pos hg]
      exact ⟨⟨fun _ => hg, fun _ => rfl⟩, fun h0 h1 => by omega⟩
    · rw [if_neg hg]
      exact ⟨⟨fun h => (by cases h), fun h => absurd h hg⟩, fun _ _ => rfl⟩
  · rw [step_ISHR DEBUG bc0 nt s hop, exec_ISHR_eq s x y rest hS]
    by_cases hg : y < 0 ∨ y > 31
    · rw [if_pos hg]
      exact ⟨⟨fun _ => hg, fun _ => rfl⟩, fun h0 h1 => by omega⟩
    · rw [if_neg hg]
      refine ⟨⟨fun h => (by cases h), fun h => absurd h hg⟩,
        fun _ _ => ⟨int_shr x y.toNat, ?_, (shr_floor x _).1, (shr_floor x _).2, rfl⟩⟩
      unfold int_shr
      rw [Int.shiftRight_eq_div_pow, Nat.cast_pow]
      rfl
  · unfold signed32
    omega

/-- Instance of C9: `1 << 31` is `-2147483648`. -/
theorem C9_ishl_ishr_witness :
    (ex_op_state ISHL [.int 31, .int 1]).S = [.int 31, .int 1]
    ∧ (ex_op_state ISHL [.int 31, .int 1]).P[(ex_op_state ISHL [.int 31, .int 1]).pc]?
        = some ISHL
    ∧ step false ex_bc0 [] (ex_op_state ISHL [.int 31, .int 1])
        = .ok (.running { ex_op_state ISHL [.int 31, .int 1] with
            pc := 1, S := [.int (-2147483648)] }) :=
  ⟨rfl, rfl,
    ((C9_ishl_ishr false ex_bc0 [] (ex_op_state ISHL [.int 31, .int 1]) 1 31 [] rfl).1
      rfl).2 (by decide) (by decide)⟩

/-- C10: with `x` and `y` pushed in that order, `IADD`, `ISUB` and `IMUL` do not abort;
they replace the two operands by the integer `x + y`, `x - y` and `x * y` respectively,
reduced modulo `2^32` into the signed 32-bit range, and advance the program counter by 1.
(The last part states what `signed32` is: the 32-bit value congruent modulo `2^32`.) -/
theorem C10_iadd_isub_imul (DEBUG : Bool) (bc0 : bc0_file) (nt : List native_fn) (s : State)
    (x y : Int) (rest : List c0_value) (hS : s.S = .int y :: .int x :: rest) :
    (s.P[s.pc]? = some IADD →
      step DEBUG bc0 nt s
        = .ok (.running { s with pc := s.pc + 1, S := .int (signed32 (x + y)) :: rest }))
    ∧ (s.P[s.pc]? = some ISUB →
      step DEBUG bc0 nt s
        = .ok (.running { s with pc := s.pc + 1, S := .int (signed32 (x - y)) :: rest }))
    ∧ (s.P[s.pc]? = some IMUL →
      step DEBUG bc0 nt s
        = .ok (.running { s with pc := s.pc + 1, S := .int (signed32 (x * y)) :: rest }))
    ∧ (∀ z : Int, -2 ^ 31 ≤ signed32 z ∧ signed32 z < 2 ^ 31
        ∧ (signed32 z - z) % 2 ^ 32 = 0) := by
  refine ⟨fun hop => ?_, fun hop => ?_, fun hop => ?_, fun z => ?_⟩
  · rw [step_IADD DEBUG bc0 nt s hop]
    unfold exec_IADD
    rw [exec_binop_eq _ s x y rest hS]
    simp only [pure, Except.pure, add_wrap]
  · rw [step_ISUB DEBUG bc0 nt s hop]
    unfold exec_ISUB
    rw [exec_binop_eq _ s x y rest hS]
    simp only [pure, Except.pure, sub_wrap]
  · rw [step_IMUL DEBUG bc0 nt s hop]
    unfold exec_IMUL
    rw [exec_binop_eq _ s x y rest hS]
    simp only [pure, Except.pure, mul_wrap]
  · unfold signed32
    omega

/-- Instance of C10: `ISUB` on 5 and 7 (7 on top) pushes `-2`. -/
theorem C10_iadd_isub_imul_witness :
    (ex_op_state ISUB [.int 7, .int 5]).S = [.int 7, .int 5]
    ∧ (ex_op_state ISUB [.int 7, .int 5]).P[(ex_op_state ISUB [.int 7, .int 5]).pc]?
        = some ISUB
    ∧ step false ex_bc0 [] (ex_op_state ISUB [.int 7, .int 5])
        = .ok (.running { ex_op_state ISUB [.int 7, .int 5] with
            pc := 1, S := [.int (-2)] }) :=
  ⟨rfl, rfl,
    (C10_iadd_isub_imul false ex_bc0 [] (ex_op_state ISUB [.int 7, .int 5]) 5 7 [] rfl).2.1
      rfl⟩

/-- C11: with the integers `x` and `y` pushed in that order (`y` on top), `IF_ICMPLT`,
`IF_ICMPGE`, `IF_ICMPGT` and `IF_ICMPLE` continue at their branch target when `x < y`,
`x >= y`, `x > y` and `x <= y` respectively (comparison of the signed values) and at the
next instruction otherwise; both operands are popped in either case; and each of the four
raises a value error when the top of the stack, or the value beneath an integer top, is a
pointer. -/
theorem C11_if_icmp (DEBUG : Bool) (bc0 : bc0_file) (nt : List native_fn) (s : State) :
    (∀ (x y : Int) (rest : List c0_value) (o1 o2 : ubyte),
      s.S = .int y :: .int x :: rest →
      s.P[s.pc + 1]? = some o1 → s.P[s.pc + 2]? = some o2 →
      (s.P[s.pc]? = some IF_ICMPLT →
        step DEBUG bc0 nt s = .ok (.running { s with
          S := rest,
          pc := if x < y then branch_pc (s.pc + 3) (cond_offset o1 o2) else s.pc + 3 }))
      ∧ (s.P[s.pc]? = some IF_ICMPGE →
        step DEBUG bc0 nt s = .ok (.running { s with
          S := rest,
          pc := if x ≥ y then branch_pc (s.pc + 3) (cond_offset o1 o2) else s.pc + 3 }))
      ∧ (s.P[s.pc]? = some IF_ICMPGT →
        step DEBUG bc0 nt s = .ok (.running { s with
          S := rest,
          pc := if x > y then branch_pc (s.pc + 3) (cond_offset o1 o2) else s.pc + 3 }))
      ∧ (s.P[s.pc]? = some IF_ICMPLE →
        step DEBUG bc0 nt s = .ok (.running { s with
          S := rest,
          pc := if x ≤ y then branch_pc (s.pc + 3) (cond_offset o1 o2) else s.pc + 3 })))
    ∧ (s.P[s.pc]? = some IF_ICMPLT ∨ s.P[s.pc]? = some IF_ICMPGE
        ∨ s.P[s.pc]? = some IF_ICMPGT ∨ s.P[s.pc]? = some IF_ICMPLE →
      (∀ (p : Nat) (rest : List c0_value), s.S = .ptr p :: rest →
        step DEBUG bc0 nt s = .error .value_error)
      ∧ (∀ (y : Int) (p : Nat) (rest : List c0_value), s.S = .int y :: .ptr p :: rest →
        step DEBUG bc0 nt s = .error .value_error)) := by
  refine ⟨fun x y rest o1 o2 hS h1 h2 => ⟨fun hop => ?_, fun hop => ?_, fun hop => ?_, fun hop => ?_⟩,
    fun hcase => ?_⟩
  · rw [step_IF_ICMPLT DEBUG bc0 nt s hop, exec_IF_ICMP_int _ s x y rest o1 o2 hS h1 h2]
    simp only [decide_eq_true_eq]
  · rw [step_IF_ICMPGE DEBUG bc0 nt s hop, exec_IF_ICMP_int _ s x y rest o1 o2 hS h1 h2]
    simp only [decide_eq_true_eq]
  · rw [step_IF_ICMPGT DEBUG bc0 nt s hop, exec_IF_ICMP_int _ s x y rest o1 o2 hS h1 h2]
    simp only [decide_eq_true_eq]
  · rw [step_IF_ICMPLE DEBUG bc0 nt s hop, exec_IF_ICMP_int _ s x y rest o1 o2 hS h1 h2]
    simp only [decide_eq_true_eq]
  · have hstep : ∃ cmp, step DEBUG bc0 nt s = exec_IF_ICMP cmp s := by
      rcases hcase with h | h | h | h
      · exact ⟨_, step_IF_ICMPLT DEBUG bc0 nt s h⟩
      · exact ⟨_, step_IF_ICMPGE DEBUG bc0 nt s h⟩
      · exact ⟨_, step_IF_ICMPGT DEBUG bc0 nt s h⟩
      · exact ⟨_, step_IF_ICMPLE DEBUG bc0 nt s h⟩
    obtain ⟨cmp, hc⟩ := hstep
    rw [hc]
    exact ⟨fun p rest hS => exec_IF_ICMP_ptr_top cmp s p rest hS,
      fun y p rest hS => exec_IF_ICMP_ptr_second cmp s y p rest hS⟩

/-- Instance of C11: `IF_ICMPLT 0x00 0x05` at address 0 on the stack 1, 2 (2 on top) above
a 9 branches to address 5 and leaves the 9. -/
theorem C11_if_icmp_witness :
    (ex_cmp_state IF_ICMPLT [.int 2, .int 1, .int 9]).S = [.int 2, .int 1, .int 9]
    ∧ (ex_cmp_state IF_ICMPLT [.int 2, .int 1, .int 9]).P[
        (ex_cmp_state IF_ICMPLT [.int 2, .int 1, .int 9]).pc]? = some IF_ICMPLT
    ∧ step false ex_bc0 [] (ex_cmp_state IF_ICMPLT [.int 2, .int 1, .int 9])
        = .ok (.running { ex_cmp_state IF_ICMPLT [.int 2, .int 1, .int 9] with
            S := [.int 9], pc := 5 }) :=
  ⟨rfl, rfl,
    ((C11_if_icmp false ex_bc0 [] (ex_cmp_state IF_ICMPLT [.int 2, .int 1, .int 9])).1
      1 2 [.int 9] 0x00 0x05 rfl rfl rfl).1 rfl⟩

/-- C12 (defect of the code): `NEWARRAY s` with a count `n > 0`, then `AADDS` at an index
`0 <= i < n`, should complete without error for every operand `s`.  The code reads the
operand of `NEWARRAY` through the signed type `byte`, so for `s = 200` it asks the
allocator for `(size_t)(-56)` elements: the program `BIPUSH 3, NEWARRAY 200, BIPUSH 1,
AADDS` (`n = 3`, `i = 1`) ends at `NEWARRAY` with a failed allocation, whereas the same
program with operand 4 completes and leaves the address of element 1. -/
theorem C12_newarray_aadds_operand_200 :
    run false (ex_program [] (ex_newarray_aadds 200)) [] 1 (ex_start (ex_newarray_aadds 200))
      = some (ex_at (ex_newarray_aadds 200) 2 [.int 3])
    ∧ (ex_newarray_aadds 200)[2]? = some NEWARRAY
    ∧ step false (ex_program [] (ex_newarray_aadds 200)) []
        (ex_at (ex_newarray_aadds 200) 2 [.int 3]) = .error .alloc_failed
    ∧ execute false (ex_program [] (ex_newarray_aadds 200)) [] ex_heap 4
        = .error .alloc_failed
    ∧ (0 : Int) ≤ 1 ∧ (1 : Int) < 3
    ∧ (run false (ex_program [] (ex_newarray_aadds 4)) [] 4
        (ex_start (ex_newarray_aadds 4))).map (fun s => (s.S, s.pc))
        = some ([.ptr 4100], 7) := by
  refine ⟨rfl, rfl, rfl, rfl, by decide, by decide, rfl⟩

/-- C13 (defect of the code): `NEWARRAY s` with a count `n > 0` should push a descriptor
with `elt_size = s` for every operand byte `s` in `0..255`.  The code reads the operand
through the signed type `byte`: for the operand 200 the element size it uses is `-56`,
the allocator is asked for `18446744073709551560` elements, and the program
`BIPUSH 1, NEWARRAY 200` ends with a failed allocation instead of pushing a descriptor. -/
theorem C13_newarray_operand_200 :
    run false (ex_program [] (ex_newarray 200)) [] 1 (ex_start (ex_newarray 200))
      = some (ex_at (ex_newarray 200) 2 [.int 1])
    ∧ (ex_newarray 200)[2]? = some NEWARRAY ∧ (ex_newarray 200)[3]? = some 200
    ∧ byte_of_ubyte 200 = -56
    ∧ size_t_wrap (-56) = 18446744073709551560
    ∧ xcalloc ex_heap 18446744073709551560 1 = .error .alloc_failed
    ∧ step false (ex_program [] (ex_newarray 200)) [] (ex_at (ex_newarray 200) 2 [.int 1])
        = .error .alloc_failed := by
  refine ⟨rfl, rfl, rfl, rfl, rfl, rfl, rfl⟩

/-- C14 (defect of the code): `AADDS` should push `A.elems + i * s` with the product taken
over the integers.  The code multiplies in the 32-bit type `int`: on the array of
`2^28 + 1` elements of size 8 made by `NEWARRAY 8` (descriptor at `2147487752`, count
`268435457`, element size 8, elements at `4096`) and the index `i = 2^28`, it pushes the
address `4096 - 2^31` (modulo `2^64`) where `4096 + 2^28 * 8 = 2147487744` is expected. -/
theorem C14_aadds_product_wraps :
    (run false (ex_program [268435456, 268435457] ex_big_index) [] 3
        (ex_start ex_big_index)).map
          (fun s => (s.S, s.P[s.pc]?, s.H.read_int 2147487752, s.H.read_int (2147487752 + 4),
            s.H.read_ptr (2147487752 + 8)))
      = some ([.int 268435456, .ptr 2147487752], some AADDS, 268435457, 8, 4096)
    ∧ (run false (ex_program [268435456, 268435457] ex_big_index) [] 4
        (ex_start ex_big_index)).map (fun s => s.S)
      = some [.ptr 18446744071562072064]
    ∧ (18446744071562072064 : Int) = 4096 - 2 ^ 31 + 2 ^ 64
    ∧ (4096 : Int) + 268435456 * 8 = 2147487744
    ∧ int_mul 8 268435456 = -2147483648 := by
  refine ⟨rfl, rfl, by norm_num, by norm_num, rfl⟩

/-- C15 (defect of the code): `NEWARRAY s` followed by `ARRAYLENGTH` should leave the
count `n` on the stack for every element size `s` and every `n >= 0`.  Since the code
reads the operand of `NEWARRAY` through the signed type `byte`, the program
`BIPUSH 3, NEWARRAY 200, ARRAYLENGTH` ends at `NEWARRAY` with a failed allocation,
whereas the same program with operand 4 leaves 3 on the stack. -/
theorem C15_newarray_arraylength_operand_200 :
    run false (ex_program [] (ex_newarray_length 200)) [] 1 (ex_start (ex_newarray_length 200))
      = some (ex_at (ex_newarray_length 200) 2 [.int 3])
    ∧ (ex_newarray_length 200)[2]? = some NEWARRAY
    ∧ step false (ex_program [] (ex_newarray_length 200)) []
        (ex_at (ex_newarray_length 200) 2 [.int 3]) = .error .alloc_failed
    ∧ execute false (ex_program [] (ex_newarray_length 200)) [] ex_heap 3
        = .error .alloc_failed
    ∧ (run false (ex_program [] (ex_newarray_length 4)) [] 3
        (ex_start (ex_newarray_length 4))).map (fun s => (s.S, s.pc))
        = some ([.int 3], 5) := by
  refine ⟨rfl, rfl, rfl, rfl, rfl⟩

/-- C16: each of `IMLOAD`, `AMLOAD`, `CMLOAD`, `IMSTORE`, `AMSTORE` and `CMSTORE` raises
a memory error when its address operand is the null pointer (for the stores: beneath an
integer, a pointer and an integer respectively); the run ends there, so that no heap cell
is written. -/
theorem C16_null_load_store (DEBUG : Bool) (bc0 : bc0_file) (nt : List native_fn) (s : State)
    (rest : List c0_value) :
    (s.P[s.pc]? = some IMLOAD → s.S = .ptr 0 :: rest →
      step DEBUG bc0 nt s = .error .memory_error)
    ∧ (s.P[s.pc]? = some AMLOAD → s.S = .ptr 0 :: rest →
      step DEBUG bc0 nt s = .error .memory_error)
    ∧ (s.P[s.pc]? = some CMLOAD → s.S = .ptr 0 :: rest →
      step DEBUG bc0 nt s = .error .memory_error)
    ∧ (∀ x : Int, s.P[s.pc]? = some IMSTORE → s.S = .int x :: .ptr 0 :: rest →
      step DEBUG bc0 nt s = .error .memory_error)
    ∧ (∀ b : Nat, s.P[s.pc]? = some AMSTORE → s.S = .ptr b :: .ptr 0 :: rest →
      step DEBUG bc0 nt s = .error .memory_error)
    ∧ (∀ x : Int, s.P[s.pc]? = some CMSTORE → s.S = .int x :: .ptr 0 :: rest →
      step DEBUG bc0 nt s = .error .memory_error) := by
  refine ⟨fun hop hS => ?_, fun hop hS => ?_, fun hop hS => ?_, fun x hop hS => ?_,
    fun b hop hS => ?_, fun x hop hS => ?_⟩
  · rw [step_IMLOAD DEBUG bc0 nt s hop]
    simp [exec_IMLOAD, hS, c0v_pop, val2ptr, NULL, c0_memory_error, bind, Except.bind]
  · rw [step_AMLOAD DEBUG bc0 nt s hop]
    simp [exec_AMLOAD, hS, c0v_pop, val2ptr, NULL, c0_memory_error, bind, Except.bind]
  · rw [step_CMLOAD DEBUG bc0 nt s hop]
    simp [exec_CMLOAD, hS, c0v_pop, val2ptr, NULL, c0_memory_error, bind, Except.bind]
  · rw [step_IMSTORE DEBUG bc0 nt s hop]
    simp [exec_IMSTORE, hS, c0v_pop, val2ptr, val2int, NULL, c0_memory_error, bind,
      Except.bind]
  · rw [step_AMSTORE DEBUG bc0 nt s hop]
    simp [exec_AMSTORE, hS, c0v_pop, val2ptr, NULL, c0_memory_error, bind, Except.bind]
  · rw [step_CMSTORE DEBUG bc0 nt s hop]
    simp [exec_CMSTORE, hS, c0v_pop, val2ptr, val2int, NULL, c0_memory_error, bind,
      Except.bind]

/-- Instance of C16: the program `ACONST_NULL, BIPUSH 1, IMSTORE` reaches `IMSTORE` with
1 above the null pointer and ends with a memory error. -/
theorem C16_null_load_store_witness :
    run false (ex_program [] ex_null_store) [] 2 (ex_start ex_null_store)
      = some (ex_at ex_null_store 3 [.int 1, .ptr 0])
    ∧ (ex_at ex_null_store 3 [.int 1, .ptr 0]).P[(ex_at ex_null_store 3 [.int 1, .ptr 0]).pc]?
        = some IMSTORE
    ∧ step false (ex_program [] ex_null_store) [] (ex_at ex_null_store 3 [.int 1, .ptr 0])
        = .error .memory_error
    ∧ execute false (ex_program [] ex_null_store) [] ex_heap 3 = .error .memory_error :=
  ⟨rfl, rfl,
    (C16_null_load_store false (ex_program [] ex_null_store) []
      (ex_at ex_null_store 3 [.int 1, .ptr 0]) []).2.2.2.1 1 rfl rfl,
    rfl⟩

/-- C17 as stated fails: in the program `ACONST_NULL, AADDF 8, IMLOAD` the load is
executed on the pointer 8 that `AADDF 8` made from the null pointer; its null test
passes and the run ends at the access to address 8, which is in no allocated block (an
undefined access), not with the memory error; likewise for the store in
`ACONST_NULL, AADDF 8, BIPUSH 1, IMSTORE`. -/
theorem C17_null_field_access_not_memory_error :
    run false (ex_program [] ex_null_field_load) [] 2 (ex_start ex_null_field_load)
      = some (ex_at ex_null_field_load 3 [.ptr 8])
    ∧ ex_null_field_load[3]? = some IMLOAD
    ∧ step false (ex_program [] ex_null_field_load) [] (ex_at ex_null_field_load 3 [.ptr 8])
        = .error .undefined
    ∧ step false (ex_program [] ex_null_field_load) [] (ex_at ex_null_field_load 3 [.ptr 8])
        ≠ .error .memory_error
    ∧ execute false (ex_program [] ex_null_field_load) [] ex_heap 3 = .error .undefined
    ∧ run false (ex_program [] ex_null_field_store) [] 3 (ex_start ex_null_field_store)
      = some (ex_at ex_null_field_store 5 [.int 1, .ptr 8])
    ∧ ex_null_field_store[5]? = some IMSTORE
    ∧ step false (ex_program [] ex_null_field_store) []
        (ex_at ex_null_field_store 5 [.int 1, .ptr 8]) = .error .undefined
    ∧ step false (ex_program [] ex_null_field_store) []
        (ex_at ex_null_field_store 5 [.int 1, .ptr 8]) ≠ .error .memory_error
    ∧ execute false (ex_program [] ex_null_field_store) [] ex_heap 4 = .error .undefined := by
  have h1 : step false (ex_program [] ex_null_field_load) []
      (ex_at ex_null_field_load 3 [.ptr 8]) = .error .undefined := rfl
  have h2 : step false (ex_program [] ex_null_field_store) []
      (ex_at ex_null_field_store 5 [.int 1, .ptr 8]) = .error .undefined := rfl
  refine ⟨rfl, rfl, h1, ?_, rfl, rfl, rfl, h2, ?_, rfl⟩
  · rw [h1]
    intro h
    cases h
  · rw [h2]
    intro h
    cases h

/-- C17 (amended): `AADDF f` on the null pointer never traps: it pushes the address `f`
and goes on after its operand byte.  A load or store (`IMLOAD`, `AMLOAD`, `CMLOAD`,
`IMSTORE`, `AMSTORE`, `CMSTORE`) executed on that pointer, on a heap none of whose
allocated blocks begins below address 256, ends the run without a successor state (so
that no heap cell is modified): with the memory error when `f = 0`, and for `f` in
`1..255`, where the null test passes, at the access itself, which is outside every
allocated block and undefined. -/
theorem C17_null_field_access (DEBUG : Bool) (bc0 : bc0_file) (nt : List native_fn)
    (s : State) (f : ubyte) (rest : List c0_value)
    (hop : s.P[s.pc]? = some AADDF) (hf : s.P[s.pc + 1]? = some f)
    (hS : s.S = .ptr 0 :: rest) :
    step DEBUG bc0 nt s = .ok (.running { s with pc := s.pc + 2, S := .ptr f.val :: rest })
    ∧ ∀ (t : State) (rest1 : List c0_value), (∀ b ∈ t.H.blocks, 256 ≤ b.1) →
        (t.P[t.pc]? = some IMLOAD → t.S = .ptr f.val :: rest1 →
          step DEBUG bc0 nt t = .error (if f.val = 0 then .memory_error else .undefined))
        ∧ (t.P[t.pc]? = some AMLOAD → t.S = .ptr f.val :: rest1 →
          step DEBUG bc0 nt t = .error (if f.val = 0 then .memory_error else .undefined))
        ∧ (t.P[t.pc]? = some CMLOAD → t.S = .ptr f.val :: rest1 →
          step DEBUG bc0 nt t = .error (if f.val = 0 then .memory_error else .undefined))
        ∧ (∀ x : Int, t.P[t.pc]? = some IMSTORE → t.S = .int x :: .ptr f.val :: rest1 →
          step DEBUG bc0 nt t = .error (if f.val = 0 then .memory_error else .undefined))
        ∧ (∀ p : Nat, t.P[t.pc]? = some AMSTORE → t.S = .ptr p :: .ptr f.val :: rest1 →
          step DEBUG bc0 nt t = .error (if f.val = 0 then .memory_error else .undefined))
        ∧ (∀ x : Int, t.P[t.pc]? = some CMSTORE → t.S = .int x :: .ptr f.val :: rest1 →
          step DEBUG bc0 nt t = .error (if f.val = 0 then .memory_error else .undefined)) := by
  refine ⟨by rw [step_AADDF DEBUG bc0 nt s hop, exec_AADDF_null s f rest hf hS], ?_⟩
  intro t rest1 hlow
  have hlt := f.isLt
  refine ⟨fun h hS1 => ?_, fun h hS1 => ?_, fun h hS1 => ?_, fun x h hS1 => ?_,
    fun p h hS1 => ?_, fun x h hS1 => ?_⟩
  · rw [step_IMLOAD DEBUG bc0 nt t h]
    exact (exec_load_low t f.val rest1 hlow hlt hS1).1
  · rw [step_AMLOAD DEBUG bc0 nt t h]
    exact (exec_load_low t f.val rest1 hlow hlt hS1).2.1
  · rw [step_CMLOAD DEBUG bc0 nt t h]
    exact (exec_load_low t f.val rest1 hlow hlt hS1).2.2
  · rw [step_IMSTORE DEBUG bc0 nt t h]
    exact (exec_store_low t f.val rest1 hlow hlt).1 x hS1
  · rw [step_AMSTORE DEBUG bc0 nt t h]
    exact (exec_store_low t f.val rest1 hlow hlt).2.1 p hS1
  · rw [step_CMSTORE DEBUG bc0 nt t h]
    exact (exec_store_low t f.val rest1 hlow hlt).2.2 x hS1

/-- Instance of C17 (amended): in `ACONST_NULL, AADDF 8, BIPUSH 1, IMSTORE`, `AADDF 8` on
the null pointer pushes the address 8 and goes on at address 3, and the `IMSTORE` of 1
through that pointer, on a heap with one block at 4096, ends the run at the access. -/
theorem C17_null_field_access_witness :
    step false ex_bc0 [] (ex_at ex_null_field_store 1 [.ptr 0])
      = .ok (.running (ex_at ex_null_field_store 3 [.ptr 8]))
    ∧ (∀ b ∈ ex_box_heap.blocks, 256 ≤ b.1)
    ∧ step false ex_bc0 []
        { ex_at ex_null_field_store 5 [.int 1, .ptr 8] with H := ex_box_heap }
      = .error .undefined := by
  have h := C17_null_field_access false ex_bc0 [] (ex_at ex_null_field_store 1 [.ptr 0]) 8 []
    rfl rfl rfl
  have hlow : ∀ b ∈ ex_box_heap.blocks, 256 ≤ b.1 := by decide
  exact ⟨h.1, hlow,
    (h.2 { ex_at ex_null_field_store 5 [.int 1, .ptr 8] with H := ex_box_heap } []
      hlow).2.2.2.1 1 rfl rfl⟩

/-- C18: for a non-null address `a` of a byte within an allocated block and an integer
`x`, `CMSTORE` writes the byte `x & 0x7F` (which is `x mod 128`, in `0..127`) at `a`,
changes no other byte of the heap (nor the allocator and its blocks, the locals and the
call stack), pops its two operands and advances `pc` by 1; a `CMLOAD` from `a` executed
on that heap pushes the integer `x & 0x7F`. -/
theorem C18_cmstore_cmload (DEBUG : Bool) (bc0 : bc0_file) (nt : List native_fn) (s : State)
    (a : Nat) (x : Int) (rest : List c0_value) (ha : a ≠ 0)
    (hacc : s.H.accessible a 1 = true)
    (hop : s.P[s.pc]? = some CMSTORE) (hS : s.S = .int x :: .ptr a :: rest) :
    int_and x 0x7f = x % 128 ∧ 0 ≤ x % 128 ∧ x % 128 ≤ 127
    ∧ ∃ s1 : State,
        step DEBUG bc0 nt s = .ok (.running s1)
        ∧ (s1.H.read8 a : Int) = x % 128
        ∧ (∀ b : Nat, b ≠ a → s1.H.read8 b = s.H.read8 b)
        ∧ s1.H.next = s.H.next ∧ s1.H.blocks = s.H.blocks
        ∧ s1.S = rest ∧ s1.pc = s.pc + 1 ∧ s1.V = s.V ∧ s1.callStack = s.callStack
        ∧ ∀ (t : State) (rest1 : List c0_value),
            t.H = s1.H → t.P[t.pc]? = some CMLOAD → t.S = .ptr a :: rest1 →
            step DEBUG bc0 nt t
              = .ok (.running { t with pc := t.pc + 1, S := .int (x % 128) :: rest1 }) := by
  have hr0 : 0 ≤ x % 128 := by omega
  have hr1 : x % 128 ≤ 127 := by omega
  have hrd : ((s.H.write8 a (to_unsigned (int_and x 0x7f))).read8 a : Int) = x % 128 := by
    rw [read8_write8, if_pos rfl, int_and_7f, to_unsigned_mod128]
    omega
  refine ⟨int_and_7f x, hr0, hr1,
    { s with pc := s.pc + 1, S := rest, H := s.H.write8 a (to_unsigned (int_and x 0x7f)) },
    ?_, hrd, ?_, rfl, rfl, rfl, rfl, rfl, rfl, ?_⟩
  · rw [step_CMSTORE DEBUG bc0 nt s hop]
    simp [exec_CMSTORE, hS, c0v_pop, val2ptr, val2int, NULL, ha, hacc, bind, Except.bind,
      pure, Except.pure]
  · intro b hb
    show (s.H.write8 a _).read8 b = _
    rw [read8_write8, if_neg hb]
  · intro t rest1 hH hopt hSt
    rw [step_CMLOAD DEBUG bc0 nt t hopt]
    have hacct : t.H.accessible a 1 = true := by
      rw [hH]
      exact hacc
    have hb : byte_of_ubyte (Fin.ofNat (t.H.read8 a)) = x % 128 := by
      rw [hH]
      have hlt : (s.H.write8 a (to_unsigned (int_and x 0x7f))).read8 a < 128 := by omega
      unfold byte_of_ubyte
      have hv : (Fin.ofNat ((s.H.write8 a (to_unsigned (int_and x 0x7f))).read8 a) :
          Fin 256).val = (s.H.write8 a (to_unsigned (int_and x 0x7f))).read8 a := by
        show _ % 256 = _
        omega
      rw [hv, if_pos hlt]
      exact hrd
    simp [exec_CMLOAD, hSt, c0v_pop, val2ptr, NULL, ha, hacct, bind, Except.bind, pure,
      Except.pure, c0v_push, int2val, hb]

/-- Instance of C18: the program `NEW 1, DUP, BIPUSH 0xC8, CMSTORE, CMLOAD` reaches its
`CMSTORE` with `-56` above the address 4096 of its one-byte block; the store writes the
byte 72 there, and the `CMLOAD` that follows pushes 72. -/
theorem C18_cmstore_cmload_witness :
    run false (ex_program [] ex_char_store) [] 3 (ex_start ex_char_store)
      = some ex_char_store_state
    ∧ ex_char_store_state.H.accessible 4096 1 = true
    ∧ (∃ s1 : State,
        step false (ex_program [] ex_char_store) [] ex_char_store_state = .ok (.running s1)
        ∧ (s1.H.read8 4096 : Int) = 72
        ∧ s1.S = [.ptr 4096]
        ∧ step false (ex_program [] ex_char_store) [] s1
          = .ok (.running { s1 with pc := s1.pc + 1, S := [.int 72] }))
    ∧ (run false (ex_program [] ex_char_store) [] 5 (ex_start ex_char_store)).map
        (fun s => s.S) = some [.int 72] := by
  obtain ⟨-, -, -, s1, hs, hr, -, -, -, hS1, -, -, -, hload⟩ :=
    C18_cmstore_cmload false (ex_program [] ex_char_store) [] ex_char_store_state
      4096 (-56) [.ptr 4096] (by decide) rfl rfl rfl
  have h1 : step false (ex_program [] ex_char_store) [] ex_char_store_state
      = .ok (.running { ex_char_store_state with
          pc := 6, S := [.ptr 4096], H := ex_char_store_state.H.write8 4096 72 }) := rfl
  have hpc : s1.P[s1.pc]? = some CMLOAD := by
    rw [h1] at hs
    injection hs with hs
    injection hs with hs
    subst hs
    rfl
  exact ⟨rfl, rfl, ⟨s1, hs, hr, hS1, hload s1 [] rfl hpc hS1⟩, rfl⟩

/-- C19: with a pointer `m` on top of the operand stack and an integer `c` beneath it,
`ASSERT` raises the assertion failure carrying the message `m` exactly when `c = 0`; for
`c != 0` it removes those two values, advances `pc` by 1 and changes nothing else (the
rest of the stack, the locals, the call stack, the code and the heap). -/
theorem C19_assert (DEBUG : Bool) (bc0 : bc0_file) (nt : List native_fn) (s : State)
    (m : Nat) (c : Int) (rest : List c0_value)
    (hop : s.P[s.pc]? = some ASSERT) (hS : s.S = .ptr m :: .int c :: rest) :
    (step DEBUG bc0 nt s = .error (.assertion_failure m) ↔ c = 0)
    ∧ (c ≠ 0 → step DEBUG bc0 nt s = .ok (.running { s with pc := s.pc + 1, S := rest })) := by
  rw [step_ASSERT DEBUG bc0 nt s hop]
  simp only [exec_ASSERT, hS, c0v_pop, val2ptr, val2int, c0_assertion_failure, bind,
    Except.bind, pure, Except.pure]
  by_cases hc : c = 0
  · simp [hc]
  · simp [hc]

/-- Instance of C19: `ASSERT` on the message pointer 1024 above the integer 1 above a 9
continues at the next address with the 9 alone. -/
theorem C19_assert_witness :
    (ex_at [ASSERT] 0 [.ptr 1024, .int 1, .int 9]).P[
        (ex_at [ASSERT] 0 [.ptr 1024, .int 1, .int 9]).pc]? = some ASSERT
    ∧ (ex_at [ASSERT] 0 [.ptr 1024, .int 1, .int 9]).S = [.ptr 1024, .int 1, .int 9]
    ∧ step false ex_bc0 [] (ex_at [ASSERT] 0 [.ptr 1024, .int 1, .int 9])
        = .ok (.running (ex_at [ASSERT] 1 [.int 9])) :=
  ⟨rfl, rfl,
    (C19_assert false ex_bc0 [] (ex_at [ASSERT] 0 [.ptr 1024, .int 1, .int 9]) 1024 1
      [.int 9] rfl rfl).2 (by decide)⟩

/-- C20 as stated fails: the program `BIPUSH 1, BIPUSH 2, RETURN` terminates normally
with exit value 2, and its final `RETURN` is executed with the two values 2 and 1 on the
operand stack of the bottom frame, not exactly one. -/
theorem C20_two_values_at_return :
    execute false (ex_program [] ex_two_values) [] ex_heap 3 = .ok (some 2)
    ∧ initial_state (ex_program [] ex_two_values) ex_heap = .ok (ex_start ex_two_values)
    ∧ run false (ex_program [] ex_two_values) [] 2 (ex_start ex_two_values)
        = some (ex_at ex_two_values 4 [.int 2, .int 1])
    ∧ (ex_at ex_two_values 4 [.int 2, .int 1]).P[(ex_at ex_two_values 4 [.int 2, .int 1]).pc]?
        = some RETURN
    ∧ step false (ex_program [] ex_two_values) [] (ex_at ex_two_values 4 [.int 2, .int 1])
        = .ok (.returned 2)
    ∧ (ex_at ex_two_values 4 [.int 2, .int 1]).S.length = 2
    ∧ ¬ ∃ x : c0_value, (ex_at ex_two_values 4 [.int 2, .int 1]).S = [x] := by
  refine ⟨rfl, rfl, rfl, rfl, rfl, rfl, ?_⟩
  rintro ⟨x, hx⟩
  have := congrArg List.length hx
  simp [ex_at] at this

/-- C20 (amended): whenever `execute` terminates normally with exit value `r`, the run
reaches a `RETURN` that is executed with an empty call stack (in the bottom frame) and
with the integer `r` on top of the operand stack; the values beneath it are not
constrained. -/
theorem C20_final_return (DEBUG : Bool) (bc0 : bc0_file) (nt : List native_fn) (H : Heap)
    (fuel : Nat) (r : Int)
    (h : execute DEBUG bc0 nt H fuel = .ok (some r)) :
    ∃ (s0 s : State) (k : Nat) (rest : List c0_value),
      initial_state bc0 H = .ok s0
      ∧ k < fuel ∧ run DEBUG bc0 nt k s0 = some s
      ∧ s.P[s.pc]? = some RETURN
      ∧ step DEBUG bc0 nt s = .ok (.returned r)
      ∧ s.callStack = []
      ∧ s.S = .int r :: rest := by
  unfold execute at h
  cases hi : initial_state bc0 H with
  | error e => simp [hi, bind, Except.bind] at h
  | ok s0 =>
    simp only [hi, bind, Except.bind] at h
    obtain ⟨k, s, hk, hrun, hst⟩ := iterate_returned DEBUG bc0 nt fuel s0 r h
    rcases step_return_or_not DEBUG bc0 nt s with ⟨hop, hret⟩ | hnr
    · rw [hret] at hst
      obtain ⟨hC, rest, hS⟩ := exec_RETURN_returned s r hst
      exact ⟨s0, s, k, rest, rfl, hk, hrun, hop, by rw [hret, hst], hC, hS⟩
    · exact absurd hst (hnr r)

/-- Instance of C20 (amended): the program `BIPUSH 7, RETURN` terminates with exit value
7. -/
theorem C20_final_return_witness :
    execute false (ex_program [] ex_return_seven) [] ex_heap 2 = .ok (some 7)
    ∧ ∃ (s0 s : State) (k : Nat) (rest : List c0_value),
      initial_state (ex_program [] ex_return_seven) ex_heap = .ok s0
      ∧ k < 2 ∧ run false (ex_program [] ex_return_seven) [] k s0 = some s
      ∧ s.P[s.pc]? = some RETURN
      ∧ step false (ex_program [] ex_return_seven) [] s = .ok (.returned 7)
      ∧ s.callStack = []
      ∧ s.S = .int 7 :: rest :=
  ⟨rfl, C20_final_return false (ex_program [] ex_return_seven) [] ex_heap 2 7 rfl⟩

/-- C21: when the byte `b` at the current `pc` is none of the opcodes that have a case of
their own in the `switch` of `execute`, the iteration ends the run with the
invalid-opcode diagnostic for `b` and there is no successor state, whatever the operand
stack, the locals, the call stack and the heap hold; this is so in particular for the six
C1 opcodes `ADDROF_STATIC`, `ADDROF_NATIVE`, `INVOKEDYNAMIC`, `CHECKTAG`, `HASTAG` and
`ADDTAG`. -/
theorem C21_invalid_opcode (DEBUG : Bool) (bc0 : bc0_file) (nt : List native_fn) (s : State)
    (b : ubyte) (hop : s.P[s.pc]? = some b) :
    (b ∉ handled_opcodes → step DEBUG bc0 nt s = .error (.invalid_opcode b))
    ∧ (b ∈ [ADDROF_STATIC, ADDROF_NATIVE, INVOKEDYNAMIC, CHECKTAG, HASTAG, ADDTAG] →
        step DEBUG bc0 nt s = .error (.invalid_opcode b)) := by
  refine ⟨step_default DEBUG bc0 nt s b hop, fun hb => ?_⟩
  apply step_default DEBUG bc0 nt s b hop
  simp only [List.mem_cons, List.mem_singleton, List.mem_nil_iff, or_false] at hb
  rcases hb with h | h | h | h | h | h <;> (rw [h]; decide)

/-- Instance of C21: `CHECKTAG` (byte `0xC0`) on a stack holding an integer and a pointer
ends the run with the invalid-opcode diagnostic for `0xC0`. -/
theorem C21_invalid_opcode_witness :
    (ex_at [CHECKTAG] 0 [.int 1, .ptr 0]).P[(ex_at [CHECKTAG] 0 [.int 1, .ptr 0]).pc]?
      = some CHECKTAG
    ∧ CHECKTAG ∉ handled_opcodes
    ∧ step false ex_bc0 [] (ex_at [CHECKTAG] 0 [.int 1, .ptr 0])
        = .error (.invalid_opcode 0xC0) :=
  ⟨rfl, by decide,
    (C21_invalid_opcode false ex_bc0 [] (ex_at [CHECKTAG] 0 [.int 1, .ptr 0]) CHECKTAG rfl).1
      (by decide)⟩

/-- C22: an iteration at the opcode `op` that completes without a trap, where `op` is
neither `GOTO`, `INVOKESTATIC` nor `RETURN` and no conditional branch is taken, goes on at
the address of the opcode plus 1 plus the number of its inline operand bytes: plus 1 for
the opcodes without operand, plus 2 for `BIPUSH`, `VLOAD`, `VSTORE`, `NEW`, `NEWARRAY` and
`AADDF`, plus 3 for `ILDC`, `ALDC`, `INVOKENATIVE` and the conditional branches (whose
condition is then false). -/
theorem C22_pc_advance (DEBUG : Bool) (bc0 : bc0_file) (nt : List native_fn) (s s1 : State)
    (op : ubyte) (hop : s.P[s.pc]? = some op)
    (hstep : step DEBUG bc0 nt s = .ok (.running s1))
    (hG : op ≠ GOTO) (hI : op ≠ INVOKESTATIC) (hR : op ≠ RETURN)
    (hb : taken_branch DEBUG s = false) :
    s1.pc = s.pc + 1 + operand_width op
    ∧ (op ∈ [NOP, POP, DUP, SWAP, IADD, ISUB, IMUL, IDIV, IREM, IAND, IOR, IXOR, ISHL, ISHR,
          ACONST_NULL, ASSERT, IMLOAD, IMSTORE, AMLOAD, AMSTORE, CMLOAD, CMSTORE,
          ARRAYLENGTH, AADDS] → s1.pc = s.pc + 1)
    ∧ (op ∈ [BIPUSH, VLOAD, VSTORE, NEW, NEWARRAY, AADDF] → s1.pc = s.pc + 2)
    ∧ (op ∈ [ILDC, ALDC, INVOKENATIVE, IF_CMPEQ, IF_CMPNE, IF_ICMPLT, IF_ICMPGE, IF_ICMPGT,
          IF_ICMPLE] → s1.pc = s.pc + 3) := by
  have h := step_advances DEBUG bc0 nt s op hop hG hI hR hb s1 hstep
  have h0 : s1.pc = s.pc + 1 + operand_width op := by rw [h, Nat.add_assoc]
  refine ⟨h0, fun hm => ?_, fun hm => ?_, fun hm => ?_⟩
  · have hw : operand_width op = 0 := by
      revert hm
      generalize op = o
      revert o
      decide
    rw [h0, hw]
  · have hw : operand_width op = 1 := by
      revert hm
      generalize op = o
      revert o
      decide
    rw [h0, hw]
  · have hw : operand_width op = 2 := by
      revert hm
      generalize op = o
      revert o
      decide
    rw [h0, hw]

/-- Instance of C22: `IF_ICMPLT` at address 0 on the integers 2 and 1 (1 on top), whose
condition `2 < 1` is false, goes on at address 3. -/
theorem C22_pc_advance_witness :
    step false ex_bc0 [] (ex_cmp_state IF_ICMPLT [.int 1, .int 2, .int 9])
      = .ok (.running { ex_cmp_state IF_ICMPLT [.int 9] with pc := 3 })
    ∧ taken_branch false (ex_cmp_state IF_ICMPLT [.int 1, .int 2, .int 9]) = false
    ∧ ({ ex_cmp_state IF_ICMPLT [.int 9] with pc := 3 } : State).pc
        = (ex_cmp_state IF_ICMPLT [.int 1, .int 2, .int 9]).pc + 1 + operand_width IF_ICMPLT :=
  ⟨rfl, rfl,
    (C22_pc_advance false ex_bc0 [] (ex_cmp_state IF_ICMPLT [.int 1, .int 2, .int 9])
      { ex_cmp_state IF_ICMPLT [.int 9] with pc := 3 } IF_ICMPLT rfl rfl
      (by decide) (by decide) (by decide) rfl).1⟩

/-- C23: `INVOKENATIVE c1 c2` with `n = native_pool[(c1<<8)|c2]`, on an operand stack
whose top `n.num_args` values were pushed in the order `args`, calls the native function
`native_function_table[n.function_table_index]` once, on the array `args` (and the
current heap); when the native returns, the arguments are gone from the operand stack
and its result is pushed in their place, `pc` has advanced by 3, the heap is the one the
native left, and the code, the locals and the call stack are unchanged (no frame is
pushed); when the native ends the run, so does the iteration. -/
theorem C23_invokenative (DEBUG : Bool) (bc0 : bc0_file) (nt : List native_fn) (s : State)
    (c1 c2 : ubyte) (n : native_info) (fn : native_fn) (args rest : List c0_value)
    (hop : s.P[s.pc]? = some INVOKENATIVE)
    (h1 : s.P[s.pc + 1]? = some c1) (h2 : s.P[s.pc + 2]? = some c2)
    (hn : bc0.native_pool[(c1.val <<< 8) ||| c2.val]? = some n)
    (hfn : nt[n.function_table_index]? = some fn)
    (hk : args.length = n.num_args) (hS : s.S = args.reverse ++ rest) :
    step DEBUG bc0 nt s
      = match fn args s.H with
        | .error e => .error e
        | .ok (result, H1) =>
            .ok (.running { s with pc := s.pc + 3, S := result :: rest, H := H1 }) := by
  have hpop := pop_args_ok n.num_args rest n.num_args 0 (calloc_values n.num_args) args hk
    (by omega) (by simp [calloc_values])
  simp only [calloc_values, List.drop_replicate, Nat.sub_self, List.replicate_zero,
    List.append_nil] at hpop
  rw [step_INVOKENATIVE DEBUG bc0 nt s hop]
  simp only [exec_INVOKENATIVE, fetch_of_get h1, fetch_of_get h2, pool_index, hn, hS,
    calloc_values, hpop, hfn, bind, Except.bind, pure, Except.pure, c0v_push]
  cases fn args s.H with
  | error e => rfl
  | ok r => rfl

/-- Instance of C23: `INVOKENATIVE 0x00 0x00` of the native that subtracts its second
argument from its first, with 7 and 2 pushed in that order above a 9, leaves 5 above the
9, goes on at address 3 and keeps the locals. -/
theorem C23_invokenative_witness :
    step false ex_native_bc0 [ex_native_sub]
        { ex_at [INVOKENATIVE, 0x00, 0x00] 0 [.int 2, .int 7, .int 9] with V := [.int 5] }
      = .ok (.running
          { ex_at [INVOKENATIVE, 0x00, 0x00] 3 [.int 5, .int 9] with V := [.int 5] }) :=
  C23_invokenative false ex_native_bc0 [ex_native_sub]
    { ex_at [INVOKENATIVE, 0x00, 0x00] 0 [.int 2, .int 7, .int 9] with V := [.int 5] }
    0x00 0x00 { num_args := 2, function_table_index := 0 } ex_native_sub
    [.int 7, .int 2] [.int 9] rfl rfl rfl rfl rfl rfl rfl

/-- C24: for booleans `n1`, `n2` and 16-bit indices `i1`, `i2`, the address
`create_funptr n1 i1` is a function pointer (`is_funptr` holds, it is not null and not
tagged), `is_native_funptr` returns `n1` on it and `funptr2index` returns `i1`, and
`val_equal` on two such pointers does not trap and returns true exactly when `n1 = n2`
and `i1 = i2`. -/
theorem C24_create_funptr (DEBUG : Bool) (H : Heap) (n1 n2 : Bool) (i1 i2 : Nat)
    (h1 : i1 < 2 ^ 16) (h2 : i2 < 2 ^ 16) :
    is_funptr (create_funptr n1 i1) = true
    ∧ create_funptr n1 i1 ≠ NULL
    ∧ is_taggedptr (create_funptr n1 i1) = false
    ∧ is_native_funptr (create_funptr n1 i1) = .ok n1
    ∧ funptr2index (create_funptr n1 i1) = .ok i1
    ∧ val_equal DEBUG H (ptr2val (create_funptr n1 i1)) (ptr2val (create_funptr n2 i2))
        = .ok (decide (n1 = n2 ∧ i1 = i2)) := by
  have hp1 := ptr_type_create_funptr n1 i1 h1
  have hp2 := ptr_type_create_funptr n2 i2 h2
  have hf1 : is_funptr (create_funptr n1 i1) = true := by
    simp [is_funptr, hp1, FUNPTR_BITS]
  have ht1 : is_taggedptr (create_funptr n1 i1) = false := by
    simp [is_taggedptr, hp1, TAGGEDPTR_BITS]
  have ht2 : is_taggedptr (create_funptr n2 i2) = false := by
    simp [is_taggedptr, hp2, TAGGEDPTR_BITS]
  have hnn : ∀ (n : Bool) (i : Nat), i < 2 ^ 16 → create_funptr n i ≠ 0 := by
    intro n i hi
    rw [create_funptr_eq n i hi]
    omega
  refine ⟨hf1, hnn n1 i1 h1, ht1, ?_, ?_, ?_⟩
  · simp only [is_native_funptr, hf1, Bool.not_true, Bool.false_eq_true, if_false]
    rw [create_funptr_eq n1 i1 h1, FUNPTR_TYPE_SHIFT, Nat.shiftRight_eq_div_pow,
      Nat.and_one_is_mod]
    cases n1
    · rw [if_neg (by decide)]
      have h0 : (2 ^ 62 + 0 + i1) / 2 ^ 31 % 2 = 0 := by omega
      rw [h0]
      rfl
    · rw [if_pos rfl]
      have h0 : (2 ^ 62 + 2 ^ 31 + i1) / 2 ^ 31 % 2 = 1 := by omega
      rw [h0]
      rfl
  · simp only [funptr2index, hf1, Bool.not_true, Bool.false_eq_true, if_false]
    have hm : (0xFFFF : Nat) = 2 ^ 16 - 1 := by norm_num
    rw [hm, Nat.and_pow_two_sub_one_eq_mod, create_funptr_eq n1 i1 h1]
    congr 1
    cases n1
    · rw [if_neg (by decide)]
      omega
    · rw [if_pos rfl]
      omega
  · have hinj := create_funptr_inj n1 n2 i1 i2 h1 h2
    have hn1 := hnn n1 i1 h1
    have hn2 := hnn n2 i2 h2
    generalize create_funptr n1 i1 = p1 at *
    generalize create_funptr n2 i2 = p2 at *
    have e1 : (p1 == NULL) = false := by simpa [NULL] using hn1
    have e2 : (p2 == NULL) = false := by simpa [NULL] using hn2
    have e3 : (ptr_type p1 != ptr_type p2) = false := by rw [hp1, hp2]; rfl
    simp only [val_equal, ptr2val, c0_value.kind, ne_eq, not_true_eq_false, if_false, e1, e2,
      e3, bne_self_eq_false, Bool.false_eq_true, Bool.false_and, ht1, ht2, Bool.not_false,
      Bool.and_self, if_true, pure, Except.pure]
    congr 1
    rw [beq_eq_decide]
    exact decide_eq_decide.mpr hinj

/-- Instance of C24: the native function pointer of index 258 is a function pointer with
these two components, and differs from the static function pointer of index 258. -/
theorem C24_create_funptr_witness :
    is_funptr (create_funptr true 258) = true
    ∧ create_funptr true 258 ≠ NULL
    ∧ is_taggedptr (create_funptr true 258) = false
    ∧ is_native_funptr (create_funptr true 258) = .ok true
    ∧ funptr2index (create_funptr true 258) = .ok 258
    ∧ val_equal false ex_heap (ptr2val (create_funptr true 258))
        (ptr2val (create_funptr false 258)) = .ok false :=
  C24_create_funptr false ex_heap true false 258 258 (by decide) (by decide)

end C0VM
